import Mathlib

/-!
# Payment settlement, order building and the organizer ledger of run-api

A shallow embedding of the handlers

* `AttendeeHandler.InitiateTicketPurchase` and `AttendeeHandler.VerifyPayment`
  (`internal/handlers/attendee_handler.go`),
* `OrganizerHandler.RequestWithdrawal` (`internal/handlers/organizer_handler.go`),
* `AdminHandler.ReviewWithdrawalRequest`, `AdminHandler.ProcessWithdrawal` and
  `AdminHandler.UpdatePlatformSettings` (`internal/handlers/admin_handler.go`),

together with the model methods they call (`internal/models`) and the Paystack
client (`internal/services/paystack.go`).

Conventions of the embedding:

* the database is a record of tables, each table a list of rows; `First` is
  `List.find?`, `Save` replaces the rows that carry the saved primary key;
* `float64` amounts are rationals; the handlers of the first sections compute on
  them exactly, and the handlers on rounded amounts round every operation, to
  the nearest `float64` under `Arith.float64`;
* a `Save(&balance)` whose error the handler does not read writes the row in
  the first sections; in the handlers on rounded amounts its outcome is an
  argument;
* Go `int` is a 64-bit two's complement integer: arithmetic on it goes through
  `wrapInt`;
* `time.Time` is an integer instant, `After` and `Before` are the strict orders;
* a UUID is its canonical text; `uuid.Nil` is `uuidNil`;
* what the outside world answers (the clock, the gateway, the identifiers the
  database generates, the insert errors the handlers test for) is an explicit
  argument of each handler.
-/

namespace RunApi

/-! ## Basic types -/

/-- A `uuid.UUID`, by its canonical text. -/
abbrev UUID := String

/-- The zero UUID, `uuid.Nil`. -/
def uuidNil : UUID := "00000000-0000-0000-0000-000000000000"

/-- A `time.Time` instant. -/
abbrev Time := Int

/-- Lower bound of Go's 64-bit `int`. -/
def minInt : Int := -9223372036854775808

/-- Upper bound of Go's 64-bit `int`. -/
def maxInt : Int := 9223372036854775807

/-- The value lies in the range of Go's `int`. -/
def isInt (x : Int) : Prop := minInt ≤ x ∧ x ≤ maxInt

instance (x : Int) : Decidable (isInt x) := by
  unfold isInt; exact inferInstance

/-- Two's complement wrap-around of an `int` result. -/
def wrapInt (x : Int) : Int := (x + 9223372036854775808) % 18446744073709551616 - 9223372036854775808

/-- A decoded JSON value, Go's `interface{}` after `json.Unmarshal`:
`nil`, `bool`, `float64`, `string`, `[]interface{}`, `map[string]interface{}`. -/
inductive JSONValue where
  | null
  | bool (b : Bool)
  | number (v : ℚ)
  | string (s : String)
  | array (xs : List JSONValue)
  | object (fields : List (String × JSONValue))

/-- A `map[string]interface{}`. -/
abbrev JSONMap := List (String × JSONValue)

/-- The map index expression `m[k]`: `none` when the key is absent. -/
def JSONMap.get (m : JSONMap) (k : String) : Option JSONValue := List.lookup k m

/-- The type assertion `v, _ := x.(string)`: the zero string unless `x` is a string. -/
def assertString : Option JSONValue → String
  | some (.string s) => s
  | _ => ""

/-! ## Models (`internal/models`) -/

inductive EventStatus where
  | draft | pending | approved | rejected | published | cancelled | completed
  deriving DecidableEq, Repr

inductive TransactionStatus where
  | pending | completed | failed | refunded
  deriving DecidableEq, Repr

inductive TransactionType where
  | ticketPurchase | refund | withdrawal
  deriving DecidableEq, Repr

inductive TicketStatus where
  | pending | confirmed | cancelled | used
  deriving DecidableEq, Repr

inductive WithdrawalStatus where
  | pending | approved | rejected | processed
  deriving DecidableEq, Repr

/-- The fields of `models.Event` the handlers below read. -/
structure Event where
  id : UUID
  title : String
  status : EventStatus
  organizerID : UUID
  deriving DecidableEq, Repr

/-- The zero value of `models.Event` (what `First` leaves when no row matches);
the zero `EventStatus` is the empty string, which is none of the seven named
statuses: `draft` stands for it, no handler below reads it. -/
def Event.zero : Event := { id := uuidNil, title := "", status := .draft, organizerID := uuidNil }

structure TicketType where
  id : UUID
  eventID : UUID
  name : String
  price : ℚ
  quantity : Int
  sold : Int
  maxPerOrder : Int
  saleStart : Time
  saleEnd : Time
  isActive : Bool
  deriving DecidableEq, Repr

/-- The zero value of `models.TicketType`. -/
def TicketType.zero : TicketType :=
  { id := uuidNil, eventID := uuidNil, name := "", price := 0, quantity := 0, sold := 0,
    maxPerOrder := 0, saleStart := 0, saleEnd := 0, isActive := false }

/-- `TicketType.IsAvailable`, with the reading of `time.Now()` as argument. -/
def TicketType.IsAvailable (t : TicketType) (now : Time) : Bool :=
  t.isActive && decide (t.sold < t.quantity) && decide (t.saleStart < now) && decide (now < t.saleEnd)

/-- `TicketType.RemainingTickets`. -/
def TicketType.RemainingTickets (t : TicketType) : Int := wrapInt (t.quantity - t.sold)

structure Transaction where
  id : UUID
  userID : UUID
  eventID : Option UUID
  type : TransactionType
  status : TransactionStatus
  amount : ℚ
  currency : String
  platformFee : ℚ
  netAmount : ℚ
  paymentGateway : String
  paymentReference : String
  description : String
  failureReason : String
  deriving DecidableEq, Repr

structure Ticket where
  id : UUID
  ticketNumber : String
  eventID : UUID
  ticketTypeID : UUID
  attendeeID : UUID
  transactionID : UUID
  status : TicketStatus
  price : ℚ
  qrCodeURL : String
  pdfURL : String
  deriving DecidableEq, Repr

structure PlatformSettings where
  id : UUID
  platformFeePercentage : ℚ
  withdrawalFeePercentage : ℚ
  minWithdrawalAmount : ℚ
  currency : String
  updatedBy : UUID
  deriving DecidableEq, Repr

/-- The zero value of `models.PlatformSettings`. -/
def PlatformSettings.zero : PlatformSettings :=
  { id := uuidNil, platformFeePercentage := 0, withdrawalFeePercentage := 0,
    minWithdrawalAmount := 0, currency := "", updatedBy := uuidNil }

structure WithdrawalRequest where
  id : UUID
  organizerID : UUID
  amount : ℚ
  withdrawalFee : ℚ
  netAmount : ℚ
  status : WithdrawalStatus
  bankName : String
  accountNumber : String
  accountName : String
  reviewedBy : Option UUID
  reviewedAt : Option Time
  reviewComment : String
  processedAt : Option Time
  transactionRef : String
  deriving DecidableEq, Repr

structure OrganizerBalance where
  id : UUID
  organizerID : UUID
  totalEarnings : ℚ
  availableBalance : ℚ
  pendingBalance : ℚ
  withdrawnAmount : ℚ
  deriving DecidableEq, Repr

/-! ## The database -/

/-- The tables the handlers below touch. -/
structure Store where
  events : List Event
  ticketTypes : List TicketType
  tickets : List Ticket
  transactions : List Transaction
  balances : List OrganizerBalance
  withdrawals : List WithdrawalRequest
  settings : List PlatformSettings
  deriving DecidableEq, Repr

/-- `First` on a table: the first row that satisfies the condition, the rows
being listed in the order of the scan. The lookups below are by primary key, by
payment reference or by organizer, each under a unique index of the schema, so
at most one stored row matches. -/
def first {α : Type} (p : α → Bool) (rows : List α) : Option α := rows.find? p

/-- `Save` of a row that was read from the table: every row carrying its primary
key is replaced by it. (`Save` of a zero-valued record, whose primary key is
`uuid.Nil`, is an insert that the foreign keys of the schema refuse; no row
carries `uuid.Nil`, so the replacement below changes nothing in that case.) -/
def save {α : Type} (key : α → UUID) (r : α) (rows : List α) : List α :=
  rows.map fun x => if key x = key r then r else x

/-! ## The Paystack client (`internal/services/paystack.go`) -/

/-- `PaystackVerifyResponse`: the fields the handlers read. -/
structure PaystackVerifyResponse where
  status : Bool
  message : String
  dataStatus : String
  dataAmount : Int
  metadata : JSONMap

/-- What happens to the HTTP exchange of `VerifyTransaction`, step by step. -/
inductive VerifyExchange where
  | notConfigured
  | requestError (e : String)
  | sendError (e : String)
  | readError (e : String)
  | unmarshalError (e : String)
  | body (r : PaystackVerifyResponse)

/-- `PaystackService.VerifyTransaction`: the decoded body, or the error text. -/
def VerifyTransaction : VerifyExchange → Except String PaystackVerifyResponse
  | .notConfigured => .error "paystack not configured"
  | .requestError e => .error ("failed to create request: " ++ e)
  | .sendError e => .error ("failed to send request: " ++ e)
  | .readError e => .error ("failed to read response: " ++ e)
  | .unmarshalError e => .error ("failed to unmarshal response: " ++ e)
  | .body r => if !r.status then .error ("paystack error: " ++ r.message) else .ok r

/-- `PaystackService.IsTransactionSuccessful`. -/
def IsTransactionSuccessful (v : PaystackVerifyResponse) : Bool :=
  v.status && v.dataStatus == "success"

/-! ## Settlement: `AttendeeHandler.VerifyPayment` -/

/-- The conversion `int(v)` of a `float64`: the fractional part is discarded
(for a value within the range of `int`). -/
def truncToInt (v : ℚ) : Int := Int.tdiv v.num v.den

/-- `strconv.Atoi`: an optional sign and at least one decimal digit, within the
range of `int`; `none` stands for the error. -/
def Atoi (s : String) : Option Int :=
  let split : Bool × List Char :=
    match s.toList with
    | '-' :: r => (true, r)
    | '+' :: r => (false, r)
    | r => (false, r)
  if split.2.isEmpty || !split.2.all Char.isDigit then none
  else
    let n : Int := Int.ofNat (split.2.foldl (fun a c => 10 * a + (c.toNat - 48)) 0)
    let v : Int := if split.1 then -n else n
    if minInt ≤ v ∧ v ≤ maxInt then some v else none

/-- The type switch on `item["quantity"]`. -/
def decodeQuantity : Option JSONValue → Int
  | some (.number v) => truncToInt v
  | some (.string s) =>
    match Atoi s with
    | some parsed => parsed
    | none => 1
  | _ => 1

/-- The cart items of the metadata: the elements of `metadata["items"]` that
are objects, when it is an array. -/
def cartItems (metadata : JSONMap) : List JSONMap :=
  match metadata.get "items" with
  | some (.array items) =>
    items.filterMap fun item =>
      match item with
      | .object m => some m
      | _ => none
  | _ => []

/-- The outside world of one `VerifyPayment` call: the gateway exchange, the
answer of the database to the k-th `Create(&ticket)` of the call (`none`: an
error; otherwise the generated id and ticket number), and the URLs the asset
services return for it (empty on failure). -/
structure SettleEnv where
  exchange : VerifyExchange
  createTicket : Nat → Option (UUID × String)
  qrURL : Nat → String
  pdfURL : Nat → String

/-- The loop state of ticket creation: the database, the local slice `tickets`
and the number of `Create(&ticket)` calls made so far. -/
structure Issue where
  store : Store
  tickets : List Ticket
  attempts : Nat

/-- The ticket row of the k-th `Create(&ticket)` of the call, as it stands after
the final `Save(&ticket)`: the generated id and number, and the asset URLs. -/
def newTicket (env : SettleEnv) (event : Event) (transaction : Transaction)
    (ticketType : TicketType) (k : Nat) (id : UUID) (number : String) : Ticket :=
  { id := id, ticketNumber := number, eventID := event.id, ticketTypeID := ticketType.id,
    attendeeID := transaction.userID, transactionID := transaction.id,
    status := .confirmed, price := ticketType.price,
    qrCodeURL := env.qrURL k, pdfURL := env.pdfURL k }

/-- One iteration of the inner loop: create one ticket, `continue` on error. -/
def issueUnit (env : SettleEnv) (event : Event) (transaction : Transaction)
    (ticketType : TicketType) (st : Issue) : Issue :=
  match env.createTicket st.attempts with
  | none => { st with attempts := st.attempts + 1 }
  | some (id, number) =>
    let ticket := newTicket env event transaction ticketType st.attempts id number
    { store := { st.store with tickets := st.store.tickets ++ [ticket] },
      tickets := st.tickets ++ [ticket],
      attempts := st.attempts + 1 }

/-- The inner loop `for i := 0; i < quantity; i++`, by the number of iterations left. -/
def issueUnits (env : SettleEnv) (event : Event) (transaction : Transaction)
    (ticketType : TicketType) : Nat → Issue → Issue
  | 0, st => st
  | n + 1, st => issueUnits env event transaction ticketType n
      (issueUnit env event transaction ticketType st)

/-- The body of the outer loop, for one cart item: decode it, read the ticket
type, create the tickets, then add the quantity to `Sold` and save. -/
def issueItem (env : SettleEnv) (event : Event) (transaction : Transaction)
    (item : JSONMap) (st : Issue) : Issue :=
  let ticketTypeID := assertString (item.get "ticket_type_id")
  let quantity := decodeQuantity (item.get "quantity")
  let ticketType := (first (fun t => t.id == ticketTypeID) st.store.ticketTypes).getD TicketType.zero
  let st1 := issueUnits env event transaction ticketType quantity.toNat st
  let ticketType1 := { ticketType with sold := wrapInt (ticketType.sold + quantity) }
  { st1 with store :=
      { st1.store with ticketTypes := save TicketType.id ticketType1 st1.store.ticketTypes } }

/-- The outer loop over the cart items. -/
def issueItems (env : SettleEnv) (event : Event) (transaction : Transaction) :
    List JSONMap → Issue → Issue
  | [], st => st
  | item :: rest, st => issueItems env event transaction rest
      (issueItem env event transaction item st)

/-- The credit of the organizer balance, applied when the row is found. -/
def creditOrganizer (organizerID : UUID) (net : ℚ) (balances : List OrganizerBalance) :
    List OrganizerBalance :=
  match first (fun b => b.organizerID == organizerID) balances with
  | some balance =>
    save OrganizerBalance.id
      { balance with
        totalEarnings := balance.totalEarnings + net,
        availableBalance := balance.availableBalance + net } balances
  | none => balances

/-- The responses of `VerifyPayment`. -/
inductive SettleResponse where
  | referenceRequired
  | transactionNotFound
  | alreadyVerified (tickets : List Ticket)
  | verificationFailed
  | notSuccessful
  | verified (tickets : List Ticket)

/-- The HTTP status of a response of `VerifyPayment`. -/
def SettleResponse.code : SettleResponse → Nat
  | .referenceRequired => 400
  | .transactionNotFound => 404
  | .alreadyVerified _ => 200
  | .verificationFailed => 400
  | .notSuccessful => 400
  | .verified _ => 200

/-- The tickets a response of `VerifyPayment` carries. -/
def SettleResponse.tickets : SettleResponse → List Ticket
  | .alreadyVerified ts => ts
  | .verified ts => ts
  | _ => []

/-- The two failure branches of `VerifyPayment`: the transaction is saved with
status `failed` and the given reason. -/
def failTransaction (s : Store) (transaction : Transaction) (reason : String) : Store :=
  let failed := { transaction with status := .failed, failureReason := reason }
  { s with transactions := save Transaction.id failed s.transactions }

/-- The part of `VerifyPayment` that follows a successful verification: decode
the metadata, create the tickets, complete the transaction, credit the organizer. -/
def settleVerified (s : Store) (env : SettleEnv) (transaction : Transaction)
    (verification : PaystackVerifyResponse) : Store × SettleResponse :=
  let metadata := verification.metadata
  let eventID := assertString (metadata.get "event_id")
  let event := (first (fun e => e.id == eventID) s.events).getD Event.zero
  let st := issueItems env event transaction (cartItems metadata)
    { store := s, tickets := [], attempts := 0 }
  let completed := { transaction with status := .completed }
  let s1 := { st.store with
    transactions := save Transaction.id completed st.store.transactions }
  ({ s1 with balances := creditOrganizer event.organizerID transaction.netAmount s1.balances },
    .verified st.tickets)

/-- `AttendeeHandler.VerifyPayment`: the database after the call and the response. -/
def VerifyPayment (s : Store) (env : SettleEnv) (reference : String) : Store × SettleResponse :=
  if reference = "" then (s, .referenceRequired)
  else
    match first (fun t => t.paymentReference == reference) s.transactions with
    | none => (s, .transactionNotFound)
    | some transaction =>
      if transaction.status = .completed then
        (s, .alreadyVerified (s.tickets.filter fun t => t.transactionID == transaction.id))
      else
        match VerifyTransaction env.exchange with
        | .error err => (failTransaction s transaction err, .verificationFailed)
        | .ok verification =>
          if !IsTransactionSuccessful verification then
            (failTransaction s transaction "Payment not successful", .notSuccessful)
          else settleVerified s env transaction verification

/-! ## Order building: `AttendeeHandler.InitiateTicketPurchase` -/

/-- One element of `items` in the request body. -/
structure PurchaseItem where
  ticketTypeID : String
  quantity : Int

/-- The request body of `InitiateTicketPurchase`. -/
structure PurchaseRequest where
  eventID : String
  items : List PurchaseItem

/-- The binding tags of the request: `required` on the strings, `required,min=1`
on each quantity (an `int`), `required,min=1,dive` on the items. -/
def bindPurchase (req : PurchaseRequest) : Bool :=
  req.eventID != "" && !req.items.isEmpty &&
    req.items.all fun i => i.ticketTypeID != "" && decide (1 ≤ i.quantity) && decide (isInt i.quantity)

/-- What happens to the HTTP exchange of `InitializeTransaction`; `body` carries
`status`, `message` and `data.authorization_url` of the decoded answer. -/
inductive InitExchange where
  | notConfigured
  | marshalError (e : String)
  | requestError (e : String)
  | sendError (e : String)
  | readError (e : String)
  | unmarshalError (e : String)
  | body (status : Bool) (message : String) (authorizationURL : String)

/-- `PaystackService.InitializeTransaction`: the authorization URL, or the error text. -/
def InitializeTransaction : InitExchange → Except String String
  | .notConfigured => .error "paystack not configured"
  | .marshalError e => .error ("failed to marshal request: " ++ e)
  | .requestError e => .error ("failed to create request: " ++ e)
  | .sendError e => .error ("failed to send request: " ++ e)
  | .readError e => .error ("failed to read response: " ++ e)
  | .unmarshalError e => .error ("failed to unmarshal response: " ++ e)
  | .body status message url => if !status then .error ("paystack error: " ++ message) else .ok url

/-- The outside world of one `InitiateTicketPurchase` call: the reading of
`time.Now()` inside `IsAvailable` for the k-th item, the answer of the database
to `Create(transaction)` (`none`: an error; otherwise the generated id), the
generated payment reference, `cfg.Currency`, the e-mail address read for the
attendee, and the gateway exchange. -/
structure PurchaseEnv where
  now : Nat → Time
  createTransaction : Option UUID
  reference : String
  currency : String
  email : String
  exchange : InitExchange

/-- The arguments of the `InitializeTransaction` call. -/
structure PaymentInit where
  email : String
  amount : ℚ
  reference : String
  metadata : JSONMap

/-- The responses of `InitiateTicketPurchase`. -/
inductive PurchaseResponse where
  | badRequest
  | eventNotFound
  | ticketTypeNotFound (ticketTypeID : String)
  | notAvailable (name : String)
  | notEnough (name : String)
  | maxPerOrder (max : Int) (name : String)
  | createFailed
  | paymentInitFailed (err : String)
  | ok (transactionID : UUID) (reference : String) (authorizationURL : String) (amount : ℚ)
      (currency : String)

/-- The HTTP status of a response of `InitiateTicketPurchase`. -/
def PurchaseResponse.code : PurchaseResponse → Nat
  | .badRequest => 400
  | .eventNotFound => 404
  | .ticketTypeNotFound _ => 404
  | .notAvailable _ => 400
  | .notEnough _ => 400
  | .maxPerOrder _ _ => 400
  | .createFailed => 500
  | .paymentInitFailed _ => 500
  | .ok _ _ _ _ _ => 200

/-- The entry of `ticketItems` stored for one validated item. -/
def ticketItem (item : PurchaseItem) (ticketType : TicketType) : JSONValue :=
  .object [("ticket_type_id", .string item.ticketTypeID),
           ("quantity", .number item.quantity),
           ("price", .number ticketType.price),
           ("name", .string ticketType.name)]

/-- The validation loop over `req.Items`, from item number `k` on, with the
running `totalAmount` and `ticketItems`; the first failing item ends the handler
with its response. -/
def validateItems (s : Store) (eventID : String) (now : Nat → Time) :
    Nat → List PurchaseItem → ℚ → List JSONValue → Except PurchaseResponse (ℚ × List JSONValue)
  | _, [], totalAmount, ticketItems => .ok (totalAmount, ticketItems)
  | k, item :: rest, totalAmount, ticketItems =>
    match first (fun t => t.id == item.ticketTypeID && t.eventID == eventID) s.ticketTypes with
    | none => .error (.ticketTypeNotFound item.ticketTypeID)
    | some ticketType =>
      if !ticketType.IsAvailable (now k) then .error (.notAvailable ticketType.name)
      else if item.quantity > ticketType.RemainingTickets then .error (.notEnough ticketType.name)
      else if item.quantity > ticketType.maxPerOrder then
        .error (.maxPerOrder ticketType.maxPerOrder ticketType.name)
      else
        validateItems s eventID now (k + 1) rest
          (totalAmount + ticketType.price * item.quantity)
          (ticketItems ++ [ticketItem item ticketType])

/-- The outcome of `InitiateTicketPurchase`: the database after the call, the
response, and the call made to the gateway, if any. -/
structure PurchaseResult where
  store : Store
  response : PurchaseResponse
  sent : Option PaymentInit

/-- `AttendeeHandler.InitiateTicketPurchase`. -/
def InitiateTicketPurchase (s : Store) (env : PurchaseEnv) (attendeeID : UUID)
    (req : PurchaseRequest) : PurchaseResult :=
  if !bindPurchase req then { store := s, response := .badRequest, sent := none }
  else
    match first (fun e => e.id == req.eventID) s.events with
    | none => { store := s, response := .eventNotFound, sent := none }
    | some event =>
      match validateItems s req.eventID env.now 0 req.items 0 [] with
      | .error resp => { store := s, response := resp, sent := none }
      | .ok (totalAmount, ticketItems) =>
        let settings := (first (fun _ => true) s.settings).getD PlatformSettings.zero
        let platformFee := totalAmount * (settings.platformFeePercentage / 100)
        match env.createTransaction with
        | none => { store := s, response := .createFailed, sent := none }
        | some id =>
          let transaction : Transaction :=
            { id := id, userID := attendeeID, eventID := some event.id,
              type := .ticketPurchase, status := .pending, amount := totalAmount,
              currency := env.currency, platformFee := platformFee,
              netAmount := totalAmount - platformFee, paymentGateway := "paystack",
              paymentReference := env.reference,
              description := "Purchase of tickets for " ++ event.title, failureReason := "" }
          let s1 := { s with transactions := s.transactions ++ [transaction] }
          let metadata : JSONMap :=
            [("transaction_id", .string transaction.id), ("event_id", .string event.id),
             ("attendee_id", .string attendeeID), ("items", .array ticketItems)]
          let sent : PaymentInit :=
            { email := env.email, amount := totalAmount,
              reference := transaction.paymentReference, metadata := metadata }
          match InitializeTransaction env.exchange with
          | .error err =>
            { store := s1, response := .paymentInitFailed err, sent := some sent }
          | .ok url =>
            { store := s1,
              response := .ok transaction.id transaction.paymentReference url totalAmount env.currency,
              sent := some sent }

/-! ## The organizer ledger and the withdrawal workflow -/

/-- `OrganizerHandler.GetOrganizerBalance`: the balance row of the organizer is
created with zero amounts when it is missing (`newID`: the answer of the
database to `Create`, whose error the handler ignores). Registration as an
organizer and promotion to organizer create the same zero row. -/
def GetOrganizerBalance (s : Store) (organizerID : UUID) (newID : Option UUID) : Store :=
  match first (fun b => b.organizerID == organizerID) s.balances with
  | some _ => s
  | none =>
    match newID with
    | none => s
    | some id =>
      { s with balances := s.balances ++
          [{ id := id, organizerID := organizerID, totalEarnings := 0, availableBalance := 0,
             pendingBalance := 0, withdrawnAmount := 0 }] }

/-- The request body of `RequestWithdrawal`. -/
structure WithdrawalForm where
  amount : ℚ
  bankName : String
  accountNumber : String
  accountName : String

/-- The binding tags of the request: `required,min=0` on the amount (`required`
refuses the zero value), `required` on the three strings. -/
def bindWithdrawal (req : WithdrawalForm) : Bool :=
  decide (req.amount ≠ 0) && decide (0 ≤ req.amount) &&
    req.bankName != "" && req.accountNumber != "" && req.accountName != ""

/-- The responses of `RequestWithdrawal`. -/
inductive WithdrawalResponse where
  | badRequest
  | settingsNotFound
  | belowMinimum (min : ℚ)
  | balanceNotFound
  | insufficientBalance
  | createFailed
  | created (w : WithdrawalRequest)
  deriving DecidableEq

/-- The HTTP status of a response of `RequestWithdrawal`. -/
def WithdrawalResponse.code : WithdrawalResponse → Nat
  | .badRequest => 400
  | .settingsNotFound => 500
  | .belowMinimum _ => 400
  | .balanceNotFound => 404
  | .insufficientBalance => 400
  | .createFailed => 500
  | .created _ => 201

/-- `OrganizerHandler.RequestWithdrawal`; `newID` is the answer of the database
to `Create(withdrawal)` (`none`: an error). -/
def RequestWithdrawal (s : Store) (organizerID : UUID) (req : WithdrawalForm)
    (newID : Option UUID) : Store × WithdrawalResponse :=
  if !bindWithdrawal req then (s, .badRequest)
  else
    match first (fun _ => true) s.settings with
    | none => (s, .settingsNotFound)
    | some settings =>
      if req.amount < settings.minWithdrawalAmount then
        (s, .belowMinimum settings.minWithdrawalAmount)
      else
        match first (fun b => b.organizerID == organizerID) s.balances with
        | none => (s, .balanceNotFound)
        | some balance =>
          if balance.availableBalance < req.amount then (s, .insufficientBalance)
          else
            let withdrawalFee := req.amount * (settings.withdrawalFeePercentage / 100)
            let netAmount := req.amount - withdrawalFee
            match newID with
            | none => (s, .createFailed)
            | some id =>
              let withdrawal : WithdrawalRequest :=
                { id := id, organizerID := organizerID, amount := req.amount,
                  withdrawalFee := withdrawalFee, netAmount := netAmount, status := .pending,
                  bankName := req.bankName, accountNumber := req.accountNumber,
                  accountName := req.accountName, reviewedBy := none, reviewedAt := none,
                  reviewComment := "", processedAt := none, transactionRef := "" }
              let balance1 := { balance with
                availableBalance := balance.availableBalance - req.amount,
                pendingBalance := balance.pendingBalance + req.amount }
              ({ s with
                  withdrawals := s.withdrawals ++ [withdrawal],
                  balances := save OrganizerBalance.id balance1 s.balances },
                .created withdrawal)

/-- The responses of `ReviewWithdrawalRequest` and of `ProcessWithdrawal`. -/
inductive AdminResponse where
  | badRequest
  | notFound
  | wrongStatus
  | saveFailed
  | ok (w : WithdrawalRequest)
  deriving DecidableEq

/-- The HTTP status of a response of the two admin handlers. -/
def AdminResponse.code : AdminResponse → Nat
  | .badRequest => 400
  | .notFound => 404
  | .wrongStatus => 400
  | .saveFailed => 500
  | .ok _ => 200

/-- `AdminHandler.ReviewWithdrawalRequest`; the action is bound with
`required,oneof=approve reject`; `saved` tells whether `Save(&withdrawal)`
succeeds. -/
def ReviewWithdrawalRequest (s : Store) (requestID : String) (userID : UUID)
    (action comment : String) (now : Time) (saved : Bool) : Store × AdminResponse :=
  if !(action == "approve" || action == "reject") then (s, .badRequest)
  else
    match first (fun w => w.id == requestID) s.withdrawals with
    | none => (s, .notFound)
    | some withdrawal =>
      if withdrawal.status ≠ .pending then (s, .wrongStatus)
      else
        let reviewed := { withdrawal with
          reviewedBy := some userID, reviewedAt := some now, reviewComment := comment }
        let decided : WithdrawalRequest :=
          if action == "approve" then { reviewed with status := .approved }
          else { reviewed with status := .rejected }
        let balances1 :=
          if action == "approve" then s.balances
          else
            match first (fun b => b.organizerID == withdrawal.organizerID) s.balances with
            | some balance =>
              save OrganizerBalance.id
                { balance with
                  availableBalance := balance.availableBalance + withdrawal.amount,
                  pendingBalance := balance.pendingBalance - withdrawal.amount } s.balances
            | none => s.balances
        if !saved then ({ s with balances := balances1 }, .saveFailed)
        else
          ({ s with balances := balances1,
                    withdrawals := save WithdrawalRequest.id decided s.withdrawals },
            .ok decided)

/-- `AdminHandler.ProcessWithdrawal`; the reference is bound with `required`;
`saved` tells whether `Save(&withdrawal)` succeeds. -/
def ProcessWithdrawal (s : Store) (requestID : String) (transactionRef : String)
    (now : Time) (saved : Bool) : Store × AdminResponse :=
  if transactionRef == "" then (s, .badRequest)
  else
    match first (fun w => w.id == requestID) s.withdrawals with
    | none => (s, .notFound)
    | some withdrawal =>
      if withdrawal.status ≠ .approved then (s, .wrongStatus)
      else
        let processed := { withdrawal with
          status := .processed, processedAt := some now, transactionRef := transactionRef }
        if !saved then (s, .saveFailed)
        else
          let s1 := { s with withdrawals := save WithdrawalRequest.id processed s.withdrawals }
          match first (fun b => b.organizerID == withdrawal.organizerID) s1.balances with
          | some balance =>
            let balance1 := { balance with
              withdrawnAmount := balance.withdrawnAmount + withdrawal.netAmount,
              pendingBalance := balance.pendingBalance - withdrawal.amount }
            ({ s1 with balances := save OrganizerBalance.id balance1 s1.balances }, .ok processed)
          | none => (s1, .ok processed)

/-- The request body of `UpdatePlatformSettings`: every field is optional. -/
structure SettingsForm where
  platformFeePercentage : Option ℚ
  withdrawalFeePercentage : Option ℚ
  minWithdrawalAmount : Option ℚ
  currency : Option String

/-- `AdminHandler.UpdatePlatformSettings`: the settings row after the checks, or
`none` when the handler answers with an error (no row, a value out of range, a
failed `Save`). -/
def updatedSettings (settings : PlatformSettings) (userID : UUID) (req : SettingsForm) :
    Option PlatformSettings :=
  let platformOK := match req.platformFeePercentage with
    | some v => !(decide (v < 0) || decide (v > 100))
    | none => true
  let withdrawalOK := match req.withdrawalFeePercentage with
    | some v => !(decide (v < 0) || decide (v > 100))
    | none => true
  let minOK := match req.minWithdrawalAmount with
    | some v => !decide (v < 0)
    | none => true
  if platformOK && withdrawalOK && minOK then
    some { settings with
      platformFeePercentage := req.platformFeePercentage.getD settings.platformFeePercentage,
      withdrawalFeePercentage := req.withdrawalFeePercentage.getD settings.withdrawalFeePercentage,
      minWithdrawalAmount := req.minWithdrawalAmount.getD settings.minWithdrawalAmount,
      currency := req.currency.getD settings.currency,
      updatedBy := userID }
  else none

/-- `AdminHandler.UpdatePlatformSettings` on the database. -/
def UpdatePlatformSettings (s : Store) (userID : UUID) (req : SettingsForm) (saved : Bool) :
    Store :=
  match first (fun _ => true) s.settings with
  | none => s
  | some settings =>
    match updatedSettings settings userID req with
    | none => s
    | some settings1 =>
      if !saved then s
      else { s with settings := save PlatformSettings.id settings1 s.settings }

/-! ## Runs of the system -/

/-- One handler call, with what the outside world answers to it. -/
inductive Call where
  | purchase (env : PurchaseEnv) (attendeeID : UUID) (req : PurchaseRequest)
  | settle (env : SettleEnv) (reference : String)
  | openBalance (organizerID : UUID) (newID : Option UUID)
  | requestWithdrawal (organizerID : UUID) (req : WithdrawalForm) (newID : Option UUID)
  | review (requestID : String) (userID : UUID) (action comment : String) (now : Time)
      (saved : Bool)
  | process (requestID : String) (transactionRef : String) (now : Time) (saved : Bool)
  | updateSettings (userID : UUID) (req : SettingsForm) (saved : Bool)

/-- The database after one handler call. -/
def Call.run (s : Store) : Call → Store
  | .purchase env attendeeID req => (InitiateTicketPurchase s env attendeeID req).store
  | .settle env reference => (VerifyPayment s env reference).1
  | .openBalance organizerID newID => GetOrganizerBalance s organizerID newID
  | .requestWithdrawal organizerID req newID => (RequestWithdrawal s organizerID req newID).1
  | .review requestID userID action comment now saved =>
    (ReviewWithdrawalRequest s requestID userID action comment now saved).1
  | .process requestID transactionRef now saved =>
    (ProcessWithdrawal s requestID transactionRef now saved).1
  | .updateSettings userID req saved => UpdatePlatformSettings s userID req saved

/-- The database after a sequence of handler calls. -/
def runCalls (s : Store) : List Call → Store
  | [] => s
  | c :: cs => runCalls (c.run s) cs

/-- A database before any withdrawal: every balance row is zero, there is no
withdrawal request, and the fee percentages of the settings are between 0 and 100. -/
def Store.fresh (s : Store) : Prop :=
  s.withdrawals = [] ∧
  (∀ b ∈ s.balances,
    b.totalEarnings = 0 ∧ b.availableBalance = 0 ∧ b.pendingBalance = 0 ∧ b.withdrawnAmount = 0) ∧
  (∀ p ∈ s.settings,
    0 ≤ p.platformFeePercentage ∧ p.platformFeePercentage ≤ 100 ∧
    0 ≤ p.withdrawalFeePercentage ∧ p.withdrawalFeePercentage ≤ 100)

/-! ## Roles (`internal/models/user.go`) -/

/-- `models.Role`, a string type. -/
abbrev Role := String

/-- `RoleAdmin`. -/
def RoleAdmin : Role := "admin"

/-- `RoleModerator`. -/
def RoleModerator : Role := "moderator"

/-- `RoleOrganizer`. -/
def RoleOrganizer : Role := "organizer"

/-- `RoleAttendee`. -/
def RoleAttendee : Role := "attendee"

/-- The field of `models.User` that `HasPermission` reads. -/
structure User where
  role : Role
  deriving DecidableEq, Repr

/-- The map literal `roleHierarchy` of `HasPermission`. -/
def roleHierarchy : List (Role × Int) :=
  [(RoleAttendee, 1), (RoleOrganizer, 2), (RoleModerator, 3), (RoleAdmin, 4)]

/-- The index expression `roleHierarchy[r]`: the zero value for a missing key. -/
def roleRank (r : Role) : Int := (List.lookup r roleHierarchy).getD 0

/-- `User.HasPermission`. -/
def User.HasPermission (u : User) (requiredRole : Role) : Bool :=
  decide (roleRank u.role ≥ roleRank requiredRole)

/-! ## Two settlement calls for one reference -/

/-- The first part of `VerifyPayment`, up to the read of the transaction row:
the response when the handler returns there, or the row it has read. -/
def readTransaction (s : Store) (reference : String) : Except SettleResponse Transaction :=
  if reference = "" then .error .referenceRequired
  else
    match first (fun t => t.paymentReference == reference) s.transactions with
    | none => .error .transactionNotFound
    | some transaction => .ok transaction

/-- The second part of `VerifyPayment`, from the status check to the response,
run on the database as it is by then with the row the handler read before. -/
def settleRead (s : Store) (env : SettleEnv) (transaction : Transaction) :
    Store × SettleResponse :=
  if transaction.status = .completed then
    (s, .alreadyVerified (s.tickets.filter fun t => t.transactionID == transaction.id))
  else
    match VerifyTransaction env.exchange with
    | .error err => (failTransaction s transaction err, .verificationFailed)
    | .ok verification =>
      if !IsTransactionSuccessful verification then
        (failTransaction s transaction "Payment not successful", .notSuccessful)
      else settleVerified s env transaction verification

/-- Two `VerifyPayment` calls for one reference, the second starting after the
first has returned: the database after both, and the two responses. -/
def settleInTurn (s : Store) (env1 env2 : SettleEnv) (reference : String) :
    Store × SettleResponse × SettleResponse :=
  let r1 := VerifyPayment s env1 reference
  let r2 := VerifyPayment r1.1 env2 reference
  (r2.1, r1.2, r2.2)

/-- Two `VerifyPayment` calls for one reference that both read the transaction
row before either of them writes; the first then runs to its response, and the
second after it: the database after both, and the two responses. -/
def settleOverlapped (s : Store) (env1 env2 : SettleEnv) (reference : String) :
    Store × SettleResponse × SettleResponse :=
  match readTransaction s reference, readTransaction s reference with
  | .ok transaction1, .ok transaction2 =>
    let r1 := settleRead s env1 transaction1
    let r2 := settleRead r1.1 env2 transaction2
    (r2.1, r1.2, r2.2)
  | .ok transaction1, .error response2 =>
    let r1 := settleRead s env1 transaction1
    (r1.1, r1.2, response2)
  | .error response1, .ok transaction2 =>
    let r2 := settleRead s env2 transaction2
    (r2.1, response1, r2.2)
  | .error response1, .error response2 => (s, response1, response2)

/-! ## The event workflow (`organizer_handler.go`, `moderator_handler.go`) -/

/-- `CreateEventRequest`: the fields the binding checks and the dates; a date
that is absent from the body is `none`. -/
structure EventForm where
  title : String
  category : String
  venue : String
  startDate : Option Time
  endDate : Option Time

/-- The binding tags of `CreateEventRequest`: `required` on title, category,
venue, start date and end date. -/
def bindEvent (req : EventForm) : Bool :=
  req.title != "" && req.category != "" && req.venue != "" && req.startDate.isSome &&
    req.endDate.isSome

/-- The responses of the event handlers: a binding error (400 with the text of
the validator), the 400 of `ReviewEvent` for an action that is neither of the
two, an error with its status and its text, or the event with 201 or 200
(`submitted` wraps it with a message). -/
inductive EventResponse where
  | bindError
  | invalidAction
  | failed (code : Nat) (error : String)
  | created (event : Event)
  | ok (event : Event)
  | submitted (event : Event)
  deriving DecidableEq

/-- The HTTP status of a response of the event handlers. -/
def EventResponse.code : EventResponse → Nat
  | .bindError => 400
  | .invalidAction => 400
  | .failed code _ => code
  | .created _ => 201
  | .ok _ => 200
  | .submitted _ => 200

/-- `OrganizerHandler.CreateEvent`; `newID` is the id the database generates,
`none` when `Create` fails. -/
def CreateEvent (s : Store) (organizerID : UUID) (req : EventForm) (newID : Option UUID) :
    Store × EventResponse :=
  if !bindEvent req then (s, .bindError)
  else if decide (req.endDate.getD 0 < req.startDate.getD 0) then
    (s, .failed 400 "End date must be after start date")
  else
    match newID with
    | none => (s, .failed 500 "Failed to create event")
    | some id =>
      let event : Event :=
        { id := id, title := req.title, status := .pending, organizerID := organizerID }
      ({ s with events := s.events ++ [event] }, .created event)

/-- `OrganizerHandler.UpdateEvent`; `saved` tells whether `Save` succeeds. -/
def UpdateEvent (s : Store) (eventID : String) (organizerID : UUID) (req : EventForm)
    (saved : Bool) : Store × EventResponse :=
  match first (fun e => e.id == eventID && e.organizerID == organizerID) s.events with
  | none => (s, .failed 404 "Event not found")
  | some event =>
    if event.status ≠ .draft ∧ event.status ≠ .rejected then
      (s, .failed 400 "Cannot update event in current status")
    else if !bindEvent req then (s, .bindError)
    else
      let event1 := { event with title := req.title }
      if !saved then (s, .failed 500 "Failed to update event")
      else ({ s with events := save Event.id event1 s.events }, .ok event1)

/-- `OrganizerHandler.SubmitEventForReview`; the preloaded ticket types are the
stored ticket types of the event. -/
def SubmitEventForReview (s : Store) (eventID : String) (organizerID : UUID) (saved : Bool) :
    Store × EventResponse :=
  match first (fun e => e.id == eventID && e.organizerID == organizerID) s.events with
  | none => (s, .failed 404 "Event not found")
  | some event =>
    if event.status ≠ .draft ∧ event.status ≠ .rejected then
      (s, .failed 400 "Event cannot be submitted in current status")
    else if (s.ticketTypes.filter fun t => t.eventID == event.id).length = 0 then
      (s, .failed 400 "Event must have at least one ticket type")
    else
      let event1 := { event with status := .pending }
      if !saved then (s, .failed 500 "Failed to submit event")
      else ({ s with events := save Event.id event1 s.events }, .submitted event1)

/-- `OrganizerHandler.PublishEvent`. -/
def PublishEvent (s : Store) (eventID : String) (organizerID : UUID) (saved : Bool) :
    Store × EventResponse :=
  match first (fun e => e.id == eventID && e.organizerID == organizerID) s.events with
  | none => (s, .failed 404 "Event not found")
  | some event =>
    if event.status ≠ .approved then (s, .failed 400 "Only approved events can be published")
    else
      let event1 := { event with status := .published }
      if !saved then (s, .failed 500 "Failed to publish event")
      else ({ s with events := save Event.id event1 s.events }, .ok event1)

/-- `ModeratorHandler.ReviewEvent`: the binding wants the action to be `approve`
or `reject`; the moderator, the comment and the time it records are fields
outside `Event`. -/
def ReviewEvent (s : Store) (eventID : String) (action : String) (saved : Bool) :
    Store × EventResponse :=
  if !(action == "approve" || action == "reject") then (s, .bindError)
  else
    match first (fun e => e.id == eventID) s.events with
    | none => (s, .failed 404 "Event not found")
    | some event =>
      if event.status ≠ .pending then (s, .failed 400 "Event is not pending review")
      else if action = "approve" then
        let event1 := { event with status := .published }
        if !saved then (s, .failed 500 "Failed to update event")
        else ({ s with events := save Event.id event1 s.events }, .ok event1)
      else if action = "reject" then
        let event1 := { event with status := .rejected }
        if !saved then (s, .failed 500 "Failed to update event")
        else ({ s with events := save Event.id event1 s.events }, .ok event1)
      else (s, .invalidAction)

/-- One call of the event workflow, with what the outside world answers to it. -/
inductive EventCall where
  | create (organizerID : UUID) (req : EventForm) (newID : Option UUID)
  | update (eventID : String) (organizerID : UUID) (req : EventForm) (saved : Bool)
  | submit (eventID : String) (organizerID : UUID) (saved : Bool)
  | review (eventID : String) (action : String) (saved : Bool)
  | publish (eventID : String) (organizerID : UUID) (saved : Bool)

/-- The database after one call of the event workflow. -/
def EventCall.run (s : Store) : EventCall → Store
  | .create organizerID req newID => (CreateEvent s organizerID req newID).1
  | .update eventID organizerID req saved => (UpdateEvent s eventID organizerID req saved).1
  | .submit eventID organizerID saved => (SubmitEventForReview s eventID organizerID saved).1
  | .review eventID action saved => (ReviewEvent s eventID action saved).1
  | .publish eventID organizerID saved => (PublishEvent s eventID organizerID saved).1

/-- The database after a sequence of calls of the event workflow. -/
def runEventCalls (s : Store) : List EventCall → Store
  | [] => s
  | c :: cs => runEventCalls (c.run s) cs

/-! ## `float64` arithmetic -/

/-- The power of two with an integer exponent. -/
def pow2 (k : Int) : ℚ := if 0 ≤ k then 2 ^ k.toNat else 1 / 2 ^ (-k).toNat

/-- The integer nearest to `x`, the even one of the two when `x` lies half-way. -/
def roundHalfEven (x : ℚ) : Int :=
  let f := Rat.floor x
  if x - f < 1 / 2 then f
  else if 1 / 2 < x - f then f + 1
  else if f % 2 = 0 then f else f + 1

/-- The binary logarithm of a natural number, rounded down, by halving at most
`fuel` times. -/
def log2Fuel : Nat → Nat → Nat
  | 0, _ => 0
  | fuel + 1, n => if n < 2 then 0 else log2Fuel fuel (n / 2) + 1

/-- The integer part of the binary logarithm of a positive rational. -/
def floorLog2 (q : ℚ) : Int :=
  let k : Int := (log2Fuel q.num.natAbs q.num.natAbs : Int) - (log2Fuel q.den q.den : Int)
  if pow2 k ≤ q then k else k - 1

/-- The `float64` nearest to `q`, ties to even (IEEE 754 binary64: 53
significant bits, the least exponent of the last bit -1074). The result of a Go
operation on `float64` operands is the exact result rounded this way, for
results below the overflow threshold `2 ^ 1024`. -/
def roundFloat64 (q : ℚ) : ℚ :=
  if q = 0 then 0
  else
    let e := max (floorLog2 |q| - 52) (-1074)
    (if q < 0 then -1 else 1) * (roundHalfEven (|q| / pow2 e) : ℚ) * pow2 e

/-- How the handlers compute on amounts: `round` is applied to the exact result
of every arithmetic operation on `float64` values. -/
structure Arith where
  round : ℚ → ℚ

/-- Arithmetic on exact amounts. -/
def Arith.exact : Arith := { round := fun x => x }

/-- Arithmetic on `float64`, each operation rounded on its own (no fused
multiply-add, as on amd64). -/
def Arith.float64 : Arith := { round := roundFloat64 }

/-! ## The handlers on rounded amounts, with balance writes that can fail

The handlers of the sections above, with the rounding of each arithmetic
operation and with the outcome of the `Save(&balance)` calls, whose error the
handlers do not check: `balanceSaved` tells whether the row is written. -/

/-- The validation loop of `InitiateTicketPurchase` with
`totalAmount += ticketType.Price * float64(item.Quantity)` on rounded amounts. -/
def validateItemsOn (a : Arith) (s : Store) (eventID : String) (now : Nat → Time) :
    Nat → List PurchaseItem → ℚ → List JSONValue → Except PurchaseResponse (ℚ × List JSONValue)
  | _, [], totalAmount, ticketItems => .ok (totalAmount, ticketItems)
  | k, item :: rest, totalAmount, ticketItems =>
    match first (fun t => t.id == item.ticketTypeID && t.eventID == eventID) s.ticketTypes with
    | none => .error (.ticketTypeNotFound item.ticketTypeID)
    | some ticketType =>
      if !ticketType.IsAvailable (now k) then .error (.notAvailable ticketType.name)
      else if item.quantity > ticketType.RemainingTickets then .error (.notEnough ticketType.name)
      else if item.quantity > ticketType.maxPerOrder then
        .error (.maxPerOrder ticketType.maxPerOrder ticketType.name)
      else
        validateItemsOn a s eventID now (k + 1) rest
          (a.round (totalAmount + a.round (ticketType.price * a.round item.quantity)))
          (ticketItems ++ [ticketItem item ticketType])

/-- `AttendeeHandler.InitiateTicketPurchase` on rounded amounts. -/
def InitiateTicketPurchaseOn (a : Arith) (s : Store) (env : PurchaseEnv) (attendeeID : UUID)
    (req : PurchaseRequest) : PurchaseResult :=
  if !bindPurchase req then { store := s, response := .badRequest, sent := none }
  else
    match first (fun e => e.id == req.eventID) s.events with
    | none => { store := s, response := .eventNotFound, sent := none }
    | some event =>
      match validateItemsOn a s req.eventID env.now 0 req.items 0 [] with
      | .error resp => { store := s, response := resp, sent := none }
      | .ok (totalAmount, ticketItems) =>
        let settings := (first (fun _ => true) s.settings).getD PlatformSettings.zero
        let platformFee := a.round (totalAmount * a.round (settings.platformFeePercentage / 100))
        match env.createTransaction with
        | none => { store := s, response := .createFailed, sent := none }
        | some id =>
          let transaction : Transaction :=
            { id := id, userID := attendeeID, eventID := some event.id,
              type := .ticketPurchase, status := .pending, amount := totalAmount,
              currency := env.currency, platformFee := platformFee,
              netAmount := a.round (totalAmount - platformFee), paymentGateway := "paystack",
              paymentReference := env.reference,
              description := "Purchase of tickets for " ++ event.title, failureReason := "" }
          let s1 := { s with transactions := s.transactions ++ [transaction] }
          let metadata : JSONMap :=
            [("transaction_id", .string transaction.id), ("event_id", .string event.id),
             ("attendee_id", .string attendeeID), ("items", .array ticketItems)]
          let sent : PaymentInit :=
            { email := env.email, amount := totalAmount,
              reference := transaction.paymentReference, metadata := metadata }
          match InitializeTransaction env.exchange with
          | .error err =>
            { store := s1, response := .paymentInitFailed err, sent := some sent }
          | .ok url =>
            { store := s1,
              response := .ok transaction.id transaction.paymentReference url totalAmount env.currency,
              sent := some sent }

/-- The credit of the organizer balance on rounded amounts, written when the
row is found and the save succeeds. -/
def creditOrganizerOn (a : Arith) (balanceSaved : Bool) (organizerID : UUID) (net : ℚ)
    (balances : List OrganizerBalance) : List OrganizerBalance :=
  match first (fun b => b.organizerID == organizerID) balances with
  | some balance =>
    if !balanceSaved then balances
    else
      save OrganizerBalance.id
        { balance with
          totalEarnings := a.round (balance.totalEarnings + net),
          availableBalance := a.round (balance.availableBalance + net) } balances
  | none => balances

/-- The part of `VerifyPayment` that follows a successful verification, with
the credit on rounded amounts. -/
def settleVerifiedOn (a : Arith) (balanceSaved : Bool) (s : Store) (env : SettleEnv)
    (transaction : Transaction) (verification : PaystackVerifyResponse) :
    Store × SettleResponse :=
  let metadata := verification.metadata
  let eventID := assertString (metadata.get "event_id")
  let event := (first (fun e => e.id == eventID) s.events).getD Event.zero
  let st := issueItems env event transaction (cartItems metadata)
    { store := s, tickets := [], attempts := 0 }
  let completed := { transaction with status := .completed }
  let s1 := { st.store with
    transactions := save Transaction.id completed st.store.transactions }
  ({ s1 with
      balances :=
        creditOrganizerOn a balanceSaved event.organizerID transaction.netAmount s1.balances },
    .verified st.tickets)

/-- `AttendeeHandler.VerifyPayment` with the credit on rounded amounts. -/
def VerifyPaymentOn (a : Arith) (balanceSaved : Bool) (s : Store) (env : SettleEnv)
    (reference : String) : Store × SettleResponse :=
  if reference = "" then (s, .referenceRequired)
  else
    match first (fun t => t.paymentReference == reference) s.transactions with
    | none => (s, .transactionNotFound)
    | some transaction =>
      if transaction.status = .completed then
        (s, .alreadyVerified (s.tickets.filter fun t => t.transactionID == transaction.id))
      else
        match VerifyTransaction env.exchange with
        | .error err => (failTransaction s transaction err, .verificationFailed)
        | .ok verification =>
          if !IsTransactionSuccessful verification then
            (failTransaction s transaction "Payment not successful", .notSuccessful)
          else settleVerifiedOn a balanceSaved s env transaction verification

/-- `OrganizerHandler.RequestWithdrawal` on rounded amounts; the request is
created before the balance is saved. -/
def RequestWithdrawalOn (a : Arith) (balanceSaved : Bool) (s : Store) (organizerID : UUID)
    (req : WithdrawalForm) (newID : Option UUID) : Store × WithdrawalResponse :=
  if !bindWithdrawal req then (s, .badRequest)
  else
    match first (fun _ => true) s.settings with
    | none => (s, .settingsNotFound)
    | some settings =>
      if req.amount < settings.minWithdrawalAmount then
        (s, .belowMinimum settings.minWithdrawalAmount)
      else
        match first (fun b => b.organizerID == organizerID) s.balances with
        | none => (s, .balanceNotFound)
        | some balance =>
          if balance.availableBalance < req.amount then (s, .insufficientBalance)
          else
            let withdrawalFee :=
              a.round (req.amount * a.round (settings.withdrawalFeePercentage / 100))
            let netAmount := a.round (req.amount - withdrawalFee)
            match newID with
            | none => (s, .createFailed)
            | some id =>
              let withdrawal : WithdrawalRequest :=
                { id := id, organizerID := organizerID, amount := req.amount,
                  withdrawalFee := withdrawalFee, netAmount := netAmount, status := .pending,
                  bankName := req.bankName, accountNumber := req.accountNumber,
                  accountName := req.accountName, reviewedBy := none, reviewedAt := none,
                  reviewComment := "", processedAt := none, transactionRef := "" }
              let balance1 := { balance with
                availableBalance := a.round (balance.availableBalance - req.amount),
                pendingBalance := a.round (balance.pendingBalance + req.amount) }
              ({ s with
                  withdrawals := s.withdrawals ++ [withdrawal],
                  balances :=
                    if balanceSaved then save OrganizerBalance.id balance1 s.balances
                    else s.balances },
                .created withdrawal)

/-- `AdminHandler.ReviewWithdrawalRequest` on rounded amounts; in the reject
branch the balance is saved before the request. -/
def ReviewWithdrawalRequestOn (a : Arith) (balanceSaved : Bool) (s : Store)
    (requestID : String) (userID : UUID) (action comment : String) (now : Time)
    (saved : Bool) : Store × AdminResponse :=
  if !(action == "approve" || action == "reject") then (s, .badRequest)
  else
    match first (fun w => w.id == requestID) s.withdrawals with
    | none => (s, .notFound)
    | some withdrawal =>
      if withdrawal.status ≠ .pending then (s, .wrongStatus)
      else
        let reviewed := { withdrawal with
          reviewedBy := some userID, reviewedAt := some now, reviewComment := comment }
        let decided : WithdrawalRequest :=
          if action == "approve" then { reviewed with status := .approved }
          else { reviewed with status := .rejected }
        let balances1 :=
          if action == "approve" then s.balances
          else
            match first (fun b => b.organizerID == withdrawal.organizerID) s.balances with
            | some balance =>
              if !balanceSaved then s.balances
              else
                save OrganizerBalance.id
                  { balance with
                    availableBalance := a.round (balance.availableBalance + withdrawal.amount),
                    pendingBalance := a.round (balance.pendingBalance - withdrawal.amount) }
                  s.balances
            | none => s.balances
        if !saved then ({ s with balances := balances1 }, .saveFailed)
        else
          ({ s with balances := balances1,
                    withdrawals := save WithdrawalRequest.id decided s.withdrawals },
            .ok decided)

/-- `AdminHandler.ProcessWithdrawal` on rounded amounts; the request is saved
before the balance. -/
def ProcessWithdrawalOn (a : Arith) (balanceSaved : Bool) (s : Store) (requestID : String)
    (transactionRef : String) (now : Time) (saved : Bool) : Store × AdminResponse :=
  if transactionRef == "" then (s, .badRequest)
  else
    match first (fun w => w.id == requestID) s.withdrawals with
    | none => (s, .notFound)
    | some withdrawal =>
      if withdrawal.status ≠ .approved then (s, .wrongStatus)
      else
        let processed := { withdrawal with
          status := .processed, processedAt := some now, transactionRef := transactionRef }
        if !saved then (s, .saveFailed)
        else
          let s1 := { s with withdrawals := save WithdrawalRequest.id processed s.withdrawals }
          match first (fun b => b.organizerID == withdrawal.organizerID) s1.balances with
          | some balance =>
            if !balanceSaved then (s1, .ok processed)
            else
              let balance1 := { balance with
                withdrawnAmount := a.round (balance.withdrawnAmount + withdrawal.netAmount),
                pendingBalance := a.round (balance.pendingBalance - withdrawal.amount) }
              ({ s1 with balances := save OrganizerBalance.id balance1 s1.balances },
                .ok processed)
          | none => (s1, .ok processed)

/-- One handler call together with the outcome of the balance save it makes. -/
structure Step where
  call : Call
  balanceSaved : Bool

/-- The database after one handler call on rounded amounts. -/
def Step.run (a : Arith) (s : Store) (step : Step) : Store :=
  match step.call with
  | .purchase env attendeeID req => (InitiateTicketPurchaseOn a s env attendeeID req).store
  | .settle env reference => (VerifyPaymentOn a step.balanceSaved s env reference).1
  | .openBalance organizerID newID => GetOrganizerBalance s organizerID newID
  | .requestWithdrawal organizerID req newID =>
    (RequestWithdrawalOn a step.balanceSaved s organizerID req newID).1
  | .review requestID userID action comment now saved =>
    (ReviewWithdrawalRequestOn a step.balanceSaved s requestID userID action comment now saved).1
  | .process requestID transactionRef now saved =>
    (ProcessWithdrawalOn a step.balanceSaved s requestID transactionRef now saved).1
  | .updateSettings userID req saved => UpdatePlatformSettings s userID req saved

/-- An organizer. -/
def exOrganizer : UUID := "0b1f8a52-7c3e-4d19-9a60-2f4e6d8c1a01"

/-- An attendee. -/
def exAttendee : UUID := "5e2d9c41-08ab-4f37-b6d2-91c3a7e45f02"

/-- A published event of the organizer. -/
def exEvent : Event :=
  { id := "3a7c5e90-1b2d-4c6f-8e14-7d9b0a2c4e03", title := "Launch Night",
    status := .published, organizerID := exOrganizer }

/-- A ticket type of the event with a single unit, none sold, on sale from
instant 100 to instant 200. -/
def exTicketType : TicketType :=
  { id := "9d4e6f12-3a5b-4c7d-8e9f-0a1b2c3d4e04", eventID := exEvent.id, name := "Regular",
    price := 5000, quantity := 1, sold := 0, maxPerOrder := 10,
    saleStart := 100, saleEnd := 200, isActive := true }

/-- An order of one unit of `exTicketType`, in the given status. -/
def exOrder (id : UUID) (reference : String) (status : TransactionStatus) : Transaction :=
  { id := id, userID := exAttendee, eventID := some exEvent.id, type := .ticketPurchase,
    status := status, amount := 5000, currency := "NGN", platformFee := 250,
    netAmount := 4750, paymentGateway := "paystack", paymentReference := reference,
    description := "Purchase of tickets for Launch Night", failureReason := "" }

/-- The first order. -/
def exOrderA (status : TransactionStatus) : Transaction :=
  exOrder "c1a2b3c4-d5e6-4f70-8192-a3b4c5d6e705" "TXN-c1a2b3c4-1730000000" status

/-- The second order, created while the unit was still unsold. -/
def exOrderB (status : TransactionStatus) : Transaction :=
  exOrder "d2b3c4d5-e6f7-4081-92a3-b4c5d6e7f806" "TXN-d2b3c4d5-1730000005" status

/-- The zero balance row of the organizer. -/
def exBalance : OrganizerBalance :=
  { id := "e3c4d5e6-f708-4192-a3b4-c5d6e7f80907", organizerID := exOrganizer,
    totalEarnings := 0, availableBalance := 0, pendingBalance := 0, withdrawnAmount := 0 }

/-- The seeded platform settings. -/
def exSettings : PlatformSettings :=
  { id := "f4d5e6f7-0819-42a3-b4c5-d6e7f8091a08", platformFeePercentage := 5,
    withdrawalFeePercentage := 5 / 2, minWithdrawalAmount := 1000, currency := "NGN",
    updatedBy := uuidNil }

/-- A database with the event, its ticket type and the given orders and balances. -/
def exStore (transactions : List Transaction) (balances : List OrganizerBalance) : Store :=
  { events := [exEvent], ticketTypes := [exTicketType], tickets := [],
    transactions := transactions, balances := balances, withdrawals := [],
    settings := [exSettings] }

/-- The metadata the order builder attaches to an order of `quantity` units of
`exTicketType`, as the gateway echoes it. -/
def exMetadata (transactionID : UUID) (quantity : ℚ) : JSONMap :=
  [("transaction_id", .string transactionID), ("event_id", .string exEvent.id),
   ("attendee_id", .string exAttendee),
   ("items", .array [.object [("ticket_type_id", .string exTicketType.id),
                              ("quantity", .number quantity),
                              ("price", .number 5000),
                              ("name", .string "Regular")]])]

/-- The answer of the gateway that confirms the payment of an order of
`quantity` units. -/
def exConfirmation (transactionID : UUID) (quantity : ℚ) : PaystackVerifyResponse :=
  { status := true, message := "Verification successful", dataStatus := "success",
    dataAmount := 500000, metadata := exMetadata transactionID quantity }

/-- A settlement in which the gateway confirms the payment of an order of
`quantity` units and every ticket insert succeeds with the given id. -/
def exPaid (transactionID : UUID) (quantity : ℚ) (ticketID : UUID) (number : String) :
    SettleEnv :=
  { exchange := .body (exConfirmation transactionID quantity),
    createTicket := fun _ => some (ticketID, number),
    qrURL := fun _ => "", pdfURL := fun _ => "" }

/-- A settlement in which the gateway reports an abandoned payment. -/
def exUnpaid : SettleEnv :=
  { exchange := .body { status := true, message := "Verification successful",
                        dataStatus := "abandoned", dataAmount := 500000, metadata := [] },
    createTicket := fun _ => none, qrURL := fun _ => "", pdfURL := fun _ => "" }

/-- The settlement of the first order. -/
def exPaidA : SettleEnv :=
  exPaid (exOrderA .pending).id 1 "a1b2c3d4-0000-4000-8000-000000000a09" "TKT-a1b2c3d4"

/-- The settlement of the second order. -/
def exPaidB : SettleEnv :=
  exPaid (exOrderB .pending).id 1 "b2c3d4e5-0000-4000-8000-000000000b0a" "TKT-b2c3d4e5"

/-- A cart of one unit of `exTicketType`. -/
def exCart : PurchaseRequest :=
  { eventID := exEvent.id, items := [{ ticketTypeID := exTicketType.id, quantity := 1 }] }

/-- A checkout at the given instant, in which the transaction is stored with
the given id and reference and the gateway returns an authorization URL. -/
def exCheckout (now : Time) (id : UUID) (reference : String) : PurchaseEnv :=
  { now := fun _ => now, createTransaction := some id, reference := reference,
    currency := "NGN", email := "ada@example.com",
    exchange := .body true "Authorization URL created" "https://checkout.paystack.com/0peioxfhpn" }

/-- The checkout of the first order, at instant 150. -/
def exCheckoutA : PurchaseEnv :=
  exCheckout 150 (exOrderA .pending).id (exOrderA .pending).paymentReference

/-- The checkout of the second order, at instant 155. -/
def exCheckoutB : PurchaseEnv :=
  exCheckout 155 (exOrderB .pending).id (exOrderB .pending).paymentReference

/-- A withdrawal of 1000 to a bank account. -/
def exWithdrawal : WithdrawalForm :=
  { amount := 1000, bankName := "First Bank", accountNumber := "0123456789",
    accountName := "Ada Obi" }

/-- The id the database gives to the withdrawal request. -/
def exRequestID : UUID := "a5e6f708-192a-43b4-85d6-e7f8091a2b0b"

/-- An admin. -/
def exAdmin : UUID := "b6f70819-2a3b-44c5-96e7-f8091a2b3c0c"

/-- A run from checkout to payout: the first order is placed and paid, the
organizer asks for 1000, an admin approves the request and marks it processed. -/
def exRun : List Call :=
  [.purchase exCheckoutA exAttendee exCart,
   .settle exPaidA "TXN-c1a2b3c4-1730000000",
   .requestWithdrawal exOrganizer exWithdrawal (some exRequestID),
   .review exRequestID exAdmin "approve" "ok" 300 true,
   .process exRequestID "TRF-2f9k3m1x" 400 true]

/-- The platform settings after an admin has set the minimum withdrawal amount to 0. -/
def exSettingsNoMinimum : PlatformSettings :=
  { exSettings with minWithdrawalAmount := 0 }

/-- The balance row of the organizer after the first order was paid. -/
def exBalancePaid : OrganizerBalance :=
  { exBalance with totalEarnings := 4750, availableBalance := 4750 }

/-- The balance row of the organizer with 1000 available and nothing pending. -/
def exBalanceThousand : OrganizerBalance :=
  { exBalance with totalEarnings := 1000, availableBalance := 1000 }

/-- A database with the given settings row, balance rows and withdrawal requests. -/
def exLedger (settings : PlatformSettings) (balances : List OrganizerBalance)
    (withdrawals : List WithdrawalRequest) : Store :=
  { events := [exEvent], ticketTypes := [exTicketType], tickets := [], transactions := [],
    balances := balances, withdrawals := withdrawals, settings := [settings] }

/-- The withdrawal request of 1000 of the organizer, in the given status. -/
def exRequest (status : WithdrawalStatus) : WithdrawalRequest :=
  { id := exRequestID, organizerID := exOrganizer, amount := 1000, withdrawalFee := 25,
    netAmount := 975, status := status, bankName := "First Bank",
    accountNumber := "0123456789", accountName := "Ada Obi", reviewedBy := none,
    reviewedAt := none, reviewComment := "", processedAt := none, transactionRef := "" }

/-- A line item of the metadata that names `exTicketType` and carries no quantity. -/
def exItemNoQuantity : JSONMap :=
  [("ticket_type_id", .string exTicketType.id), ("price", .number 5000),
   ("name", .string "Regular")]

/-- The loop state at the start of the settlement of the first order. -/
def exIssueStart : Issue :=
  { store := exStore [exOrderA .pending] [exBalance], tickets := [], attempts := 0 }

/-- A settlement of the first order in which the gateway confirms the payment
and every ticket insert fails. -/
def exPaidNoInsert : SettleEnv :=
  { exPaidA with createTicket := fun _ => none }

/-- A run on a pending request: an admin raises the withdrawal fee to 50
percent, then approves the request and marks it processed. -/
def exRunRepriced : List Call :=
  [.updateSettings exAdmin
     { platformFeePercentage := none, withdrawalFeePercentage := some 50,
       minWithdrawalAmount := none, currency := none } true,
   .review exRequestID exAdmin "approve" "ok" 300 true,
   .process exRequestID "TRF-2f9k3m1x" 400 true]

/-- A second settlement call for the first order: the gateway confirms the
payment and the ticket insert succeeds with another id. -/
def exPaidAgain : SettleEnv :=
  exPaid (exOrderA .pending).id 1 "b2c3d4e5-0000-4000-8000-000000000b0a" "TKT-b2c3d4e5"

/-- The body of a request that creates an event. -/
def exEventForm : EventForm :=
  { title := "Harvest Fair", category := "Festival", venue := "Freedom Park",
    startDate := some 500, endDate := some 600 }

/-- The id the database gives to the created event. -/
def exNewEventID : UUID := "c7081920-3b4c-45d6-a7f8-091a2b3c4d0d"

/-- A moderator approves the new event of the organizer, who then asks to
publish it. -/
def exEventRun : List EventCall :=
  [.create exOrganizer exEventForm (some exNewEventID),
   .review exNewEventID "approve" true,
   .publish exNewEventID exOrganizer true]

/-- A withdrawal form for the amount the JSON decoder reads from the decimal
`cents / 100`: the nearest `float64`. -/
def exWithdrawalOf (cents : Nat) : WithdrawalForm :=
  { exWithdrawal with amount := roundFloat64 (cents / 100) }

/-- A balance row whose available amount is the `float64` nearest to
9500.047499999999. -/
def exBalanceOdd : OrganizerBalance :=
  { exBalance with
    totalEarnings := roundFloat64 (9500047499999999 / 1000000000000),
    availableBalance := roundFloat64 (9500047499999999 / 1000000000000) }

/-- Ticket creation from `st` to `st1` for a transaction: the tables other than
tickets and ticket types are the same, and the new rows of the ticket table are
the tickets appended to the local slice, each a confirmed ticket of the
transaction. -/
def Issue.grows (transaction : Transaction) (st st1 : Issue) : Prop :=
  st1.store.events = st.store.events ∧ st1.store.transactions = st.store.transactions ∧
  st1.store.balances = st.store.balances ∧ st1.store.withdrawals = st.store.withdrawals ∧
  st1.store.settings = st.store.settings ∧
  ∃ new : List Ticket, st1.store.tickets = st.store.tickets ++ new ∧
    st1.tickets = st.tickets ++ new ∧
    ∀ t ∈ new, t.transactionID = transaction.id ∧ t.status = .confirmed

/-- The sum over the line items of ticket type price times quantity, the ticket
type of an item being the one stored under its id for the event. -/
def cartTotal (s : Store) (eventID : String) (items : List PurchaseItem) : ℚ :=
  (items.map fun i =>
    ((first (fun t => t.id == i.ticketTypeID && t.eventID == eventID) s.ticketTypes).getD
      TicketType.zero).price * i.quantity).sum

/-- A line item fails the order-time checks at instant `now`: its ticket type
is not found for the event, or is not available, or the quantity is above the
remaining tickets or above the maximum per order. -/
def itemFails (s : Store) (eventID : String) (now : Time) (item : PurchaseItem) : Bool :=
  match first (fun t => t.id == item.ticketTypeID && t.eventID == eventID) s.ticketTypes with
  | none => true
  | some ticketType =>
    !ticketType.IsAvailable now || decide (item.quantity > ticketType.RemainingTickets) ||
      decide (item.quantity > ticketType.maxPerOrder)

/-- The ledger invariant: on every balance row the available, pending and
withdrawn amounts add up to at most the total earnings; every withdrawal
request pays out at most the amount it reserved; and the withdrawal fee
percentage of the settings is between 0 and 100. -/
def Store.conserved (s : Store) : Prop :=
  (∀ b ∈ s.balances,
    b.availableBalance + b.pendingBalance + b.withdrawnAmount ≤ b.totalEarnings) ∧
  (∀ w ∈ s.withdrawals, w.netAmount ≤ w.amount) ∧
  (∀ p ∈ s.settings, 0 ≤ p.withdrawalFeePercentage ∧ p.withdrawalFeePercentage ≤ 100)

/-- The row `RequestWithdrawal` creates for a request under the given settings. -/
def requestedWithdrawal (organizerID : UUID) (req : WithdrawalForm) (settings : PlatformSettings)
    (id : UUID) : WithdrawalRequest :=
  { id := id, organizerID := organizerID, amount := req.amount,
    withdrawalFee := req.amount * (settings.withdrawalFeePercentage / 100),
    netAmount := req.amount - req.amount * (settings.withdrawalFeePercentage / 100),
    status := .pending, bankName := req.bankName, accountNumber := req.accountNumber,
    accountName := req.accountName, reviewedBy := none, reviewedAt := none,
    reviewComment := "", processedAt := none, transactionRef := "" }

/-- The balance row after `amount` has moved from available to pending. -/
def reserved (balance : OrganizerBalance) (amount : ℚ) : OrganizerBalance :=
  { balance with
    availableBalance := balance.availableBalance - amount,
    pendingBalance := balance.pendingBalance + amount }

/-- The balance row after `amount` has moved from pending back to available. -/
def released (balance : OrganizerBalance) (amount : ℚ) : OrganizerBalance :=
  { balance with
    availableBalance := balance.availableBalance + amount,
    pendingBalance := balance.pendingBalance - amount }

/-- The balance row after a payout: `net` is added to withdrawn, `amount` leaves pending. -/
def paidOut (balance : OrganizerBalance) (amount net : ℚ) : OrganizerBalance :=
  { balance with
    withdrawnAmount := balance.withdrawnAmount + net,
    pendingBalance := balance.pendingBalance - amount }

/-- The transaction `InitiateTicketPurchase` stores for a validated cart of the
given total, under the id the database generated. -/
def orderTransaction (s : Store) (env : PurchaseEnv) (attendeeID : UUID) (event : Event)
    (totalAmount : ℚ) (id : UUID) : Transaction :=
  { id := id, userID := attendeeID, eventID := some event.id,
    type := .ticketPurchase, status := .pending, amount := totalAmount,
    currency := env.currency,
    platformFee := totalAmount *
      (((first (fun _ => true) s.settings).getD PlatformSettings.zero).platformFeePercentage
        / 100),
    netAmount := totalAmount - totalAmount *
      (((first (fun _ => true) s.settings).getD PlatformSettings.zero).platformFeePercentage
        / 100),
    paymentGateway := "paystack", paymentReference := env.reference,
    description := "Purchase of tickets for " ++ event.title, failureReason := "" }

/-- The metadata `InitiateTicketPurchase` attaches to the payment of a validated cart. -/
def orderMetadata (id : UUID) (event : Event) (attendeeID : UUID)
    (ticketItems : List JSONValue) : JSONMap :=
  [("transaction_id", .string id), ("event_id", .string event.id),
   ("attendee_id", .string attendeeID), ("items", .array ticketItems)]

/-- The ticket type an order line refers to: the one stored under its id for
the event (the zero value when there is none). -/
def lineTicketType (s : Store) (eventID : String) (item : PurchaseItem) : TicketType :=
  (first (fun t => t.id == item.ticketTypeID && t.eventID == eventID) s.ticketTypes).getD
    TicketType.zero

/-- What the checkout of the first order sends to the gateway. -/
def exPaymentInit : PaymentInit :=
  { email := "ada@example.com", amount := 0 + exTicketType.price * ((1 : Int) : ℚ),
    reference := "TXN-c1a2b3c4-1730000000",
    metadata :=
      orderMetadata (exOrderA .pending).id exEvent exAttendee
        [ticketItem { ticketTypeID := exTicketType.id, quantity := 1 } exTicketType] }

/-- A run with a rejection that is not stored: the first order is placed and
paid, the organizer asks for 1000, an admin rejects the request while the save
of the request fails, and rejects it again. -/
def exRunRejected : List Call :=
  [.purchase exCheckoutA exAttendee exCart,
   .settle exPaidA "TXN-c1a2b3c4-1730000000",
   .requestWithdrawal exOrganizer exWithdrawal (some exRequestID),
   .review exRequestID exAdmin "reject" "bank details" 300 false,
   .review exRequestID exAdmin "reject" "bank details" 310 true]

/-- The identifier the database generates for a new row is one no stored row
carries (primary key): the condition on the calls that create a withdrawal
request or a balance row. -/
def Call.fresh (s : Store) : Call → Bool
  | .requestWithdrawal _ _ (some id) => s.withdrawals.all fun w => w.id != id
  | .openBalance _ (some id) => s.balances.all fun b => b.id != id
  | _ => true

/-- Every call of the sequence, run in turn from `s`, gets fresh identifiers. -/
def validRun : Store → List Call → Bool
  | _, [] => true
  | s, c :: cs => c.fresh s && validRun (c.run s) cs

/-- The transitions of the withdrawal state machine: pending to approved,
pending to rejected, approved to processed. -/
def WithdrawalStatus.next : WithdrawalStatus → WithdrawalStatus → Bool
  | .pending, .approved => true
  | .pending, .rejected => true
  | .approved, .processed => true
  | _, _ => false

/-- The withdrawal request stored at position `i` of the table, if any. -/
def requestAt (s : Store) (i : Nat) : Option WithdrawalRequest := s.withdrawals[i]?

/-- What one call may do to the row at a position of the withdrawal table: a
missing row stays missing or appears as a pending request; a stored row keeps
its id and either keeps its status or takes a transition of the state machine. -/
def rowMoves : Option WithdrawalRequest → Option WithdrawalRequest → Prop
  | none, none => True
  | none, some w => w.status = .pending
  | some w, some w1 => w1.id = w.id ∧ (w1.status = w.status ∨ w.status.next w1.status = true)
  | some _, none => False

/-- The keys of the ledger tables: the ids of the balance rows are distinct
(primary key), so are their organizers (unique index) and the ids of the
withdrawal requests (primary key), and every request belongs to an organizer
that has a balance row. -/
def Store.keyed (s : Store) : Prop :=
  (s.balances.map OrganizerBalance.id).Nodup ∧
  (s.balances.map OrganizerBalance.organizerID).Nodup ∧
  (s.withdrawals.map WithdrawalRequest.id).Nodup ∧
  (∀ w ∈ s.withdrawals, w.organizerID ∈ s.balances.map OrganizerBalance.organizerID)

/-- The amount a request holds in the pending balance of an organizer: the
amount of a pending or approved request of that organizer, nothing otherwise. -/
def openTerm (organizerID : UUID) (w : WithdrawalRequest) : ℚ :=
  if w.organizerID = organizerID ∧ (w.status = .pending ∨ w.status = .approved) then w.amount
  else 0

/-- The amounts of the open requests of an organizer, those pending or approved. -/
def openAmount (organizerID : UUID) (ws : List WithdrawalRequest) : ℚ :=
  (ws.map (openTerm organizerID)).sum

/-- The pending balance of every row is the sum of the open requests of its organizer. -/
def Store.reservedOpen (s : Store) : Prop :=
  ∀ b ∈ s.balances, b.pendingBalance = openAmount b.organizerID s.withdrawals

/-- The amounts the ledger is fed with are sound: no ticket type has a negative
price, no transaction a negative net amount, and both fee percentages of the
settings are between 0 and 100. -/
def Store.priced (s : Store) : Prop :=
  (∀ t ∈ s.ticketTypes, 0 ≤ t.price) ∧
  (∀ t ∈ s.transactions, 0 ≤ t.netAmount) ∧
  (∀ p ∈ s.settings,
    0 ≤ p.platformFeePercentage ∧ p.platformFeePercentage ≤ 100 ∧
    0 ≤ p.withdrawalFeePercentage ∧ p.withdrawalFeePercentage ≤ 100)

/-- Every amount of the ledger is non-negative: the four amounts of every
balance row and the amount and net amount of every withdrawal request. -/
def Store.nonneg (s : Store) : Prop :=
  (∀ b ∈ s.balances,
    0 ≤ b.totalEarnings ∧ 0 ≤ b.availableBalance ∧ 0 ≤ b.pendingBalance ∧
      0 ≤ b.withdrawnAmount) ∧
  (∀ w ∈ s.withdrawals, 0 ≤ w.amount ∧ 0 ≤ w.netAmount)

/-- The balance row after a credit of `net`. -/
def credited (balance : OrganizerBalance) (net : ℚ) : OrganizerBalance :=
  { balance with
    totalEarnings := balance.totalEarnings + net,
    availableBalance := balance.availableBalance + net }

/-- The balances after a write on the row of an organizer, when it is found. -/
def writeBalance (organizerID : UUID) (f : OrganizerBalance → OrganizerBalance)
    (balances : List OrganizerBalance) : List OrganizerBalance :=
  match first (fun b => b.organizerID == organizerID) balances with
  | some balance => save OrganizerBalance.id (f balance) balances
  | none => balances

/-- What one handler call does to the two ledger tables, in seven kinds of moves. -/
inductive LedgerMove (s s1 : Store) : Prop where
  | same (hb : s1.balances = s.balances) (hw : s1.withdrawals = s.withdrawals)
  | credit (organizerID : UUID) (t : Transaction) (ht : t ∈ s.transactions)
      (hb : s1.balances = writeBalance organizerID (fun b => credited b t.netAmount) s.balances)
      (hw : s1.withdrawals = s.withdrawals)
  | opened (organizerID id : UUID)
      (hnone : first (fun b => b.organizerID == organizerID) s.balances = none)
      (hid : id ∉ s.balances.map OrganizerBalance.id)
      (hb : s1.balances = s.balances ++
        [{ id := id, organizerID := organizerID, totalEarnings := 0, availableBalance := 0,
           pendingBalance := 0, withdrawnAmount := 0 }])
      (hw : s1.withdrawals = s.withdrawals)
  | requested (b : OrganizerBalance) (w : WithdrawalRequest) (p : PlatformSettings)
      (hfind : first (fun b => b.organizerID == w.organizerID) s.balances = some b)
      (hid : w.id ∉ s.withdrawals.map WithdrawalRequest.id)
      (hp : p ∈ s.settings) (hstatus : w.status = .pending) (hpos : 0 < w.amount)
      (hle : w.amount ≤ b.availableBalance)
      (hnet : w.netAmount = w.amount - w.amount * (p.withdrawalFeePercentage / 100))
      (hb : s1.balances = save OrganizerBalance.id (reserved b w.amount) s.balances)
      (hw : s1.withdrawals = s.withdrawals ++ [w])
  | approved (w w1 : WithdrawalRequest) (hmem : w ∈ s.withdrawals)
      (hstatus : w.status = .pending) (hstatus1 : w1.status = .approved)
      (hid : w1.id = w.id) (horg : w1.organizerID = w.organizerID)
      (hamount : w1.amount = w.amount) (hnet : w1.netAmount = w.netAmount)
      (hb : s1.balances = s.balances)
      (hw : s1.withdrawals = save WithdrawalRequest.id w1 s.withdrawals)
  | rejected (w w1 : WithdrawalRequest) (hmem : w ∈ s.withdrawals)
      (hstatus : w.status = .pending) (hstatus1 : w1.status = .rejected)
      (hid : w1.id = w.id) (horg : w1.organizerID = w.organizerID)
      (hamount : w1.amount = w.amount) (hnet : w1.netAmount = w.netAmount)
      (hb : s1.balances = writeBalance w.organizerID (fun b => released b w.amount) s.balances)
      (hw : s1.withdrawals = save WithdrawalRequest.id w1 s.withdrawals)
  | processed (w w1 : WithdrawalRequest) (hmem : w ∈ s.withdrawals)
      (hstatus : w.status = .approved) (hstatus1 : w1.status = .processed)
      (hid : w1.id = w.id) (horg : w1.organizerID = w.organizerID)
      (hamount : w1.amount = w.amount) (hnet : w1.netAmount = w.netAmount)
      (hb : s1.balances =
        writeBalance w.organizerID (fun b => paidOut b w.amount w.netAmount) s.balances)
      (hw : s1.withdrawals = save WithdrawalRequest.id w1 s.withdrawals)

/-- The request row after a review: the reviewer, the time, the comment and the
new status are recorded. -/
def reviewedAs (w : WithdrawalRequest) (userID : UUID) (now : Time) (comment : String)
    (status : WithdrawalStatus) : WithdrawalRequest :=
  { w with
    reviewedBy := some userID, reviewedAt := some now, reviewComment := comment,
    status := status }

/-- The value of a list of decimal digits, most significant first. -/
def digitsValue (cs : List Char) : Nat := cs.foldl (fun a c => 10 * a + (c.toNat - 48)) 0

/-- The characters of a numeral after its optional sign. -/
def unsigned : List Char → List Char
  | '-' :: r => r
  | '+' :: r => r
  | r => r

/-- The quantity of a line item is absent, or is neither a number nor a string,
or is a string that `strconv.Atoi` refuses. -/
def noQuantity : Option JSONValue → Bool
  | some (.number _) => false
  | some (.string s) => (Atoi s).isNone
  | _ => true

/-- The ticket is confirmed and carries the price of a ticket type of the list
stored under its ticket type id, or, for the zero ticket type (no stored type
was found), the price 0. -/
def pricedBy (types : List TicketType) (t : Ticket) : Prop :=
  t.status = .confirmed ∧
  ((∃ y ∈ types, y.id = t.ticketTypeID ∧ y.price = t.price) ∨
    (t.ticketTypeID = uuidNil ∧ t.price = 0))

/-- The database after the first order was placed at a unit price of 5000 and
the organizer's ticket type was then repriced to 6000. -/
def exRepriced : Store :=
  { exStore [exOrderA .pending] [exBalance] with
    ticketTypes := [{ exTicketType with price := 6000 }] }

/-- The settlement of the first order in which the gateway echoes the metadata
the checkout sent. -/
def exPaidEcho : SettleEnv :=
  { exchange := .body { status := true, message := "Verification successful",
                        dataStatus := "success", dataAmount := 500000,
                        metadata := exPaymentInit.metadata },
    createTicket := fun _ => some ("a1b2c3d4-0000-4000-8000-000000000a09", "TKT-a1b2c3d4"),
    qrURL := fun _ => "", pdfURL := fun _ => "" }

/-- The sum of the quantities `VerifyPayment` decodes from the line items. -/
def cartQuantity (items : List JSONMap) : Int :=
  (items.map fun item => decodeQuantity (item.get "quantity")).sum

/-- The number of tickets of the list that belong to the ticket type. -/
def issuedOf (ticketTypeID : UUID) (tickets : List Ticket) : Nat :=
  tickets.countP fun t => t.ticketTypeID == ticketTypeID

/-- What a withdrawal request fixes when it is created: its id, its organizer,
the amount, the fee, the net amount and the bank details. -/
def frozenPart (w : WithdrawalRequest) : UUID × UUID × ℚ × ℚ × ℚ × String × String × String :=
  (w.id, w.organizerID, w.amount, w.withdrawalFee, w.netAmount, w.bankName, w.accountNumber,
    w.accountName)

theorem wrapInt_of_isInt {x : Int} (h : isInt x) : wrapInt x = x := by
  unfold isInt minInt maxInt at h
  unfold wrapInt
  omega

theorem first_save_of {α : Type} (key : α → UUID) (P : α → Bool) (r r0 : α) (rows : List α)
    (h0 : first P rows = some r0) (hk : key r0 = key r) (hP : P r = true) :
    first P (save key r rows) = some r := by
  induction rows with
  | nil => simp [first] at h0
  | cons x xs ih =>
    unfold first save at *
    rw [List.map_cons, List.find?_cons]
    rw [List.find?_cons] at h0
    by_cases hx : P x = true
    · rw [hx] at h0
      simp only [Option.some.injEq] at h0
      subst h0
      simp [hk, hP]
    · simp only [Bool.not_eq_true] at hx
      rw [hx] at h0
      by_cases hkx : key x = key r
      · simp [hkx, hP]
      · simp only [hkx, if_false, hx]
        exact ih h0

theorem first_save_none {α : Type} (key : α → UUID) (P : α → Bool) (r : α) (rows : List α)
    (h0 : first P rows = none) (hP : P r = false) :
    first P (save key r rows) = none := by
  unfold first save at *
  rw [List.find?_eq_none] at *
  intro x hx
  rw [List.mem_map] at hx
  obtain ⟨y, hy, rfl⟩ := hx
  by_cases hk : key y = key r
  · simp [hk, hP]
  · simp only [hk, if_false]
    exact h0 y hy

theorem Issue.grows_refl (tx : Transaction) (st : Issue) : Issue.grows tx st st :=
  ⟨rfl, rfl, rfl, rfl, rfl, [], by simp, by simp, by simp⟩

theorem Issue.grows_trans {tx : Transaction} {a b c : Issue}
    (h1 : Issue.grows tx a b) (h2 : Issue.grows tx b c) : Issue.grows tx a c := by
  obtain ⟨e1, t1, b1, w1, s1, n1, hs1, hl1, hn1⟩ := h1
  obtain ⟨e2, t2, b2, w2, s2, n2, hs2, hl2, hn2⟩ := h2
  refine ⟨e2.trans e1, t2.trans t1, b2.trans b1, w2.trans w1, s2.trans s1, n1 ++ n2, ?_, ?_, ?_⟩
  · rw [hs2, hs1, List.append_assoc]
  · rw [hl2, hl1, List.append_assoc]
  · intro t ht
    rcases List.mem_append.mp ht with h | h
    · exact hn1 t h
    · exact hn2 t h

theorem issueUnit_grows (env : SettleEnv) (event : Event) (tx : Transaction) (tt : TicketType)
    (st : Issue) : Issue.grows tx st (issueUnit env event tx tt st) := by
  unfold issueUnit
  cases h : env.createTicket st.attempts with
  | none => exact ⟨rfl, rfl, rfl, rfl, rfl, [], by simp, by simp, by simp⟩
  | some p =>
    obtain ⟨id, number⟩ := p
    refine ⟨rfl, rfl, rfl, rfl, rfl, [_], rfl, rfl, ?_⟩
    intro t ht
    simp only [List.mem_singleton] at ht
    subst ht
    exact ⟨rfl, rfl⟩

theorem issueUnit_ticketTypes (env : SettleEnv) (event : Event) (tx : Transaction)
    (tt : TicketType) (st : Issue) :
    (issueUnit env event tx tt st).store.ticketTypes = st.store.ticketTypes := by
  unfold issueUnit
  cases h : env.createTicket st.attempts with
  | none => rfl
  | some p => rfl

theorem issueUnits_grows (env : SettleEnv) (event : Event) (tx : Transaction) (tt : TicketType)
    (n : Nat) (st : Issue) : Issue.grows tx st (issueUnits env event tx tt n st) := by
  induction n generalizing st with
  | zero => exact Issue.grows_refl tx st
  | succ n ih =>
    exact Issue.grows_trans (issueUnit_grows env event tx tt st) (ih _)

theorem issueUnits_ticketTypes (env : SettleEnv) (event : Event) (tx : Transaction)
    (tt : TicketType) (n : Nat) (st : Issue) :
    (issueUnits env event tx tt n st).store.ticketTypes = st.store.ticketTypes := by
  induction n generalizing st with
  | zero => rfl
  | succ n ih =>
    show (issueUnits env event tx tt n (issueUnit env event tx tt st)).store.ticketTypes = _
    rw [ih, issueUnit_ticketTypes]

theorem issueItem_grows (env : SettleEnv) (event : Event) (tx : Transaction) (item : JSONMap)
    (st : Issue) : Issue.grows tx st (issueItem env event tx item st) := by
  unfold issueItem
  exact issueUnits_grows env event tx _ _ st

theorem issueItems_grows (env : SettleEnv) (event : Event) (tx : Transaction)
    (items : List JSONMap) (st : Issue) :
    Issue.grows tx st (issueItems env event tx items st) := by
  induction items generalizing st with
  | nil => exact Issue.grows_refl tx st
  | cons item rest ih =>
    exact Issue.grows_trans (issueItem_grows env event tx item st) (ih _)

/-! ## The branches of `VerifyPayment` -/

theorem first_holds {α : Type} {P : α → Bool} {rows : List α} {r : α}
    (h : first P rows = some r) : P r = true := by
  unfold first at h
  exact List.find?_some h

theorem VerifyPayment_found (s : Store) (env : SettleEnv) (reference : String)
    (tx : Transaction) (href : reference ≠ "")
    (hfind : first (fun t => t.paymentReference == reference) s.transactions = some tx) :
    VerifyPayment s env reference =
      if tx.status = .completed then
        (s, .alreadyVerified (s.tickets.filter fun t => t.transactionID == tx.id))
      else
        match VerifyTransaction env.exchange with
        | .error err => (failTransaction s tx err, .verificationFailed)
        | .ok verification =>
          if !IsTransactionSuccessful verification then
            (failTransaction s tx "Payment not successful", .notSuccessful)
          else settleVerified s env tx verification := by
  unfold VerifyPayment
  rw [if_neg href, hfind]

theorem settleVerified_response (s : Store) (env : SettleEnv) (tx : Transaction)
    (v : PaystackVerifyResponse) :
    ∃ st : Issue, Issue.grows tx { store := s, tickets := [], attempts := 0 } st ∧
      (settleVerified s env tx v).2 = .verified st.tickets ∧
      (settleVerified s env tx v).1.tickets = st.store.tickets ∧
      (settleVerified s env tx v).1.transactions =
        save Transaction.id { tx with status := .completed } s.transactions := by
  refine ⟨_, issueItems_grows env _ tx (cartItems v.metadata) _, rfl, rfl, ?_⟩
  have h := (issueItems_grows env
    ((first (fun e => e.id == assertString (v.metadata.get "event_id")) s.events).getD Event.zero)
    tx (cartItems v.metadata) { store := s, tickets := [], attempts := 0 }).2.1
  simp only [settleVerified]
  rw [h]

theorem VerifyPayment_success (s : Store) (env : SettleEnv) (reference : String)
    (tx : Transaction) (v : PaystackVerifyResponse) (href : reference ≠ "")
    (hfind : first (fun t => t.paymentReference == reference) s.transactions = some tx)
    (hopen : tx.status ≠ .completed) (hx : VerifyTransaction env.exchange = .ok v)
    (hs : IsTransactionSuccessful v = true) :
    VerifyPayment s env reference = settleVerified s env tx v := by
  rw [VerifyPayment_found s env reference tx href hfind, if_neg hopen, hx]
  simp [hs]

theorem VerifyPayment_error (s : Store) (env : SettleEnv) (reference : String)
    (tx : Transaction) (err : String) (href : reference ≠ "")
    (hfind : first (fun t => t.paymentReference == reference) s.transactions = some tx)
    (hopen : tx.status ≠ .completed) (hx : VerifyTransaction env.exchange = .error err) :
    VerifyPayment s env reference = (failTransaction s tx err, .verificationFailed) := by
  rw [VerifyPayment_found s env reference tx href hfind, if_neg hopen, hx]

theorem VerifyPayment_unsuccessful (s : Store) (env : SettleEnv) (reference : String)
    (tx : Transaction) (v : PaystackVerifyResponse) (href : reference ≠ "")
    (hfind : first (fun t => t.paymentReference == reference) s.transactions = some tx)
    (hopen : tx.status ≠ .completed) (hx : VerifyTransaction env.exchange = .ok v)
    (hs : IsTransactionSuccessful v = false) :
    VerifyPayment s env reference =
      (failTransaction s tx "Payment not successful", .notSuccessful) := by
  rw [VerifyPayment_found s env reference tx href hfind, if_neg hopen, hx]
  simp [hs]

/-- C2. Idempotence of settlement: a reference whose transaction is completed
gets back the tickets stored for that transaction and the database is left as
it is; hence a second settlement after one that completed the transaction
changes nothing (no second batch of tickets, no second credit) and returns the
tickets the first one created, when the transaction had no ticket before. -/
theorem settle_idempotent (s : Store) (env1 env2 : SettleEnv) (reference : String)
    (tx : Transaction) (href : reference ≠ "")
    (hfind : first (fun t => t.paymentReference == reference) s.transactions = some tx) :
    (tx.status = .completed →
      VerifyPayment s env1 reference =
        (s, .alreadyVerified (s.tickets.filter fun t => t.transactionID == tx.id))) ∧
    (∀ ts, (VerifyPayment s env1 reference).2 = .verified ts →
      VerifyPayment (VerifyPayment s env1 reference).1 env2 reference =
        ((VerifyPayment s env1 reference).1,
          .alreadyVerified ((VerifyPayment s env1 reference).1.tickets.filter
            fun t => t.transactionID == tx.id)) ∧
      ((s.tickets.filter fun t => t.transactionID == tx.id) = [] →
        ((VerifyPayment s env1 reference).1.tickets.filter
            fun t => t.transactionID == tx.id) = ts)) := by
  constructor
  · intro hdone
    rw [VerifyPayment_found s env1 reference tx href hfind, if_pos hdone]
  · intro ts hts
    by_cases hdone : tx.status = .completed
    · rw [VerifyPayment_found s env1 reference tx href hfind, if_pos hdone] at hts
      cases hts
    · cases hx : VerifyTransaction env1.exchange with
      | error err =>
        rw [VerifyPayment_error s env1 reference tx err href hfind hdone hx] at hts
        cases hts
      | ok v =>
        cases hs : IsTransactionSuccessful v with
        | false =>
          rw [VerifyPayment_unsuccessful s env1 reference tx v href hfind hdone hx hs] at hts
          cases hts
        | true =>
          rw [VerifyPayment_success s env1 reference tx v href hfind hdone hx hs] at hts ⊢
          obtain ⟨st, hg, hresp, htk, htx⟩ := settleVerified_response s env1 tx v
          obtain ⟨-, -, -, -, -, new, hnew, hloc, hall⟩ := hg
          have hfind2 : first (fun t => t.paymentReference == reference)
              (settleVerified s env1 tx v).1.transactions
                = some { tx with status := .completed } := by
            rw [htx]
            have hp := first_holds hfind
            exact first_save_of Transaction.id _ _ tx _ hfind rfl hp
          rw [hresp] at hts
          injection hts with hts
          constructor
          · rw [VerifyPayment_found _ env2 reference _ href hfind2, if_pos rfl]
          · intro hnone
            rw [htk, hnew, List.filter_append, hnone, List.nil_append, ← hts, hloc,
              List.nil_append]
            rw [List.filter_eq_self]
            intro t ht
            simp [(hall t ht).1]

/-! ## Settlement when the gateway does not confirm the payment -/

theorem append_ne_empty (a b : String) (h : a.data ≠ []) : a ++ b ≠ "" := by
  intro hab
  have h1 := congrArg String.data hab
  rw [String.data_append] at h1
  simp at h1
  exact h h1.1

theorem VerifyTransaction_error_ne_empty (x : VerifyExchange) (err : String)
    (h : VerifyTransaction x = .error err) : err ≠ "" := by
  cases x with
  | notConfigured =>
    simp only [VerifyTransaction, Except.error.injEq] at h
    subst h
    decide
  | requestError e =>
    simp only [VerifyTransaction, Except.error.injEq] at h
    subst h
    exact append_ne_empty _ _ (by decide)
  | sendError e =>
    simp only [VerifyTransaction, Except.error.injEq] at h
    subst h
    exact append_ne_empty _ _ (by decide)
  | readError e =>
    simp only [VerifyTransaction, Except.error.injEq] at h
    subst h
    exact append_ne_empty _ _ (by decide)
  | unmarshalError e =>
    simp only [VerifyTransaction, Except.error.injEq] at h
    subst h
    exact append_ne_empty _ _ (by decide)
  | body r =>
    simp only [VerifyTransaction] at h
    split at h
    · simp only [Except.error.injEq] at h
      subst h
      exact append_ne_empty _ _ (by decide)
    · cases h

/-- Settlement of a transaction that is not completed, when the gateway does not
confirm the payment: the transaction is saved as failed with a reason, and
nothing else is written. -/
theorem settle_unverified (s : Store) (env : SettleEnv) (reference : String) (tx : Transaction)
    (href : reference ≠ "")
    (hfind : first (fun t => t.paymentReference == reference) s.transactions = some tx)
    (hopen : tx.status ≠ .completed)
    (hfail : ∀ v, VerifyTransaction env.exchange = .ok v → IsTransactionSuccessful v = false) :
    ((VerifyPayment s env reference).2 = .verificationFailed ∨
      (VerifyPayment s env reference).2 = .notSuccessful) ∧
    (∃ reason, reason ≠ "" ∧
      first (fun t => t.paymentReference == reference)
        (VerifyPayment s env reference).1.transactions =
          some { tx with status := .failed, failureReason := reason }) ∧
    (VerifyPayment s env reference).1.tickets = s.tickets ∧
    (VerifyPayment s env reference).1.ticketTypes = s.ticketTypes ∧
    (VerifyPayment s env reference).1.balances = s.balances := by
  have hp := first_holds hfind
  cases hx : VerifyTransaction env.exchange with
  | error err =>
    rw [VerifyPayment_error s env reference tx err href hfind hopen hx]
    refine ⟨Or.inl rfl, ⟨err, VerifyTransaction_error_ne_empty _ _ hx, ?_⟩, rfl, rfl, rfl⟩
    exact first_save_of Transaction.id _ _ tx _ hfind rfl hp
  | ok v =>
    rw [VerifyPayment_unsuccessful s env reference tx v href hfind hopen hx (hfail v hx)]
    refine ⟨Or.inr rfl, ⟨"Payment not successful", by decide, ?_⟩, rfl, rfl, rfl⟩
    exact first_save_of Transaction.id _ _ tx _ hfind rfl hp

/-! ## Ticket creation within the remaining capacity -/

theorem issueUnit_attempts (env : SettleEnv) (event : Event) (tx : Transaction)
    (tt : TicketType) (st : Issue) :
    (issueUnit env event tx tt st).attempts = st.attempts + 1 := by
  unfold issueUnit
  cases h : env.createTicket st.attempts with
  | none => rfl
  | some p => rfl

/-- When every insert succeeds, the inner loop creates one ticket per iteration. -/
theorem issueUnits_all (env : SettleEnv) (event : Event) (tx : Transaction) (tt : TicketType)
    (n : Nat) (st : Issue)
    (hins : ∀ k, st.attempts ≤ k → k < st.attempts + n → (env.createTicket k).isSome = true) :
    ∃ new : List Ticket,
      (issueUnits env event tx tt n st).tickets = st.tickets ++ new ∧
      (issueUnits env event tx tt n st).store.tickets = st.store.tickets ++ new ∧
      new.length = n ∧
      ∀ t ∈ new, t.ticketTypeID = tt.id ∧ t.transactionID = tx.id ∧ t.status = .confirmed := by
  induction n generalizing st with
  | zero => exact ⟨[], by simp [issueUnits], by simp [issueUnits], rfl, by simp⟩
  | succ n ih =>
    have h0 : (env.createTicket st.attempts).isSome = true :=
      hins st.attempts (Nat.le_refl _) (by omega)
    obtain ⟨p, hp⟩ := Option.isSome_iff_exists.mp h0
    have hstep : ∀ k, (issueUnit env event tx tt st).attempts ≤ k →
        k < (issueUnit env event tx tt st).attempts + n →
        (env.createTicket k).isSome = true := by
      intro k h1 h2
      rw [issueUnit_attempts] at h1 h2
      exact hins k (by omega) (by omega)
    obtain ⟨new, hl, hs, hlen, hall⟩ := ih (issueUnit env event tx tt st) hstep
    have hu : issueUnit env event tx tt st =
        { store := { st.store with tickets := st.store.tickets ++
            [newTicket env event tx tt st.attempts p.1 p.2] },
          tickets := st.tickets ++ [newTicket env event tx tt st.attempts p.1 p.2],
          attempts := st.attempts + 1 } := by
      unfold issueUnit
      rw [hp]
    refine ⟨newTicket env event tx tt st.attempts p.1 p.2 :: new, ?_, ?_, by simp [hlen], ?_⟩
    · show (issueUnits env event tx tt n (issueUnit env event tx tt st)).tickets = _
      rw [hl, hu]
      simp
    · show (issueUnits env event tx tt n (issueUnit env event tx tt st)).store.tickets = _
      rw [hs, hu]
      simp
    · intro t ht
      rcases List.mem_cons.mp ht with h | h
      · subst h
        exact ⟨rfl, rfl, rfl⟩
      · exact hall t h

/-- C4 (amended). A line item whose quantity `q` is at most the remaining
capacity, with every ticket insert succeeding: exactly `q` tickets of the type
are created for the transaction, which is `min q (max r 0)` for the remaining
capacity `r`, so the shortfall is zero; and `sold` grows by `q`. -/
theorem issueItem_within_capacity (env : SettleEnv) (event : Event) (tx : Transaction)
    (item : JSONMap) (st : Issue) (tt : TicketType)
    (hfound : first (fun t => t.id == assertString (item.get "ticket_type_id"))
      st.store.ticketTypes = some tt)
    (hq : 0 ≤ decodeQuantity (item.get "quantity"))
    (hcap : decodeQuantity (item.get "quantity") ≤ tt.quantity - tt.sold)
    (hsold : 0 ≤ tt.sold) (hqty : isInt tt.quantity)
    (hins : ∀ k, st.attempts ≤ k →
      k < st.attempts + (decodeQuantity (item.get "quantity")).toNat →
      (env.createTicket k).isSome = true) :
    ∃ new : List Ticket,
      (issueItem env event tx item st).tickets = st.tickets ++ new ∧
      (issueItem env event tx item st).store.tickets = st.store.tickets ++ new ∧
      (new.length : Int) =
        min (decodeQuantity (item.get "quantity")) (max (tt.quantity - tt.sold) 0) ∧
      decodeQuantity (item.get "quantity") - new.length = 0 ∧
      (∀ t ∈ new, t.ticketTypeID = tt.id ∧ t.transactionID = tx.id ∧ t.status = .confirmed) ∧
      first (fun t => t.id == assertString (item.get "ticket_type_id"))
        (issueItem env event tx item st).store.ticketTypes =
          some { tt with sold := tt.sold + decodeQuantity (item.get "quantity") } := by
  obtain ⟨new, hl, hs, hlen, hall⟩ :=
    issueUnits_all env event tx tt (decodeQuantity (item.get "quantity")).toNat st hins
  have hlen2 : (new.length : Int) = decodeQuantity (item.get "quantity") := by
    rw [hlen]
    exact Int.toNat_of_nonneg hq
  have hwrap : wrapInt (tt.sold + decodeQuantity (item.get "quantity")) =
      tt.sold + decodeQuantity (item.get "quantity") := by
    apply wrapInt_of_isInt
    unfold isInt minInt maxInt at *
    omega
  refine ⟨new, ?_, ?_, ?_, ?_, hall, ?_⟩
  · simp only [issueItem, hfound, Option.getD_some]
    exact hl
  · simp only [issueItem, hfound, Option.getD_some]
    exact hs
  · rw [hlen2]
    omega
  · rw [hlen2]
    omega
  · have hp := first_holds hfound
    simp only [issueItem, hfound, Option.getD_some, issueUnits_ticketTypes, hwrap]
    exact first_save_of TicketType.id _ _ tt _ hfound rfl hp

/-! ## The credit of the organizer -/

theorem settleVerified_balances (s : Store) (env : SettleEnv) (tx : Transaction)
    (v : PaystackVerifyResponse) :
    (settleVerified s env tx v).1.balances =
      creditOrganizer
        ((first (fun e => e.id == assertString (v.metadata.get "event_id")) s.events).getD
          Event.zero).organizerID
        tx.netAmount s.balances := by
  have h := (issueItems_grows env
    ((first (fun e => e.id == assertString (v.metadata.get "event_id")) s.events).getD Event.zero)
    tx (cartItems v.metadata) { store := s, tickets := [], attempts := 0 }).2.2.1
  simp only [settleVerified]
  rw [h]

/-- C9. Verification failure: for a pending transaction, when the gateway
verification returns an error or reports a status other than success, the
handler answers 400 without tickets, the transaction is stored as failed with
a non-empty failure reason, and the tickets, the ticket types (their sold
counters) and the organizer balances are the ones before the call. -/
theorem settle_verification_failure (s : Store) (env : SettleEnv) (reference : String)
    (tx : Transaction) (href : reference ≠ "")
    (hfind : first (fun t => t.paymentReference == reference) s.transactions = some tx)
    (hpending : tx.status = .pending)
    (hfail : ∀ v, VerifyTransaction env.exchange = .ok v → IsTransactionSuccessful v = false) :
    ((VerifyPayment s env reference).2 = .verificationFailed ∨
      (VerifyPayment s env reference).2 = .notSuccessful) ∧
    (VerifyPayment s env reference).2.code = 400 ∧
    (VerifyPayment s env reference).2.tickets = [] ∧
    (∃ reason, reason ≠ "" ∧
      first (fun t => t.paymentReference == reference)
        (VerifyPayment s env reference).1.transactions =
          some { tx with status := .failed, failureReason := reason }) ∧
    (VerifyPayment s env reference).1.tickets = s.tickets ∧
    (VerifyPayment s env reference).1.ticketTypes = s.ticketTypes ∧
    (VerifyPayment s env reference).1.balances = s.balances := by
  have hopen : tx.status ≠ .completed := by rw [hpending]; decide
  obtain ⟨hresp, hreason, h1, h2, h3⟩ := settle_unverified s env reference tx href hfind hopen hfail
  refine ⟨hresp, ?_, ?_, hreason, h1, h2, h3⟩
  · rcases hresp with h | h <;> rw [h] <;> rfl
  · rcases hresp with h | h <;> rw [h] <;> rfl

theorem settle_verification_failure_witness :
    ("TXN-c1a2b3c4-1730000000" ≠ "" ∧
      first (fun t => t.paymentReference == "TXN-c1a2b3c4-1730000000")
        (exStore [exOrderA .pending] [exBalance]).transactions = some (exOrderA .pending) ∧
      (exOrderA .pending).status = .pending ∧
      ∀ v, VerifyTransaction exUnpaid.exchange = .ok v → IsTransactionSuccessful v = false) ∧
    (VerifyPayment (exStore [exOrderA .pending] [exBalance]) exUnpaid
      "TXN-c1a2b3c4-1730000000").2.code = 400 :=
  ⟨⟨by decide, by decide, rfl, fun v hv => by cases hv; rfl⟩,
    (settle_verification_failure (exStore [exOrderA .pending] [exBalance]) exUnpaid
      "TXN-c1a2b3c4-1730000000" (exOrderA .pending) (by decide) (by decide) rfl
      (fun v hv => by cases hv; rfl)).2.1⟩

/-! ## Transactions that are failed or refunded -/

/-- C8 (amended). Settlement of a failed or refunded transaction asks the
gateway again; when the gateway does not confirm the payment the call is an
error, the stored status is `failed` afterwards, and no ticket, sold counter or
organizer balance is written. -/
theorem settle_terminal_unverified (s : Store) (env : SettleEnv) (reference : String)
    (tx : Transaction) (href : reference ≠ "")
    (hfind : first (fun t => t.paymentReference == reference) s.transactions = some tx)
    (hterminal : tx.status = .failed ∨ tx.status = .refunded)
    (hfail : ∀ v, VerifyTransaction env.exchange = .ok v → IsTransactionSuccessful v = false) :
    (VerifyPayment s env reference).2.code = 400 ∧
    (first (fun t => t.paymentReference == reference)
        (VerifyPayment s env reference).1.transactions).map (fun t => t.status) =
      some .failed ∧
    (VerifyPayment s env reference).1.tickets = s.tickets ∧
    (VerifyPayment s env reference).1.ticketTypes = s.ticketTypes ∧
    (VerifyPayment s env reference).1.balances = s.balances := by
  have hopen : tx.status ≠ .completed := by
    rcases hterminal with h | h <;> rw [h] <;> decide
  obtain ⟨hresp, ⟨reason, -, hreason⟩, h1, h2, h3⟩ :=
    settle_unverified s env reference tx href hfind hopen hfail
  refine ⟨?_, ?_, h1, h2, h3⟩
  · rcases hresp with h | h <;> rw [h] <;> rfl
  · rw [hreason]
    rfl

theorem settle_terminal_unverified_witness :
    ("TXN-c1a2b3c4-1730000000" ≠ "" ∧
      first (fun t => t.paymentReference == "TXN-c1a2b3c4-1730000000")
        (exStore [exOrderA .failed] [exBalance]).transactions = some (exOrderA .failed) ∧
      ((exOrderA .failed).status = .failed ∨ (exOrderA .failed).status = .refunded) ∧
      ∀ v, VerifyTransaction exUnpaid.exchange = .ok v → IsTransactionSuccessful v = false) ∧
    (VerifyPayment (exStore [exOrderA .failed] [exBalance]) exUnpaid
      "TXN-c1a2b3c4-1730000000").2.code = 400 :=
  ⟨⟨by decide, by decide, Or.inl rfl, fun v hv => by cases hv; rfl⟩,
    (settle_terminal_unverified (exStore [exOrderA .failed] [exBalance]) exUnpaid
      "TXN-c1a2b3c4-1730000000" (exOrderA .failed) (by decide) (by decide) (Or.inl rfl)
      (fun v hv => by cases hv; rfl)).1⟩

/-- C8. A failed transaction is settled again when the gateway now confirms the
payment: the call answers 200, the status becomes `completed`, a ticket is
created, `sold` and the organizer balance grow. A refunded transaction whose
verification fails is stored as `failed`. -/
theorem settle_reenters_terminal :
    (VerifyPayment (exStore [exOrderA .failed] [exBalance]) exPaidA
      "TXN-c1a2b3c4-1730000000").2.code = 200 ∧
    (VerifyPayment (exStore [exOrderA .failed] [exBalance]) exPaidA
      "TXN-c1a2b3c4-1730000000").1.transactions.map (fun t => t.status) = [.completed] ∧
    (VerifyPayment (exStore [exOrderA .failed] [exBalance]) exPaidA
      "TXN-c1a2b3c4-1730000000").1.tickets.length = 1 ∧
    (VerifyPayment (exStore [exOrderA .failed] [exBalance]) exPaidA
      "TXN-c1a2b3c4-1730000000").1.ticketTypes.map (fun t => t.sold) = [1] ∧
    (VerifyPayment (exStore [exOrderA .failed] [exBalance]) exPaidA
      "TXN-c1a2b3c4-1730000000").1.balances.map (fun b => b.availableBalance) = [4750] ∧
    (VerifyPayment (exStore [exOrderA .refunded] [exBalance]) exUnpaid
      "TXN-c1a2b3c4-1730000000").1.transactions.map (fun t => t.status) = [.failed] := by
  decide!

/-! ## Settlement against the capacity of a ticket type -/

/-- C1. Two attendees order the single unit of a ticket type while it is
unsold (both orders pass the order-time check), then both payments are
confirmed: the database starts with `0 ≤ sold ≤ quantity` and ends with
`sold = 2` and `quantity = 1`. -/
theorem settle_oversells :
    (∀ t ∈ (exStore [] [exBalance]).ticketTypes, 0 ≤ t.sold ∧ t.sold ≤ t.quantity) ∧
    (InitiateTicketPurchase (exStore [] [exBalance]) exCheckoutA exAttendee exCart).response.code
      = 200 ∧
    (InitiateTicketPurchase
      (InitiateTicketPurchase (exStore [] [exBalance]) exCheckoutA exAttendee exCart).store
      exCheckoutB exAttendee exCart).response.code = 200 ∧
    (runCalls (exStore [] [exBalance])
      [.purchase exCheckoutA exAttendee exCart, .purchase exCheckoutB exAttendee exCart,
       .settle exPaidA "TXN-c1a2b3c4-1730000000",
       .settle exPaidB "TXN-d2b3c4d5-1730000005"]).ticketTypes.map
      (fun t => (t.quantity, t.sold)) = [(1, 2)] := by
  refine ⟨by decide, by decide!, by decide!, by decide!⟩

/-- C4. With `quantity = 1` and `sold = 0`, two settlements that each request
one unit create two tickets in total; the second one, run when no unit remains,
answers with one created ticket. -/
theorem settle_issues_beyond_capacity :
    (VerifyPayment (exStore [exOrderA .pending, exOrderB .pending] [exBalance]) exPaidA
      "TXN-c1a2b3c4-1730000000").1.ticketTypes.map (fun t => t.RemainingTickets) = [0] ∧
    (VerifyPayment
      (VerifyPayment (exStore [exOrderA .pending, exOrderB .pending] [exBalance]) exPaidA
        "TXN-c1a2b3c4-1730000000").1
      exPaidB "TXN-d2b3c4d5-1730000005").2.tickets.length = 1 ∧
    (VerifyPayment
      (VerifyPayment (exStore [exOrderA .pending, exOrderB .pending] [exBalance]) exPaidA
        "TXN-c1a2b3c4-1730000000").1
      exPaidB "TXN-d2b3c4d5-1730000005").1.tickets.length = 2 := by
  refine ⟨by decide, by decide, by decide⟩

theorem issueItem_within_capacity_witness :
    (first (fun t => t.id == assertString
        (JSONMap.get [("ticket_type_id", .string exTicketType.id), ("quantity", .number 1)]
          "ticket_type_id"))
        (exStore [exOrderA .pending] [exBalance]).ticketTypes = some exTicketType ∧
      0 ≤ decodeQuantity
        (JSONMap.get [("ticket_type_id", .string exTicketType.id), ("quantity", .number 1)]
          "quantity") ∧
      decodeQuantity
        (JSONMap.get [("ticket_type_id", .string exTicketType.id), ("quantity", .number 1)]
          "quantity") ≤ exTicketType.quantity - exTicketType.sold ∧
      0 ≤ exTicketType.sold ∧ isInt exTicketType.quantity) ∧
    ∃ new : List Ticket,
      (issueItem exPaidA exEvent (exOrderA .pending)
        [("ticket_type_id", .string exTicketType.id), ("quantity", .number 1)]
        { store := exStore [exOrderA .pending] [exBalance], tickets := [], attempts := 0 }).tickets
        = [] ++ new ∧ (new.length : Int) = 1 :=
  ⟨⟨by decide, by decide, by decide, by decide, by decide⟩,
    (issueItem_within_capacity exPaidA exEvent (exOrderA .pending)
      [("ticket_type_id", .string exTicketType.id), ("quantity", .number 1)]
      { store := exStore [exOrderA .pending] [exBalance], tickets := [], attempts := 0 }
      exTicketType (by decide) (by decide) (by decide) (by decide) (by decide)
      (fun _ _ _ => rfl)).elim fun new h => ⟨new, h.1, h.2.2.1⟩⟩

theorem settle_idempotent_witness :
    ("TXN-c1a2b3c4-1730000000" ≠ "" ∧
      first (fun t => t.paymentReference == "TXN-c1a2b3c4-1730000000")
        (exStore [exOrderA .pending] [exBalance]).transactions = some (exOrderA .pending)) ∧
    ((exOrderA .pending).status = .completed →
      VerifyPayment (exStore [exOrderA .pending] [exBalance]) exPaidA "TXN-c1a2b3c4-1730000000" =
        (exStore [exOrderA .pending] [exBalance],
          .alreadyVerified ((exStore [exOrderA .pending] [exBalance]).tickets.filter
            fun t => t.transactionID == (exOrderA .pending).id))) ∧
    VerifyPayment
        (VerifyPayment (exStore [exOrderA .pending] [exBalance]) exPaidA
          "TXN-c1a2b3c4-1730000000").1 exUnpaid "TXN-c1a2b3c4-1730000000" =
      ((VerifyPayment (exStore [exOrderA .pending] [exBalance]) exPaidA
          "TXN-c1a2b3c4-1730000000").1,
        .alreadyVerified ((VerifyPayment (exStore [exOrderA .pending] [exBalance]) exPaidA
          "TXN-c1a2b3c4-1730000000").1.tickets.filter
            fun t => t.transactionID == (exOrderA .pending).id)) :=
  ⟨⟨by decide, by decide⟩,
    (settle_idempotent (exStore [exOrderA .pending] [exBalance]) exPaidA exUnpaid
      "TXN-c1a2b3c4-1730000000" (exOrderA .pending) (by decide) (by decide)).1,
    ((settle_idempotent (exStore [exOrderA .pending] [exBalance]) exPaidA exUnpaid
      "TXN-c1a2b3c4-1730000000" (exOrderA .pending) (by decide) (by decide)).2
      [newTicket exPaidA exEvent (exOrderA .pending) exTicketType 0
        "a1b2c3d4-0000-4000-8000-000000000a09" "TKT-a1b2c3d4"] rfl).1⟩

/-! ## The order-time checks -/

/-- C6 (amended). The order-time check of one line item of at least one unit
lets the item through exactly when the type is active, the instant lies
strictly between `sale_start` and `sale_end`, and the quantity is at most
`quantity − sold` and at most `max_per_order`. -/
theorem order_check_accepts (s : Store) (eventID : String) (now : Nat → Time) (k : Nat)
    (item : PurchaseItem) (total : ℚ) (acc : List JSONValue) (tt : TicketType)
    (hfound : first (fun t => t.id == item.ticketTypeID && t.eventID == eventID)
      s.ticketTypes = some tt)
    (hq : 1 ≤ item.quantity) (hrange : isInt (tt.quantity - tt.sold)) :
    (∃ r, validateItems s eventID now k [item] total acc = .ok r) ↔
      (tt.isActive = true ∧ tt.saleStart < now k ∧ now k < tt.saleEnd ∧
        item.quantity ≤ tt.quantity - tt.sold ∧ item.quantity ≤ tt.maxPerOrder) := by
  have hw : tt.RemainingTickets = tt.quantity - tt.sold := wrapInt_of_isInt hrange
  simp only [validateItems, hfound, hw, TicketType.IsAvailable]
  constructor
  · rintro ⟨r, hr⟩
    split at hr
    · cases hr
    · split at hr
      · cases hr
      · split at hr
        · cases hr
        · rename_i h1 h2 h3
          simp only [Bool.not_eq_true, Bool.not_eq_false', Bool.and_eq_true,
            decide_eq_true_eq] at h1
          refine ⟨h1.1.1.1, h1.1.2, h1.2, by omega, by omega⟩
  · rintro ⟨ha, hs, he, hc, hm⟩
    have hsq : tt.sold < tt.quantity := by omega
    refine ⟨(total + tt.price * item.quantity, acc ++ [ticketItem item tt]), ?_⟩
    rw [if_neg, if_neg, if_neg]
    · omega
    · omega
    · simp [ha, hs, he, hsq]

theorem order_check_accepts_witness :
    (first (fun t => t.id == exTicketType.id && t.eventID == exEvent.id)
        (exStore [] [exBalance]).ticketTypes = some exTicketType ∧
      (1 : Int) ≤ 1 ∧ isInt (exTicketType.quantity - exTicketType.sold)) ∧
    ((∃ r, validateItems (exStore [] [exBalance]) exEvent.id (fun _ => 150) 0
        [{ ticketTypeID := exTicketType.id, quantity := 1 }] 0 [] = .ok r) ↔
      (exTicketType.isActive = true ∧ exTicketType.saleStart < 150 ∧ 150 < exTicketType.saleEnd ∧
        1 ≤ exTicketType.quantity - exTicketType.sold ∧ 1 ≤ exTicketType.maxPerOrder)) :=
  ⟨⟨by decide, by decide, by decide⟩,
    order_check_accepts (exStore [] [exBalance]) exEvent.id (fun _ => 150) 0
      { ticketTypeID := exTicketType.id, quantity := 1 } 0 [] exTicketType (by decide)
      (by decide) (by decide)⟩

/-- C6. At the instant `sale_start` itself the type is active, the instant is
within `[sale_start, sale_end)` and one unit is within the remaining capacity
and the maximum per order, yet the order-time check refuses the item. -/
theorem order_check_refuses_at_sale_start :
    (exTicketType.isActive = true ∧ exTicketType.saleStart ≤ 100 ∧ 100 < exTicketType.saleEnd ∧
      1 ≤ exTicketType.quantity - exTicketType.sold ∧ 1 ≤ exTicketType.maxPerOrder) ∧
    exTicketType.IsAvailable 100 = false ∧
    ¬ ∃ r, validateItems (exStore [] [exBalance]) exEvent.id (fun _ => 100) 0
        [{ ticketTypeID := exTicketType.id, quantity := 1 }] 0 [] = .ok r := by
  refine ⟨by decide, by decide, ?_⟩
  rintro ⟨r, hr⟩
  have h : validateItems (exStore [] [exBalance]) exEvent.id (fun _ => 100) 0
      [{ ticketTypeID := exTicketType.id, quantity := 1 }] 0 [] =
        .error (.notAvailable "Regular") := by rfl
  rw [h] at hr
  cases hr

theorem validateItems_total (s : Store) (eventID : String) (now : Nat → Time)
    (items : List PurchaseItem) (k : Nat) (total : ℚ) (acc : List JSONValue)
    (r : ℚ × List JSONValue)
    (h : validateItems s eventID now k items total acc = .ok r) :
    r.1 = total + cartTotal s eventID items := by
  induction items generalizing k total acc with
  | nil =>
    simp only [validateItems, Except.ok.injEq] at h
    subst h
    simp [cartTotal]
  | cons item rest ih =>
    unfold validateItems at h
    cases hf : first (fun t => t.id == item.ticketTypeID && t.eventID == eventID)
        s.ticketTypes with
    | none =>
      rw [hf] at h
      cases h
    | some tt =>
      rw [hf] at h
      simp only at h
      split at h
      · cases h
      · split at h
        · cases h
        · split at h
          · cases h
          · have := ih _ _ _ h
            rw [this]
            simp only [cartTotal, List.map_cons, List.sum_cons, hf, Option.getD_some]
            ring

theorem validateItems_fails (s : Store) (eventID : String) (now : Nat → Time)
    (items : List PurchaseItem) (k : Nat) (total : ℚ) (acc : List JSONValue)
    (hfail : ∃ j, ∃ h : j < items.length,
      itemFails s eventID (now (k + j)) (items.get ⟨j, h⟩) = true) :
    ∃ resp, validateItems s eventID now k items total acc = .error resp ∧ 400 ≤ resp.code := by
  induction items generalizing k total acc with
  | nil =>
    obtain ⟨j, h, -⟩ := hfail
    simp at h
  | cons item rest ih =>
    unfold validateItems
    cases hf : first (fun t => t.id == item.ticketTypeID && t.eventID == eventID)
        s.ticketTypes with
    | none => exact ⟨_, rfl, by simp [PurchaseResponse.code]⟩
    | some tt =>
      simp only
      by_cases h1 : (!tt.IsAvailable (now k)) = true
      · rw [if_pos h1]
        exact ⟨_, rfl, by simp [PurchaseResponse.code]⟩
      · rw [if_neg h1]
        by_cases h2 : item.quantity > tt.RemainingTickets
        · rw [if_pos h2]
          exact ⟨_, rfl, by simp [PurchaseResponse.code]⟩
        · rw [if_neg h2]
          by_cases h3 : item.quantity > tt.maxPerOrder
          · rw [if_pos h3]
            exact ⟨_, rfl, by simp [PurchaseResponse.code]⟩
          · rw [if_neg h3]
            apply ih
            obtain ⟨j, hj, hbad⟩ := hfail
            cases j with
            | zero =>
              exfalso
              simp only [List.get_eq_getElem, List.getElem_cons_zero, Nat.add_zero, itemFails,
                hf, Bool.or_eq_true, decide_eq_true_eq] at hbad
              rcases hbad with (hb | hb) | hb
              · exact h1 hb
              · exact h2 hb
              · exact h3 hb
            | succ j =>
              refine ⟨j, by simpa using hj, ?_⟩
              have : k + 1 + j = k + (j + 1) := by omega
              rw [this]
              simpa using hbad

/-- C10. All-or-nothing cart validation: when some line item of the cart fails
the order-time checks, at whatever position, the handler answers with an
error, the database is the one before the call (no transaction is created)
and nothing is sent to the gateway. -/
theorem cart_all_or_nothing (s : Store) (env : PurchaseEnv) (attendeeID : UUID)
    (req : PurchaseRequest)
    (hfail : ∃ j, ∃ h : j < req.items.length,
      itemFails s req.eventID (env.now j) (req.items.get ⟨j, h⟩) = true) :
    (InitiateTicketPurchase s env attendeeID req).store = s ∧
    (InitiateTicketPurchase s env attendeeID req).sent = none ∧
    400 ≤ (InitiateTicketPurchase s env attendeeID req).response.code := by
  unfold InitiateTicketPurchase
  by_cases hb : (!bindPurchase req) = true
  · rw [if_pos hb]
    exact ⟨rfl, rfl, by simp [PurchaseResponse.code]⟩
  · rw [if_neg hb]
    cases he : first (fun e => e.id == req.eventID) s.events with
    | none => exact ⟨rfl, rfl, by simp [PurchaseResponse.code]⟩
    | some event =>
      obtain ⟨resp, hresp, hcode⟩ :=
        validateItems_fails s req.eventID env.now req.items 0 0 []
          (by simpa using hfail)
      simp only []
      rw [hresp]
      exact ⟨rfl, rfl, hcode⟩

theorem cart_all_or_nothing_witness :
    (∃ j, ∃ h : j < ([{ ticketTypeID := exTicketType.id, quantity := 1 },
          { ticketTypeID := exTicketType.id, quantity := 2 }] : List PurchaseItem).length,
      itemFails (exStore [] [exBalance]) exEvent.id (150 : Time)
        (([{ ticketTypeID := exTicketType.id, quantity := 1 },
          { ticketTypeID := exTicketType.id, quantity := 2 }] : List PurchaseItem).get ⟨j, h⟩)
        = true) ∧
    (InitiateTicketPurchase (exStore [] [exBalance]) exCheckoutA exAttendee
      { eventID := exEvent.id,
        items := [{ ticketTypeID := exTicketType.id, quantity := 1 },
                  { ticketTypeID := exTicketType.id, quantity := 2 }] }).store =
      exStore [] [exBalance] :=
  ⟨⟨1, by decide, by decide⟩,
    (cart_all_or_nothing (exStore [] [exBalance]) exCheckoutA exAttendee
      { eventID := exEvent.id,
        items := [{ ticketTypeID := exTicketType.id, quantity := 1 },
                  { ticketTypeID := exTicketType.id, quantity := 2 }] }
      ⟨1, by decide, by decide⟩).1⟩

/-- C7. Order arithmetic: the transaction an accepted cart creates has as
amount the sum over the line items of price times quantity, as platform fee
the amount times the platform fee percentage over 100, and as net amount the
amount less the fee, so that net amount plus fee is the amount; an amount of
5000 at 5 percent gives a fee of 250 and a net amount of 4750. -/
theorem order_arithmetic (s : Store) (env : PurchaseEnv) (attendeeID : UUID)
    (req : PurchaseRequest) (tx : Transaction)
    (hcreated : (InitiateTicketPurchase s env attendeeID req).store.transactions =
      s.transactions ++ [tx]) :
    tx.amount = cartTotal s req.eventID req.items ∧
    tx.platformFee = tx.amount *
      ((first (fun _ => true) s.settings).getD PlatformSettings.zero).platformFeePercentage / 100 ∧
    tx.netAmount = tx.amount - tx.platformFee ∧
    tx.netAmount + tx.platformFee = tx.amount ∧
    (tx.amount = 5000 →
      ((first (fun _ => true) s.settings).getD PlatformSettings.zero).platformFeePercentage = 5 →
      tx.platformFee = 250 ∧ tx.netAmount = 4750) := by
  have hno : s.transactions ≠ s.transactions ++ [tx] := by
    intro h
    have := congrArg List.length h
    simp at this
  have key : tx.amount = cartTotal s req.eventID req.items ∧
      tx.platformFee = tx.amount *
        (((first (fun _ => true) s.settings).getD PlatformSettings.zero).platformFeePercentage
          / 100) ∧
      tx.netAmount = tx.amount - tx.platformFee := by
    unfold InitiateTicketPurchase at hcreated
    split at hcreated
    · exact absurd hcreated hno
    · split at hcreated
      · exact absurd hcreated hno
      · split at hcreated
        · exact absurd hcreated hno
        · rename_i event totalAmount ticketItems hv
          have ht := validateItems_total s req.eventID env.now req.items 0 0 [] _ hv
          simp only [zero_add] at ht
          split at hcreated
          · exact absurd hcreated hno
          · have htx : ∀ t : Transaction, s.transactions ++ [t] = s.transactions ++ [tx] →
                t = tx := by
              intro t h
              have := List.append_cancel_left h
              simpa using this
            split at hcreated
            · have := htx _ hcreated
              subst this
              exact ⟨ht, rfl, rfl⟩
            · have := htx _ hcreated
              subst this
              exact ⟨ht, rfl, rfl⟩
  obtain ⟨h1, h2, h3⟩ := key
  refine ⟨h1, ?_, h3, ?_, ?_⟩
  · rw [h2]
    ring
  · rw [h3]
    ring
  · intro ha hp
    rw [h3, h2, ha, hp]
    norm_num

theorem order_arithmetic_witness :
    (InitiateTicketPurchase (exStore [] [exBalance]) exCheckoutA exAttendee exCart).store.transactions
        = (exStore [] [exBalance]).transactions ++ [exOrderA .pending] ∧
    (exOrderA .pending).netAmount + (exOrderA .pending).platformFee = (exOrderA .pending).amount :=
  ⟨by decide!,
    (order_arithmetic (exStore [] [exBalance]) exCheckoutA exAttendee exCart (exOrderA .pending)
      (by decide!)).2.2.2.1⟩

/-! ## The ledger invariant -/

theorem mem_save {α : Type} {key : α → UUID} {r x : α} {rows : List α}
    (h : x ∈ save key r rows) : x = r ∨ x ∈ rows := by
  unfold save at h
  rw [List.mem_map] at h
  obtain ⟨y, hy, rfl⟩ := h
  by_cases hk : key y = key r
  · left; simp [hk]
  · right; simp only [hk, if_false]; exact hy

theorem first_mem {α : Type} {P : α → Bool} {rows : List α} {r : α}
    (h : first P rows = some r) : r ∈ rows := by
  unfold first at h
  exact List.mem_of_find?_eq_some h

theorem conserved_of_tables {s s1 : Store} (h : s.conserved)
    (hb : s1.balances = s.balances) (hw : s1.withdrawals = s.withdrawals)
    (hp : s1.settings = s.settings) : s1.conserved := by
  unfold Store.conserved
  rw [hb, hw, hp]
  exact h

theorem InitiateTicketPurchase_tables (s : Store) (env : PurchaseEnv) (attendeeID : UUID)
    (req : PurchaseRequest) :
    (InitiateTicketPurchase s env attendeeID req).store.balances = s.balances ∧
    (InitiateTicketPurchase s env attendeeID req).store.withdrawals = s.withdrawals ∧
    (InitiateTicketPurchase s env attendeeID req).store.settings = s.settings ∧
    (InitiateTicketPurchase s env attendeeID req).store.tickets = s.tickets ∧
    (InitiateTicketPurchase s env attendeeID req).store.ticketTypes = s.ticketTypes ∧
    (InitiateTicketPurchase s env attendeeID req).store.events = s.events := by
  unfold InitiateTicketPurchase
  split
  · exact ⟨rfl, rfl, rfl, rfl, rfl, rfl⟩
  · split
    · exact ⟨rfl, rfl, rfl, rfl, rfl, rfl⟩
    · split
      · exact ⟨rfl, rfl, rfl, rfl, rfl, rfl⟩
      · split
        · exact ⟨rfl, rfl, rfl, rfl, rfl, rfl⟩
        · split
          · exact ⟨rfl, rfl, rfl, rfl, rfl, rfl⟩
          · exact ⟨rfl, rfl, rfl, rfl, rfl, rfl⟩

theorem creditOrganizer_conserved (organizerID : UUID) (net : ℚ)
    (balances : List OrganizerBalance)
    (h : ∀ b ∈ balances,
      b.availableBalance + b.pendingBalance + b.withdrawnAmount ≤ b.totalEarnings) :
    ∀ b ∈ creditOrganizer organizerID net balances,
      b.availableBalance + b.pendingBalance + b.withdrawnAmount ≤ b.totalEarnings := by
  intro b hb
  unfold creditOrganizer at hb
  cases hf : first (fun b => b.organizerID == organizerID) balances with
  | none =>
    rw [hf] at hb
    exact h b hb
  | some b0 =>
    rw [hf] at hb
    rcases mem_save hb with rfl | hmem
    · have := h b0 (first_mem hf)
      simp only
      linarith
    · exact h b hmem

theorem settleVerified_conserved (s : Store) (env : SettleEnv) (tx : Transaction)
    (v : PaystackVerifyResponse) (h : s.conserved) : (settleVerified s env tx v).1.conserved := by
  obtain ⟨-, -, -, hw, hp, -⟩ := issueItems_grows env
    ((first (fun e => e.id == assertString (v.metadata.get "event_id")) s.events).getD
      Event.zero)
    tx (cartItems v.metadata) { store := s, tickets := [], attempts := 0 }
  refine ⟨?_, ?_, ?_⟩
  · rw [settleVerified_balances]
    exact creditOrganizer_conserved _ _ _ h.1
  · simp only [settleVerified]
    rw [hw]
    exact h.2.1
  · simp only [settleVerified]
    rw [hp]
    exact h.2.2

theorem VerifyPayment_conserved (s : Store) (env : SettleEnv) (reference : String)
    (h : s.conserved) : (VerifyPayment s env reference).1.conserved := by
  by_cases href : reference = ""
  · unfold VerifyPayment
    rw [if_pos href]
    exact h
  · cases hfind : first (fun t => t.paymentReference == reference) s.transactions with
    | none =>
      unfold VerifyPayment
      rw [if_neg href, hfind]
      exact h
    | some tx =>
      by_cases hdone : tx.status = .completed
      · rw [VerifyPayment_found s env reference tx href hfind, if_pos hdone]
        exact h
      · cases hx : VerifyTransaction env.exchange with
        | error err =>
          rw [VerifyPayment_error s env reference tx err href hfind hdone hx]
          exact conserved_of_tables h rfl rfl rfl
        | ok v =>
          cases hs : IsTransactionSuccessful v with
          | false =>
            rw [VerifyPayment_unsuccessful s env reference tx v href hfind hdone hx hs]
            exact conserved_of_tables h rfl rfl rfl
          | true =>
            rw [VerifyPayment_success s env reference tx v href hfind hdone hx hs]
            exact settleVerified_conserved s env tx v h

theorem GetOrganizerBalance_conserved (s : Store) (organizerID : UUID) (newID : Option UUID)
    (h : s.conserved) : (GetOrganizerBalance s organizerID newID).conserved := by
  unfold GetOrganizerBalance
  split
  · exact h
  · split
    · exact h
    · refine ⟨?_, h.2.1, h.2.2⟩
      intro b hb
      rcases List.mem_append.mp hb with hmem | hnew
      · exact h.1 b hmem
      · simp only [List.mem_singleton] at hnew
        subst hnew
        simp

theorem bindWithdrawal_amount (req : WithdrawalForm) (h : bindWithdrawal req = true) :
    0 < req.amount := by
  simp only [bindWithdrawal, Bool.and_eq_true, decide_eq_true_eq] at h
  exact lt_of_le_of_ne h.1.1.1.2 (Ne.symm h.1.1.1.1)
theorem RequestWithdrawal_conserved (s : Store) (organizerID : UUID) (req : WithdrawalForm)
    (newID : Option UUID) (h : s.conserved) :
    (RequestWithdrawal s organizerID req newID).1.conserved := by
  unfold RequestWithdrawal
  by_cases hb : (!bindWithdrawal req) = true
  · rw [if_pos hb]
    exact h
  rw [if_neg hb]
  have hamount : 0 < req.amount := bindWithdrawal_amount req (by simpa using hb)
  cases hset : first (fun _ => true) s.settings with
  | none => exact h
  | some settings =>
    simp only []
    by_cases hmin : req.amount < settings.minWithdrawalAmount
    · rw [if_pos hmin]
      exact h
    rw [if_neg hmin]
    cases hbal : first (fun b => b.organizerID == organizerID) s.balances with
    | none => exact h
    | some balance =>
      simp only []
      by_cases hav : balance.availableBalance < req.amount
      · rw [if_pos hav]
        exact h
      rw [if_neg hav]
      cases newID with
      | none => exact h
      | some id =>
        have hpct := h.2.2 settings (first_mem hset)
        refine ⟨?_, ?_, h.2.2⟩
        · intro b hb
          rcases mem_save hb with rfl | hmem
          · have := h.1 balance (first_mem hbal)
            simp only
            linarith
          · exact h.1 b hmem
        · intro w hw
          rcases List.mem_append.mp hw with hmem | hnew
          · exact h.2.1 w hmem
          · simp only [List.mem_singleton] at hnew
            subst hnew
            simp only
            have : 0 ≤ req.amount * (settings.withdrawalFeePercentage / 100) :=
              mul_nonneg hamount.le (div_nonneg hpct.1 (by norm_num))
            linarith

theorem ReviewWithdrawalRequest_conserved (s : Store) (requestID : String) (userID : UUID)
    (action comment : String) (now : Time) (saved : Bool) (h : s.conserved) :
    (ReviewWithdrawalRequest s requestID userID action comment now saved).1.conserved := by
  unfold ReviewWithdrawalRequest
  by_cases hb : (!(action == "approve" || action == "reject")) = true
  · rw [if_pos hb]
    exact h
  rw [if_neg hb]
  cases hreq : first (fun w => w.id == requestID) s.withdrawals with
  | none => exact h
  | some withdrawal =>
    simp only []
    by_cases hst : withdrawal.status ≠ .pending
    · rw [if_pos hst]
      exact h
    rw [if_neg hst]
    have hw0 := h.2.1 withdrawal (first_mem hreq)
    have hbalances : ∀ b ∈ (if (action == "approve") = true then s.balances
        else
          match first (fun b => b.organizerID == withdrawal.organizerID) s.balances with
          | some balance =>
            save OrganizerBalance.id
              { balance with
                availableBalance := balance.availableBalance + withdrawal.amount,
                pendingBalance := balance.pendingBalance - withdrawal.amount } s.balances
          | none => s.balances),
        b.availableBalance + b.pendingBalance + b.withdrawnAmount ≤ b.totalEarnings := by
      intro b hb
      split at hb
      · exact h.1 b hb
      · split at hb
        · rename_i balance hbal
          rcases mem_save hb with rfl | hmem
          · have := h.1 balance (first_mem hbal)
            simp only
            linarith
          · exact h.1 b hmem
        · exact h.1 b hb
    cases saved with
    | false => exact ⟨hbalances, h.2.1, h.2.2⟩
    | true =>
      refine ⟨hbalances, ?_, h.2.2⟩
      intro w hw
      rcases mem_save hw with rfl | hmem
      · split <;> exact hw0
      · exact h.2.1 w hmem

theorem ProcessWithdrawal_conserved (s : Store) (requestID : String) (transactionRef : String)
    (now : Time) (saved : Bool) (h : s.conserved) :
    (ProcessWithdrawal s requestID transactionRef now saved).1.conserved := by
  unfold ProcessWithdrawal
  by_cases hb : (transactionRef == "") = true
  · rw [if_pos hb]
    exact h
  rw [if_neg hb]
  cases hreq : first (fun w => w.id == requestID) s.withdrawals with
  | none => exact h
  | some withdrawal =>
    simp only []
    by_cases hst : withdrawal.status ≠ .approved
    · rw [if_pos hst]
      exact h
    rw [if_neg hst]
    have hw0 := h.2.1 withdrawal (first_mem hreq)
    have hws : ∀ w ∈ save WithdrawalRequest.id
        { withdrawal with status := .processed, processedAt := some now,
                          transactionRef := transactionRef } s.withdrawals,
        w.netAmount ≤ w.amount := by
      intro w hw
      rcases mem_save hw with rfl | hmem
      · exact hw0
      · exact h.2.1 w hmem
    cases saved with
    | false => exact h
    | true =>
      simp only [Bool.not_true, Bool.false_eq_true, if_false]
      cases hbal : first (fun b => b.organizerID == withdrawal.organizerID) s.balances with
      | none => exact ⟨h.1, hws, h.2.2⟩
      | some balance =>
        refine ⟨?_, hws, h.2.2⟩
        intro b hb
        rcases mem_save hb with rfl | hmem
        · have := h.1 balance (first_mem hbal)
          simp only
          linarith
        · exact h.1 b hmem

theorem updatedSettings_fee (settings p : PlatformSettings) (userID : UUID) (req : SettingsForm)
    (h : updatedSettings settings userID req = some p)
    (hold : 0 ≤ settings.withdrawalFeePercentage ∧ settings.withdrawalFeePercentage ≤ 100) :
    0 ≤ p.withdrawalFeePercentage ∧ p.withdrawalFeePercentage ≤ 100 := by
  unfold updatedSettings at h
  simp only [] at h
  split_ifs at h with hc
  simp only [Option.some.injEq] at h
  subst h
  simp only [Bool.and_eq_true] at hc
  obtain ⟨⟨-, hwok⟩, -⟩ := hc
  cases hv : req.withdrawalFeePercentage with
  | none => simpa using hold
  | some v =>
    rw [hv] at hwok
    simp only [Bool.not_eq_true', Bool.or_eq_false_iff, decide_eq_false_iff_not, not_lt] at hwok
    simpa using hwok

theorem UpdatePlatformSettings_conserved (s : Store) (userID : UUID) (req : SettingsForm)
    (saved : Bool) (h : s.conserved) : (UpdatePlatformSettings s userID req saved).conserved := by
  unfold UpdatePlatformSettings
  cases hset : first (fun _ => true) s.settings with
  | none => exact h
  | some settings =>
    simp only []
    cases hup : updatedSettings settings userID req with
    | none => exact h
    | some settings1 =>
      cases saved with
      | false => exact h
      | true =>
        refine ⟨h.1, h.2.1, ?_⟩
        intro p hp
        rcases mem_save hp with heq | hmem
        · rw [heq]
          exact updatedSettings_fee settings settings1 userID req hup
            (h.2.2 settings (first_mem hset))
        · exact h.2.2 p hmem

theorem Call.run_conserved (s : Store) (c : Call) (h : s.conserved) : (c.run s).conserved := by
  cases c with
  | purchase env attendeeID req =>
    obtain ⟨hb, hw, hp, -⟩ := InitiateTicketPurchase_tables s env attendeeID req
    exact conserved_of_tables h hb hw hp
  | settle env reference => exact VerifyPayment_conserved s env reference h
  | openBalance organizerID newID => exact GetOrganizerBalance_conserved s organizerID newID h
  | requestWithdrawal organizerID req newID =>
    exact RequestWithdrawal_conserved s organizerID req newID h
  | review requestID userID action comment now saved =>
    exact ReviewWithdrawalRequest_conserved s requestID userID action comment now saved h
  | process requestID transactionRef now saved =>
    exact ProcessWithdrawal_conserved s requestID transactionRef now saved h
  | updateSettings userID req saved => exact UpdatePlatformSettings_conserved s userID req saved h

theorem fresh_conserved (s : Store) (h : s.fresh) : s.conserved := by
  obtain ⟨hw, hb, hp⟩ := h
  refine ⟨?_, ?_, ?_⟩
  · intro b hmem
    obtain ⟨h1, h2, h3, h4⟩ := hb b hmem
    rw [h1, h2, h3, h4]
    norm_num
  · intro w hmem
    rw [hw] at hmem
    cases hmem
  · intro p hmem
    exact (hp p hmem).2.2

/-- C3. Ledger conservation: every handler call keeps the ledger invariant
(the settlement credit, a withdrawal request, a review that approves or
rejects, the processing of a withdrawal, and the calls that do not write the
ledger), so after any sequence of calls from a database with zero balances
`available + pending + withdrawn ≤ total_earnings` holds on every balance row. -/
theorem ledger_conservation (s : Store) (calls : List Call) :
    (s.conserved → (runCalls s calls).conserved) ∧
    (s.fresh → ∀ b ∈ (runCalls s calls).balances,
      b.availableBalance + b.pendingBalance + b.withdrawnAmount ≤ b.totalEarnings) := by
  have main : ∀ (calls : List Call) (s : Store), s.conserved → (runCalls s calls).conserved := by
    intro calls
    induction calls with
    | nil => intro s h; exact h
    | cons c cs ih => intro s h; exact ih (c.run s) (Call.run_conserved s c h)
  exact ⟨main calls s, fun hf => (main calls s (fresh_conserved s hf)).1⟩

theorem ledger_conservation_witness :
    (exStore [] [exBalance]).fresh ∧
    ∀ b ∈ (runCalls (exStore [] [exBalance]) exRun).balances,
      b.availableBalance + b.pendingBalance + b.withdrawnAmount ≤ b.totalEarnings :=
  ⟨⟨rfl, by decide!, by decide!⟩,
    (ledger_conservation (exStore [] [exBalance]) exRun).2 ⟨rfl, by decide!, by decide!⟩⟩

/-! ## Withdrawal requests -/

theorem RequestWithdrawal_found (s : Store) (organizerID : UUID) (req : WithdrawalForm)
    (newID : Option UUID) (settings : PlatformSettings) (balance : OrganizerBalance)
    (hset : first (fun _ => true) s.settings = some settings)
    (hbal : first (fun b => b.organizerID == organizerID) s.balances = some balance) :
    RequestWithdrawal s organizerID req newID =
      if !bindWithdrawal req then (s, .badRequest)
      else if req.amount < settings.minWithdrawalAmount then
        (s, .belowMinimum settings.minWithdrawalAmount)
      else if balance.availableBalance < req.amount then (s, .insufficientBalance)
      else
        match newID with
        | none => (s, .createFailed)
        | some id =>
          ({ s with
              withdrawals := s.withdrawals ++ [requestedWithdrawal organizerID req settings id],
              balances := save OrganizerBalance.id (reserved balance req.amount) s.balances },
            .created (requestedWithdrawal organizerID req settings id)) := by
  unfold RequestWithdrawal requestedWithdrawal reserved
  simp only [hset, hbal]

/-- The outcomes of `RequestWithdrawal`: a rejection that leaves the database as
it was, or the creation of the request with the reservation on the balance. -/
theorem RequestWithdrawal_cases (s : Store) (organizerID : UUID) (req : WithdrawalForm)
    (newID : Option UUID) :
    ((RequestWithdrawal s organizerID req newID).1 = s ∧
      (RequestWithdrawal s organizerID req newID).2.code ≠ 201 ∧
      ∀ w, (RequestWithdrawal s organizerID req newID).2 ≠ .created w) ∨
    ∃ settings balance id,
      first (fun _ => true) s.settings = some settings ∧
      first (fun b => b.organizerID == organizerID) s.balances = some balance ∧
      newID = some id ∧ bindWithdrawal req = true ∧
      ¬ req.amount < settings.minWithdrawalAmount ∧ ¬ balance.availableBalance < req.amount ∧
      RequestWithdrawal s organizerID req newID =
        ({ s with
            withdrawals := s.withdrawals ++ [requestedWithdrawal organizerID req settings id],
            balances := save OrganizerBalance.id (reserved balance req.amount) s.balances },
          .created (requestedWithdrawal organizerID req settings id)) := by
  cases hset : first (fun _ => true) s.settings with
  | none =>
    left
    unfold RequestWithdrawal
    rw [hset]
    split
    · exact ⟨rfl, by simp [WithdrawalResponse.code], fun w h => by cases h⟩
    · exact ⟨rfl, by simp [WithdrawalResponse.code], fun w h => by cases h⟩
  | some settings =>
    cases hbal : first (fun b => b.organizerID == organizerID) s.balances with
    | none =>
      left
      unfold RequestWithdrawal
      rw [hset, hbal]
      split
      · exact ⟨rfl, by simp [WithdrawalResponse.code], fun w h => by cases h⟩
      · simp only []
        split
        · exact ⟨rfl, by simp [WithdrawalResponse.code], fun w h => by cases h⟩
        · exact ⟨rfl, by simp [WithdrawalResponse.code], fun w h => by cases h⟩
    | some balance =>
      rw [RequestWithdrawal_found s organizerID req newID settings balance hset hbal]
      by_cases hb : (!bindWithdrawal req) = true
      · left
        rw [if_pos hb]
        exact ⟨rfl, by simp [WithdrawalResponse.code], fun w h => by cases h⟩
      rw [if_neg hb]
      by_cases hmin : req.amount < settings.minWithdrawalAmount
      · left
        rw [if_pos hmin]
        exact ⟨rfl, by simp [WithdrawalResponse.code], fun w h => by cases h⟩
      rw [if_neg hmin]
      by_cases hav : balance.availableBalance < req.amount
      · left
        rw [if_pos hav]
        exact ⟨rfl, by simp [WithdrawalResponse.code], fun w h => by cases h⟩
      rw [if_neg hav]
      cases newID with
      | none =>
        left
        exact ⟨rfl, by simp [WithdrawalResponse.code], fun w h => by cases h⟩
      | some id =>
        right
        exact ⟨settings, balance, id, rfl, rfl, rfl, by simpa using hb, hmin, hav, rfl⟩

/-- C11 (amended). For an organizer with a balance row, with a settings row, a
request whose bank fields are filled and a successful insert, `RequestWithdrawal`
is rejected exactly when the amount is not positive, or below the minimum
withdrawal amount, or above the available balance; and every rejected call,
whatever the reason, leaves the database as it was (no request is created, no
balance is changed). -/
theorem request_rejected_iff (s : Store) (organizerID : UUID) (req : WithdrawalForm) (id : UUID)
    (settings : PlatformSettings) (balance : OrganizerBalance)
    (hset : first (fun _ => true) s.settings = some settings)
    (hbal : first (fun b => b.organizerID == organizerID) s.balances = some balance)
    (hbank : req.bankName ≠ "" ∧ req.accountNumber ≠ "" ∧ req.accountName ≠ "") :
    ((RequestWithdrawal s organizerID req (some id)).2.code ≠ 201 ↔
      (req.amount ≤ 0 ∨ req.amount < settings.minWithdrawalAmount ∨
        balance.availableBalance < req.amount)) ∧
    (∀ newID, (RequestWithdrawal s organizerID req newID).2.code ≠ 201 →
      (RequestWithdrawal s organizerID req newID).1 = s) := by
  constructor
  · have hbind : bindWithdrawal req = true ↔ 0 < req.amount := by
      simp only [bindWithdrawal, Bool.and_eq_true, decide_eq_true_eq, bne_iff_ne, ne_eq]
      constructor
      · intro h
        exact lt_of_le_of_ne h.1.1.1.2 (Ne.symm h.1.1.1.1)
      · intro h
        exact ⟨⟨⟨⟨ne_of_gt h, h.le⟩, hbank.1⟩, hbank.2.1⟩, hbank.2.2⟩
    rw [RequestWithdrawal_found s organizerID req (some id) settings balance hset hbal]
    by_cases hb : bindWithdrawal req = true
    · have hpos := hbind.mp hb
      simp only [hb, Bool.not_true, Bool.false_eq_true, if_false]
      by_cases hmin : req.amount < settings.minWithdrawalAmount
      · simp [hmin, WithdrawalResponse.code]
      · by_cases hav : balance.availableBalance < req.amount
        · simp [hmin, hav, WithdrawalResponse.code]
        · simp only [hmin, hav, if_false, WithdrawalResponse.code, ne_eq, not_true_eq_false,
            false_iff, not_or, not_le, not_false_eq_true, and_true]
          exact hpos
    · have hnot : ¬ 0 < req.amount := fun h => hb (hbind.mpr h)
      simp only [Bool.not_eq_true] at hb
      simp only [hb, Bool.not_false, if_true, WithdrawalResponse.code]
      constructor
      · intro _
        left
        exact not_lt.mp hnot
      · intro _
        decide
  · intro newID h
    rcases RequestWithdrawal_cases s organizerID req newID with ⟨h1, -, -⟩ | ⟨_, _, _, _, _, _, _, _, _, heq⟩
    · exact h1
    · exfalso
      apply h
      rw [heq]
      rfl

theorem request_rejected_iff_witness :
    (first (fun _ => true) (exLedger exSettings [exBalancePaid] []).settings = some exSettings ∧
      first (fun b => b.organizerID == exOrganizer)
        (exLedger exSettings [exBalancePaid] []).balances = some exBalancePaid ∧
      exWithdrawal.bankName ≠ "" ∧ exWithdrawal.accountNumber ≠ "" ∧
      exWithdrawal.accountName ≠ "") ∧
    ((RequestWithdrawal (exLedger exSettings [exBalancePaid] []) exOrganizer exWithdrawal
        (some exRequestID)).2.code ≠ 201 ↔
      (exWithdrawal.amount ≤ 0 ∨ exWithdrawal.amount < exSettings.minWithdrawalAmount ∨
        exBalancePaid.availableBalance < exWithdrawal.amount)) :=
  ⟨⟨by decide!, by decide!, by decide, by decide, by decide⟩,
    (request_rejected_iff (exLedger exSettings [exBalancePaid] []) exOrganizer exWithdrawal
      exRequestID exSettings exBalancePaid (by decide!) (by decide!)
      ⟨by decide, by decide, by decide⟩).1⟩

/-- C11. With the minimum withdrawal amount set to 0, a request of amount 0 is
neither below the minimum nor above the available balance of 4750, and it is
rejected with 400; a request of 1000 within both bounds is rejected with 500
when the insert fails. -/
theorem request_rejected_within_bounds :
    (¬ ((0 : ℚ) < exSettingsNoMinimum.minWithdrawalAmount) ∧
      ¬ ((0 : ℚ) > exBalancePaid.availableBalance)) ∧
    (RequestWithdrawal (exLedger exSettingsNoMinimum [exBalancePaid] []) exOrganizer
      { exWithdrawal with amount := 0 } (some exRequestID)).2.code = 400 ∧
    (¬ (exWithdrawal.amount < exSettings.minWithdrawalAmount) ∧
      ¬ (exWithdrawal.amount > exBalancePaid.availableBalance)) ∧
    (RequestWithdrawal (exLedger exSettings [exBalancePaid] []) exOrganizer exWithdrawal
      none).2.code = 500 := by
  refine ⟨by decide!, by decide!, by decide!, by decide!⟩

/-- C12. A successful `RequestWithdrawal`: the created request is pending, its
fee is the amount times the withdrawal fee percentage over 100, its net amount
is the amount less the fee; the request is added to the table; on the balance
row of the organizer the available balance goes down by the amount and the
pending balance up by the amount, the other two amounts stay. An amount of
1000 against available 1000, pending 0 at 2.5 percent gives fee 25, net 975,
available 0 and pending 1000. -/
theorem request_success (s : Store) (organizerID : UUID) (req : WithdrawalForm)
    (newID : Option UUID) (w : WithdrawalRequest)
    (hcreated : (RequestWithdrawal s organizerID req newID).2 = .created w) :
    ∃ settings balance,
      first (fun _ => true) s.settings = some settings ∧
      first (fun b => b.organizerID == organizerID) s.balances = some balance ∧
      w.status = .pending ∧ w.organizerID = organizerID ∧ w.amount = req.amount ∧
      w.withdrawalFee = req.amount * settings.withdrawalFeePercentage / 100 ∧
      w.netAmount = req.amount - w.withdrawalFee ∧
      (RequestWithdrawal s organizerID req newID).1.withdrawals = s.withdrawals ++ [w] ∧
      first (fun b => b.organizerID == organizerID)
          (RequestWithdrawal s organizerID req newID).1.balances =
        some { balance with
          availableBalance := balance.availableBalance - req.amount,
          pendingBalance := balance.pendingBalance + req.amount } ∧
      (req.amount = 1000 → settings.withdrawalFeePercentage = 5 / 2 →
        balance.availableBalance = 1000 → balance.pendingBalance = 0 →
        w.withdrawalFee = 25 ∧ w.netAmount = 975 ∧
        balance.availableBalance - req.amount = 0 ∧
        balance.pendingBalance + req.amount = 1000) := by
  rcases RequestWithdrawal_cases s organizerID req newID with
    ⟨-, -, hno⟩ | ⟨settings, balance, id, hset, hbal, -, -, -, -, heq⟩
  · exact absurd hcreated (hno w)
  · rw [heq] at hcreated ⊢
    simp only [WithdrawalResponse.created.injEq] at hcreated
    subst hcreated
    refine ⟨settings, balance, hset, hbal, rfl, rfl, rfl, ?_, ?_, rfl, ?_, ?_⟩
    · simp only [requestedWithdrawal]
      ring
    · simp only [requestedWithdrawal]
    · have hp := first_holds hbal
      exact first_save_of OrganizerBalance.id _ _ balance _ hbal rfl hp
    · intro ha hp hav hpe
      simp only [requestedWithdrawal, ha, hp, hav, hpe]
      norm_num

theorem request_success_witness :
    (RequestWithdrawal (exLedger exSettings [exBalanceThousand] []) exOrganizer exWithdrawal
        (some exRequestID)).2 = .created (exRequest .pending) ∧
    (exRequest .pending).netAmount = exWithdrawal.amount - (exRequest .pending).withdrawalFee :=
  ⟨by decide!,
    (request_success (exLedger exSettings [exBalanceThousand] []) exOrganizer exWithdrawal
      (some exRequestID) (exRequest .pending) (by decide!)).elim
      fun _ h => h.elim fun _ h => h.2.2.2.2.2.2.1⟩

/-! ## Review and processing of withdrawal requests -/

/-- C13. Illegal withdrawal transitions are rejected and change nothing: a
review of a request that is not pending, whatever the action, and the
processing of a request that is not approved, answer with an error and leave
the database (the request with its status, reviewer, comment, reference and
timestamps, and every balance) as it was. -/
theorem illegal_transition_noop (s : Store) (requestID : String) (w : WithdrawalRequest)
    (hfind : first (fun w => w.id == requestID) s.withdrawals = some w) :
    (w.status ≠ .pending → ∀ (userID : UUID) (action comment : String) (now : Time)
        (saved : Bool),
      (ReviewWithdrawalRequest s requestID userID action comment now saved).1 = s ∧
      400 ≤ (ReviewWithdrawalRequest s requestID userID action comment now saved).2.code) ∧
    (w.status ≠ .approved → ∀ (transactionRef : String) (now : Time) (saved : Bool),
      (ProcessWithdrawal s requestID transactionRef now saved).1 = s ∧
      400 ≤ (ProcessWithdrawal s requestID transactionRef now saved).2.code) := by
  constructor
  · intro hst userID action comment now saved
    unfold ReviewWithdrawalRequest
    rw [hfind]
    by_cases hb : (!(action == "approve" || action == "reject")) = true
    · rw [if_pos hb]
      exact ⟨rfl, by simp [AdminResponse.code]⟩
    · rw [if_neg hb]
      simp only []
      rw [if_pos hst]
      exact ⟨rfl, by simp [AdminResponse.code]⟩
  · intro hst transactionRef now saved
    unfold ProcessWithdrawal
    rw [hfind]
    by_cases hb : (transactionRef == "") = true
    · rw [if_pos hb]
      exact ⟨rfl, by simp [AdminResponse.code]⟩
    · rw [if_neg hb]
      simp only []
      rw [if_pos hst]
      exact ⟨rfl, by simp [AdminResponse.code]⟩

theorem illegal_transition_noop_witness :
    (first (fun w => w.id == exRequestID)
        (exLedger exSettings [exBalancePaid] [exRequest .processed]).withdrawals =
      some (exRequest .processed) ∧
      (exRequest .processed).status ≠ .pending) ∧
    (ReviewWithdrawalRequest (exLedger exSettings [exBalancePaid] [exRequest .processed])
      exRequestID exAdmin "reject" "again" 500 true).1 =
        exLedger exSettings [exBalancePaid] [exRequest .processed] :=
  ⟨⟨by decide!, by decide⟩,
    (((illegal_transition_noop (exLedger exSettings [exBalancePaid] [exRequest .processed])
      exRequestID (exRequest .processed) (by decide!)).1 (by decide))
      exAdmin "reject" "again" 500 true).1⟩

theorem ProcessWithdrawal_approved (s : Store) (requestID : String) (transactionRef : String)
    (now : Time) (w : WithdrawalRequest)
    (hfind : first (fun w => w.id == requestID) s.withdrawals = some w)
    (happroved : w.status = .approved) (href : transactionRef ≠ "") :
    ProcessWithdrawal s requestID transactionRef now true =
      ({ s with
          withdrawals := save WithdrawalRequest.id
            { w with status := .processed, processedAt := some now,
                     transactionRef := transactionRef } s.withdrawals,
          balances :=
            match first (fun b => b.organizerID == w.organizerID) s.balances with
            | some balance =>
              save OrganizerBalance.id (paidOut balance w.amount w.netAmount) s.balances
            | none => s.balances },
        .ok { w with status := .processed, processedAt := some now,
                     transactionRef := transactionRef }) := by
  unfold ProcessWithdrawal paidOut
  have h1 : ¬ (transactionRef == "") = true := by simpa using href
  have h2 : ¬ w.status ≠ .approved := by simp [happroved]
  rw [if_neg h1, hfind]
  simp only []
  rw [if_neg h2]
  simp only [Bool.not_true, Bool.false_eq_true, if_false]
  cases first (fun b => b.organizerID == w.organizerID) s.balances <;> rfl

theorem ReviewWithdrawalRequest_pending (s : Store) (requestID : String) (userID : UUID)
    (action comment : String) (now : Time) (saved : Bool) (w : WithdrawalRequest)
    (hfind : first (fun w => w.id == requestID) s.withdrawals = some w)
    (hpending : w.status = .pending) (haction : action = "approve" ∨ action = "reject") :
    ReviewWithdrawalRequest s requestID userID action comment now saved =
      ({ s with
          balances :=
            if action = "approve" then s.balances
            else
              match first (fun b => b.organizerID == w.organizerID) s.balances with
              | some balance => save OrganizerBalance.id (released balance w.amount) s.balances
              | none => s.balances,
          withdrawals :=
            if saved = true then
              save WithdrawalRequest.id
                { w with
                  reviewedBy := some userID, reviewedAt := some now, reviewComment := comment,
                  status := if action = "approve" then .approved else .rejected } s.withdrawals
            else s.withdrawals },
        if saved = true then
          .ok { w with
            reviewedBy := some userID, reviewedAt := some now, reviewComment := comment,
            status := if action = "approve" then .approved else .rejected }
        else .saveFailed) := by
  unfold ReviewWithdrawalRequest released
  have h1 : ¬ (!(action == "approve" || action == "reject")) = true := by
    rcases haction with h | h <;> simp [h]
  have h2 : ¬ w.status ≠ .pending := by simp [hpending]
  rw [if_neg h1, hfind]
  simp only []
  rw [if_neg h2]
  rcases haction with h | h
  · subst h
    cases saved <;> simp
  · subst h
    cases saved <;> simp

/-! ## The order builder: what it stores and what it sends -/

theorem validateItems_error_code (s : Store) (eventID : String) (now : Nat → Time)
    (items : List PurchaseItem) (k : Nat) (total : ℚ) (acc : List JSONValue)
    (resp : PurchaseResponse)
    (h : validateItems s eventID now k items total acc = .error resp) : 400 ≤ resp.code := by
  induction items generalizing k total acc with
  | nil => simp [validateItems] at h
  | cons item rest ih =>
    unfold validateItems at h
    cases hf : first (fun t => t.id == item.ticketTypeID && t.eventID == eventID)
        s.ticketTypes with
    | none =>
      rw [hf] at h
      simp only [Except.error.injEq] at h
      subst h
      simp [PurchaseResponse.code]
    | some tt =>
      rw [hf] at h
      simp only at h
      split at h
      · simp only [Except.error.injEq] at h
        subst h
        simp [PurchaseResponse.code]
      · split at h
        · simp only [Except.error.injEq] at h
          subst h
          simp [PurchaseResponse.code]
        · split at h
          · simp only [Except.error.injEq] at h
            subst h
            simp [PurchaseResponse.code]
          · exact ih _ _ _ h

/-- The outcomes of `InitiateTicketPurchase`: an error before anything is
stored, or a validated cart whose transaction is stored and announced to the
gateway. -/
theorem InitiateTicketPurchase_cases (s : Store) (env : PurchaseEnv) (attendeeID : UUID)
    (req : PurchaseRequest) :
    ((InitiateTicketPurchase s env attendeeID req).store = s ∧
      (InitiateTicketPurchase s env attendeeID req).sent = none ∧
      400 ≤ (InitiateTicketPurchase s env attendeeID req).response.code) ∨
    ∃ event totalAmount ticketItems id,
      first (fun e => e.id == req.eventID) s.events = some event ∧
      validateItems s req.eventID env.now 0 req.items 0 [] = .ok (totalAmount, ticketItems) ∧
      env.createTransaction = some id ∧
      (InitiateTicketPurchase s env attendeeID req).store.transactions =
        s.transactions ++ [orderTransaction s env attendeeID event totalAmount id] ∧
      (InitiateTicketPurchase s env attendeeID req).sent =
        some { email := env.email, amount := totalAmount, reference := env.reference,
               metadata := orderMetadata id event attendeeID ticketItems } := by
  unfold InitiateTicketPurchase
  by_cases hb : (!bindPurchase req) = true
  · left
    rw [if_pos hb]
    exact ⟨rfl, rfl, by simp [PurchaseResponse.code]⟩
  rw [if_neg hb]
  cases he : first (fun e => e.id == req.eventID) s.events with
  | none =>
    left
    exact ⟨rfl, rfl, by simp [PurchaseResponse.code]⟩
  | some event =>
    simp only []
    cases hv : validateItems s req.eventID env.now 0 req.items 0 [] with
    | error resp =>
      left
      exact ⟨rfl, rfl, validateItems_error_code s req.eventID env.now req.items 0 0 [] resp hv⟩
    | ok r =>
      obtain ⟨totalAmount, ticketItems⟩ := r
      simp only []
      cases hc : env.createTransaction with
      | none =>
        left
        exact ⟨rfl, rfl, by simp [PurchaseResponse.code]⟩
      | some id =>
        right
        refine ⟨event, totalAmount, ticketItems, id, rfl, rfl, rfl, ?_, ?_⟩
        · simp only []
          split <;> rfl
        · simp only []
          split <;> rfl

/-- C20. The frame of a successful `InitiateTicketPurchase`: exactly one
transaction is added to the table, in status pending, and the tickets, the
ticket types (hence every sold counter), the organizer balances and the other
tables are the ones before the call. -/
theorem purchase_frame (s : Store) (env : PurchaseEnv) (attendeeID : UUID)
    (req : PurchaseRequest)
    (hok : (InitiateTicketPurchase s env attendeeID req).response.code = 200) :
    ∃ tx : Transaction,
      (InitiateTicketPurchase s env attendeeID req).store =
        { s with transactions := s.transactions ++ [tx] } ∧
      tx.status = .pending ∧
      (InitiateTicketPurchase s env attendeeID req).store.tickets = s.tickets ∧
      (InitiateTicketPurchase s env attendeeID req).store.ticketTypes = s.ticketTypes ∧
      (InitiateTicketPurchase s env attendeeID req).store.balances = s.balances := by
  obtain ⟨hb, hw, hp, ht, htt, he⟩ := InitiateTicketPurchase_tables s env attendeeID req
  rcases InitiateTicketPurchase_cases s env attendeeID req with
    ⟨-, -, hcode⟩ | ⟨event, totalAmount, ticketItems, id, -, -, -, htx, -⟩
  · rw [hok] at hcode
    exact absurd hcode (by decide)
  · refine ⟨orderTransaction s env attendeeID event totalAmount id, ?_, ?_, ht, htt, hb⟩
    · rw [← htx, ← hb, ← hw, ← hp, ← ht, ← htt, ← he]
    · rfl

theorem purchase_frame_witness :
    (InitiateTicketPurchase (exStore [] [exBalance]) exCheckoutA exAttendee exCart).response.code
      = 200 ∧
    ∃ tx : Transaction,
      (InitiateTicketPurchase (exStore [] [exBalance]) exCheckoutA exAttendee exCart).store =
        { exStore [] [exBalance] with
          transactions := (exStore [] [exBalance]).transactions ++ [tx] } ∧
      tx.status = .pending :=
  ⟨by decide!,
    (purchase_frame (exStore [] [exBalance]) exCheckoutA exAttendee exCart (by decide!)).elim
      fun tx h => ⟨tx, h.1, h.2.1⟩⟩

theorem validateItems_items (s : Store) (eventID : String) (now : Nat → Time)
    (items : List PurchaseItem) (k : Nat) (total : ℚ) (acc : List JSONValue)
    (r : ℚ × List JSONValue)
    (h : validateItems s eventID now k items total acc = .ok r) :
    r.2 = acc ++ items.map fun i => ticketItem i (lineTicketType s eventID i) := by
  induction items generalizing k total acc with
  | nil =>
    simp only [validateItems, Except.ok.injEq] at h
    subst h
    simp
  | cons item rest ih =>
    unfold validateItems at h
    cases hf : first (fun t => t.id == item.ticketTypeID && t.eventID == eventID)
        s.ticketTypes with
    | none =>
      rw [hf] at h
      cases h
    | some tt =>
      rw [hf] at h
      simp only at h
      split at h
      · cases h
      · split at h
        · cases h
        · split at h
          · cases h
          · have := ih _ _ _ h
            rw [this]
            simp [lineTicketType, hf]

theorem truncToInt_intCast (q : Int) : truncToInt (q : ℚ) = q := by
  simp [truncToInt]

/-- The metadata `InitiateTicketPurchase` sends for an accepted cart, before
any encoding: the event id of the request and, line by line in the order of
the cart, the ticket type id and the quantity of each item decode from it; the
attendee id and the unit price of each line (the price of its ticket type when
the order was made) are stored under their keys. -/
theorem InitiateTicketPurchase_metadata (s : Store) (env : PurchaseEnv) (attendeeID : UUID)
    (req : PurchaseRequest) (p : PaymentInit)
    (hsent : (InitiateTicketPurchase s env attendeeID req).sent = some p) :
    assertString (p.metadata.get "event_id") = req.eventID ∧
    assertString (p.metadata.get "attendee_id") = attendeeID ∧
    (cartItems p.metadata).map
        (fun m => (assertString (m.get "ticket_type_id"), decodeQuantity (m.get "quantity"))) =
      req.items.map (fun i => (i.ticketTypeID, i.quantity)) ∧
    (cartItems p.metadata).map (fun m => m.get "price") =
      req.items.map (fun i => some (.number (lineTicketType s req.eventID i).price)) := by
  rcases InitiateTicketPurchase_cases s env attendeeID req with
    ⟨-, hnone, -⟩ | ⟨event, totalAmount, ticketItems, id, he, hv, -, -, hs⟩
  · rw [hnone] at hsent
    cases hsent
  · rw [hs] at hsent
    simp only [Option.some.injEq] at hsent
    subst hsent
    have hitems := validateItems_items s req.eventID env.now req.items 0 0 [] _ hv
    simp only [List.nil_append] at hitems
    have hev : event.id = req.eventID := by
      have := first_holds he
      simpa using this
    have hcart : cartItems (orderMetadata id event attendeeID ticketItems) =
        req.items.map fun i =>
          [("ticket_type_id", JSONValue.string i.ticketTypeID),
           ("quantity", JSONValue.number i.quantity),
           ("price", JSONValue.number (lineTicketType s req.eventID i).price),
           ("name", JSONValue.string (lineTicketType s req.eventID i).name)] := by
      simp only [cartItems, orderMetadata, JSONMap.get, List.lookup]
      have h1 : ("items" == "transaction_id") = false := by decide
      have h2 : ("items" == "event_id") = false := by decide
      have h3 : ("items" == "attendee_id") = false := by decide
      have h4 : ("items" == "items") = true := by decide
      simp only [h1, h2, h3, h4, hitems, List.filterMap_map]
      rw [← List.filterMap_eq_map]
      rfl
    refine ⟨?_, ?_, ?_, ?_⟩
    · have h1 : ("event_id" == "transaction_id") = false := by decide
      have h2 : ("event_id" == "event_id") = true := by decide
      simp only [orderMetadata, JSONMap.get, List.lookup, h1, h2, assertString]
      exact hev
    · have h1 : ("attendee_id" == "transaction_id") = false := by decide
      have h2 : ("attendee_id" == "event_id") = false := by decide
      have h3 : ("attendee_id" == "attendee_id") = true := by decide
      simp only [orderMetadata, JSONMap.get, List.lookup, h1, h2, h3, assertString]
    · rw [hcart, List.map_map]
      apply List.map_congr_left
      intro i _
      have h1 : ("ticket_type_id" == "ticket_type_id") = true := by decide
      have h2 : ("quantity" == "ticket_type_id") = false := by decide
      have h3 : ("quantity" == "quantity") = true := by decide
      simp only [Function.comp, JSONMap.get, List.lookup, h1, h2, h3, assertString,
        decodeQuantity, truncToInt_intCast]
    · rw [hcart, List.map_map]
      apply List.map_congr_left
      intro i _
      have h1 : ("price" == "ticket_type_id") = false := by decide
      have h2 : ("price" == "quantity") = false := by decide
      have h3 : ("price" == "price") = true := by decide
      simp only [Function.comp, JSONMap.get, List.lookup, h1, h2, h3]

/-! ## The outcomes of the admin handlers -/

/-- The outcomes of `ReviewWithdrawalRequest`: nothing is written, or the
request found is pending and the action is one of the two. -/
theorem ReviewWithdrawalRequest_cases (s : Store) (requestID : String) (userID : UUID)
    (action comment : String) (now : Time) (saved : Bool) :
    (ReviewWithdrawalRequest s requestID userID action comment now saved).1 = s ∨
    ∃ w, first (fun w => w.id == requestID) s.withdrawals = some w ∧ w.status = .pending ∧
      (action = "approve" ∨ action = "reject") := by
  by_cases hb : (!(action == "approve" || action == "reject")) = true
  · left
    unfold ReviewWithdrawalRequest
    rw [if_pos hb]
  · cases hfind : first (fun w => w.id == requestID) s.withdrawals with
    | none =>
      left
      unfold ReviewWithdrawalRequest
      rw [if_neg hb, hfind]
    | some w =>
      by_cases hst : w.status ≠ .pending
      · left
        unfold ReviewWithdrawalRequest
        rw [if_neg hb, hfind]
        simp only []
        rw [if_pos hst]
      · right
        refine ⟨w, rfl, by simpa using hst, ?_⟩
        simp only [Bool.not_eq_true', Bool.not_eq_false, Bool.or_eq_true, beq_iff_eq] at hb
        exact hb

/-- The outcomes of `ProcessWithdrawal`: nothing is written, or the request
found is approved, a reference is given and the request is saved. -/
theorem ProcessWithdrawal_cases (s : Store) (requestID : String) (transactionRef : String)
    (now : Time) (saved : Bool) :
    (ProcessWithdrawal s requestID transactionRef now saved).1 = s ∨
    ∃ w, first (fun w => w.id == requestID) s.withdrawals = some w ∧ w.status = .approved ∧
      transactionRef ≠ "" ∧ saved = true := by
  by_cases hb : (transactionRef == "") = true
  · left
    unfold ProcessWithdrawal
    rw [if_pos hb]
  · cases hfind : first (fun w => w.id == requestID) s.withdrawals with
    | none =>
      left
      unfold ProcessWithdrawal
      rw [if_neg hb, hfind]
    | some w =>
      by_cases hst : w.status ≠ .approved
      · left
        unfold ProcessWithdrawal
        rw [if_neg hb, hfind]
        simp only []
        rw [if_pos hst]
      · cases saved with
        | false =>
          left
          unfold ProcessWithdrawal
          rw [if_neg hb, hfind]
          simp only []
          rw [if_neg hst]
          rfl
        | true =>
          right
          exact ⟨w, rfl, by simpa using hst, by simpa using hb, rfl⟩

theorem VerifyPayment_tables (s : Store) (env : SettleEnv) (reference : String) :
    (VerifyPayment s env reference).1.withdrawals = s.withdrawals ∧
    (VerifyPayment s env reference).1.settings = s.settings ∧
    (VerifyPayment s env reference).1.events = s.events := by
  by_cases href : reference = ""
  · unfold VerifyPayment
    rw [if_pos href]
    exact ⟨rfl, rfl, rfl⟩
  · cases hfind : first (fun t => t.paymentReference == reference) s.transactions with
    | none =>
      unfold VerifyPayment
      rw [if_neg href, hfind]
      exact ⟨rfl, rfl, rfl⟩
    | some tx =>
      by_cases hdone : tx.status = .completed
      · rw [VerifyPayment_found s env reference tx href hfind, if_pos hdone]
        exact ⟨rfl, rfl, rfl⟩
      · cases hx : VerifyTransaction env.exchange with
        | error err =>
          rw [VerifyPayment_error s env reference tx err href hfind hdone hx]
          exact ⟨rfl, rfl, rfl⟩
        | ok v =>
          cases hs : IsTransactionSuccessful v with
          | false =>
            rw [VerifyPayment_unsuccessful s env reference tx v href hfind hdone hx hs]
            exact ⟨rfl, rfl, rfl⟩
          | true =>
            rw [VerifyPayment_success s env reference tx v href hfind hdone hx hs]
            obtain ⟨he, -, -, hw, hp, -⟩ := issueItems_grows env
              ((first (fun e => e.id == assertString (v.metadata.get "event_id")) s.events).getD
                Event.zero)
              tx (cartItems v.metadata) { store := s, tickets := [], attempts := 0 }
            exact ⟨hw, hp, he⟩

theorem GetOrganizerBalance_tables (s : Store) (organizerID : UUID) (newID : Option UUID) :
    (GetOrganizerBalance s organizerID newID).withdrawals = s.withdrawals ∧
    (GetOrganizerBalance s organizerID newID).settings = s.settings := by
  unfold GetOrganizerBalance
  split
  · exact ⟨rfl, rfl⟩
  · split <;> exact ⟨rfl, rfl⟩

theorem UpdatePlatformSettings_tables (s : Store) (userID : UUID) (req : SettingsForm)
    (saved : Bool) :
    (UpdatePlatformSettings s userID req saved).withdrawals = s.withdrawals ∧
    (UpdatePlatformSettings s userID req saved).balances = s.balances := by
  unfold UpdatePlatformSettings
  split
  · exact ⟨rfl, rfl⟩
  · split
    · exact ⟨rfl, rfl⟩
    · split <;> exact ⟨rfl, rfl⟩

/-! ## The withdrawal state machine -/

theorem map_key_save {α : Type} (key : α → UUID) (r : α) (rows : List α) :
    (save key r rows).map key = rows.map key := by
  unfold save
  rw [List.map_map]
  apply List.map_congr_left
  intro x _
  by_cases h : key x = key r
  · simp [Function.comp, h]
  · simp [Function.comp, h]

theorem eq_of_key_eq {α : Type} {key : α → UUID} {rows : List α} {x y : α}
    (hnd : (rows.map key).Nodup) (hx : x ∈ rows) (hy : y ∈ rows) (h : key x = key y) :
    x = y :=
  List.inj_on_of_nodup_map hnd hx hy h

theorem rowMoves_refl (x : Option WithdrawalRequest) : rowMoves x x := by
  cases x with
  | none => trivial
  | some w => exact ⟨rfl, Or.inl rfl⟩

theorem rowMoves_of_eq {s s1 : Store} (h : s1.withdrawals = s.withdrawals) (i : Nat) :
    rowMoves (requestAt s i) (requestAt s1 i) := by
  unfold requestAt
  rw [h]
  exact rowMoves_refl _

/-- Saving an updated copy of a stored request, under unique ids, moves the row
of that request and no other. -/
theorem rowMoves_save (ws : List WithdrawalRequest) (w w1 : WithdrawalRequest)
    (hnd : (ws.map WithdrawalRequest.id).Nodup) (hw : w ∈ ws) (hid : w1.id = w.id)
    (hstep : w.status.next w1.status = true) (i : Nat) :
    rowMoves ws[i]? (save WithdrawalRequest.id w1 ws)[i]? := by
  unfold save
  rw [List.getElem?_map]
  cases hx : ws[i]? with
  | none => trivial
  | some x =>
    have hxm : x ∈ ws := List.getElem?_mem hx
    by_cases hk : x.id = w1.id
    · have : x = w := eq_of_key_eq hnd hxm hw (hk.trans hid)
      subst this
      simp only [Option.map_some', hk, if_true]
      exact ⟨hid, Or.inr hstep⟩
    · simp only [Option.map_some', hk, if_false]
      exact ⟨rfl, Or.inl rfl⟩

theorem fresh_of_all {ws : List WithdrawalRequest} {id : UUID}
    (h : (ws.all fun w => w.id != id) = true) : id ∉ ws.map WithdrawalRequest.id := by
  intro hmem
  rw [List.mem_map] at hmem
  obtain ⟨w, hw, rfl⟩ := hmem
  rw [List.all_eq_true] at h
  have := h w hw
  simp at this

/-- One call, with fresh identifiers, keeps the ids of the withdrawal table
distinct and moves every row along the state machine. -/
theorem Call.run_rowMoves (s : Store) (c : Call)
    (hnd : (s.withdrawals.map WithdrawalRequest.id).Nodup) (hf : c.fresh s = true) :
    ((c.run s).withdrawals.map WithdrawalRequest.id).Nodup ∧
    ∀ i, rowMoves (requestAt s i) (requestAt (c.run s) i) := by
  cases c with
  | purchase env attendeeID req =>
    have h := (InitiateTicketPurchase_tables s env attendeeID req).2.1
    exact ⟨by simp only [Call.run]; rw [h]; exact hnd, rowMoves_of_eq h⟩
  | settle env reference =>
    have h := (VerifyPayment_tables s env reference).1
    exact ⟨by simp only [Call.run]; rw [h]; exact hnd, rowMoves_of_eq h⟩
  | openBalance organizerID newID =>
    have h := (GetOrganizerBalance_tables s organizerID newID).1
    exact ⟨by simp only [Call.run]; rw [h]; exact hnd, rowMoves_of_eq h⟩
  | updateSettings userID req saved =>
    have h := (UpdatePlatformSettings_tables s userID req saved).1
    exact ⟨by simp only [Call.run]; rw [h]; exact hnd, rowMoves_of_eq h⟩
  | requestWithdrawal organizerID req newID =>
    simp only [Call.run]
    rcases RequestWithdrawal_cases s organizerID req newID with
      ⟨h, -, -⟩ | ⟨settings, balance, id, -, -, hid, -, -, -, heq⟩
    · rw [h]
      exact ⟨hnd, fun i => rowMoves_refl _⟩
    · subst hid
      rw [heq]
      have hfresh : id ∉ s.withdrawals.map WithdrawalRequest.id := fresh_of_all hf
      constructor
      · simp only [List.map_append, List.map_cons, List.map_nil]
        rw [List.nodup_append]
        refine ⟨hnd, List.nodup_singleton _, ?_⟩
        intro x hx hx1
        simp only [List.mem_singleton] at hx1
        subst hx1
        exact hfresh hx
      · intro i
        unfold requestAt
        simp only []
        by_cases hi : i < s.withdrawals.length
        · rw [List.getElem?_append_left hi]
          exact rowMoves_refl _
        · have hi1 : s.withdrawals.length ≤ i := Nat.le_of_not_lt hi
          rw [List.getElem?_eq_none hi1, List.getElem?_append_right hi1]
          cases hj : [requestedWithdrawal organizerID req settings id][i - s.withdrawals.length]?
            with
          | none => trivial
          | some x =>
            have := List.getElem?_mem hj
            simp only [List.mem_singleton] at this
            subst this
            rfl
  | review requestID userID action comment now saved =>
    simp only [Call.run]
    rcases ReviewWithdrawalRequest_cases s requestID userID action comment now saved with
      h | ⟨w, hfind, hpending, haction⟩
    · rw [h]
      exact ⟨hnd, fun i => rowMoves_refl _⟩
    · rw [ReviewWithdrawalRequest_pending s requestID userID action comment now saved w hfind
        hpending haction]
      cases saved with
      | false => exact ⟨hnd, fun i => rowMoves_refl _⟩
      | true =>
        simp only [if_true]
        constructor
        · rw [map_key_save]
          exact hnd
        · intro i
          unfold requestAt
          refine rowMoves_save s.withdrawals w _ hnd (first_mem hfind) ?_ ?_ i
          · rfl
          · rw [hpending]
            split <;> rfl
  | process requestID transactionRef now saved =>
    simp only [Call.run]
    rcases ProcessWithdrawal_cases s requestID transactionRef now saved with
      h | ⟨w, hfind, happroved, href, hsaved⟩
    · rw [h]
      exact ⟨hnd, fun i => rowMoves_refl _⟩
    · subst hsaved
      rw [ProcessWithdrawal_approved s requestID transactionRef now w hfind happroved href]
      constructor
      · simp only []
        rw [map_key_save]
        exact hnd
      · intro i
        unfold requestAt
        refine rowMoves_save s.withdrawals w _ hnd (first_mem hfind) ?_ ?_ i
        · rfl
        · rw [happroved]
          rfl

theorem runCalls_append (s : Store) (l1 l2 : List Call) :
    runCalls s (l1 ++ l2) = runCalls (runCalls s l1) l2 := by
  induction l1 generalizing s with
  | nil => rfl
  | cons c cs ih => exact ih (c.run s)

theorem validRun_append (s : Store) (l1 l2 : List Call) :
    validRun s (l1 ++ l2) = (validRun s l1 && validRun (runCalls s l1) l2) := by
  induction l1 generalizing s with
  | nil => simp [validRun, runCalls]
  | cons c cs ih =>
    show (c.fresh s && validRun (c.run s) (cs ++ l2)) =
      ((c.fresh s && validRun (c.run s) cs) && validRun (runCalls (c.run s) cs) l2)
    rw [ih, Bool.and_assoc]

theorem validRun_take (s : Store) (calls : List Call) (n : Nat)
    (h : validRun s calls = true) : validRun s (calls.take n) = true := by
  have := validRun_append s (calls.take n) (calls.drop n)
  rw [List.take_append_drop, h] at this
  simp only [Bool.true_eq, Bool.and_eq_true] at this
  exact this.1

theorem take_succ_eq (calls : List Call) (n : Nat) (h : n < calls.length) :
    calls.take (n + 1) = calls.take n ++ [calls.get ⟨n, h⟩] := by
  rw [List.take_succ, List.getElem?_eq_getElem h]
  rfl

theorem runCalls_nodup (s : Store) (calls : List Call)
    (hnd : (s.withdrawals.map WithdrawalRequest.id).Nodup) (hvalid : validRun s calls = true) :
    ((runCalls s calls).withdrawals.map WithdrawalRequest.id).Nodup := by
  induction calls generalizing s with
  | nil => exact hnd
  | cons c cs ih =>
    simp only [validRun, Bool.and_eq_true] at hvalid
    exact ih (c.run s) (Call.run_rowMoves s c hnd hvalid.1).1 hvalid.2

/-- Along a valid run every step moves every row along the state machine. -/
theorem runCalls_rowMoves (s : Store) (calls : List Call) (i n : Nat)
    (hnd : (s.withdrawals.map WithdrawalRequest.id).Nodup) (hvalid : validRun s calls = true)
    (hn : n < calls.length) :
    rowMoves (requestAt (runCalls s (calls.take n)) i)
      (requestAt (runCalls s (calls.take (n + 1))) i) := by
  have hv1 := validRun_take s calls (n + 1) hvalid
  rw [take_succ_eq calls n hn, validRun_append] at hv1
  simp only [validRun, Bool.and_true, Bool.and_eq_true] at hv1
  rw [take_succ_eq calls n hn, runCalls_append]
  exact (Call.run_rowMoves _ _ (runCalls_nodup s _ hnd hv1.1) hv1.2).2 i

/-- A sequence of rows that starts with no row and moves along the state
machine: a processed row was pending at some step and approved at a later one,
and an approved or rejected row was pending at some step. -/
theorem history_of_rowMoves (f : Nat → Option WithdrawalRequest) (h0 : f 0 = none) (N : Nat)
    (hstep : ∀ n, n < N → rowMoves (f n) (f (n + 1))) :
    ∀ w, f N = some w →
      (w.status = .pending ∨
        ((w.status = .approved ∨ w.status = .rejected) ∧
          ∃ n1 w1, n1 < N ∧ f n1 = some w1 ∧ w1.status = .pending) ∨
        (w.status = .processed ∧
          ∃ n1 n2 w1 w2, n1 < n2 ∧ n2 < N ∧ f n1 = some w1 ∧ w1.status = .pending ∧
            f n2 = some w2 ∧ w2.status = .approved)) := by
  induction N with
  | zero =>
    intro w hw
    rw [h0] at hw
    cases hw
  | succ N ih =>
    intro w hw
    have hprev := ih (fun n hn => hstep n (Nat.lt_succ_of_lt hn))
    have hmove := hstep N (Nat.lt_succ_self N)
    rw [hw] at hmove
    cases hN : f N with
    | none =>
      rw [hN] at hmove
      exact Or.inl hmove
    | some v =>
      rw [hN] at hmove
      obtain ⟨-, hst⟩ := hmove
      rcases hst with hsame | hnext
      · rcases hprev v hN with hp | ⟨hp, n1, w1, hn1, hf1, hs1⟩ |
          ⟨hp, n1, n2, w1, w2, h12, hn2, hf1, hs1, hf2, hs2⟩
        · exact Or.inl (hsame.trans hp)
        · refine Or.inr (Or.inl ⟨by rw [hsame]; exact hp, n1, w1, Nat.lt_succ_of_lt hn1, hf1, hs1⟩)
        · exact Or.inr (Or.inr ⟨hsame.trans hp, n1, n2, w1, w2, h12, Nat.lt_succ_of_lt hn2,
            hf1, hs1, hf2, hs2⟩)
      · cases hv : v.status <;> cases hw1 : w.status <;> rw [hv, hw1] at hnext <;>
          simp only [WithdrawalStatus.next, Bool.false_eq_true] at hnext
        · exact Or.inr (Or.inl ⟨Or.inl rfl, N, v, Nat.lt_succ_self N, hN, hv⟩)
        · exact Or.inr (Or.inl ⟨Or.inr rfl, N, v, Nat.lt_succ_self N, hN, hv⟩)
        · rcases hprev v hN with hp | ⟨-, n1, w1, hn1, hf1, hs1⟩ | ⟨hp, -⟩
          · rw [hv] at hp
            cases hp
          · exact Or.inr (Or.inr ⟨rfl, n1, N, w1, v, hn1, Nat.lt_succ_self N, hf1, hs1, hN, hv⟩)
          · rw [hv] at hp
            cases hp

/-- C16. The withdrawal state machine: along every sequence of handler calls
(with distinct request ids, as the primary key gives them), each step leaves
the request at a position of the table with its id and either with its status
or moved pending to approved, pending to rejected or approved to processed, so
rejected and processed are never left; and a request created during the run
that ends processed was pending after some step and approved after a later one. -/
theorem withdrawal_state_machine (s : Store) (calls : List Call) (i : Nat)
    (hnd : (s.withdrawals.map WithdrawalRequest.id).Nodup) (hvalid : validRun s calls = true) :
    (∀ n, n < calls.length →
      rowMoves (requestAt (runCalls s (calls.take n)) i)
        (requestAt (runCalls s (calls.take (n + 1))) i)) ∧
    (requestAt s i = none → ∀ w, requestAt (runCalls s calls) i = some w →
      w.status = .processed →
      ∃ n1 n2 w1 w2, n1 < n2 ∧ n2 < calls.length ∧
        requestAt (runCalls s (calls.take n1)) i = some w1 ∧ w1.status = .pending ∧
        requestAt (runCalls s (calls.take n2)) i = some w2 ∧ w2.status = .approved) := by
  have hsteps := fun n hn => runCalls_rowMoves s calls i n hnd hvalid hn
  refine ⟨hsteps, ?_⟩
  intro h0 w hw hprocessed
  have hfinal : requestAt (runCalls s (calls.take calls.length)) i = some w := by
    rw [List.take_length]
    exact hw
  rcases history_of_rowMoves (fun n => requestAt (runCalls s (calls.take n)) i) h0
    calls.length hsteps w hfinal with hp | ⟨hp, -⟩ | ⟨-, h⟩
  · rw [hprocessed] at hp
    cases hp
  · rw [hprocessed] at hp
    rcases hp with hp | hp <;> cases hp
  · exact h

theorem withdrawal_state_machine_witness :
    (((exStore [] [exBalance]).withdrawals.map WithdrawalRequest.id).Nodup ∧
      validRun (exStore [] [exBalance]) exRun = true ∧
      requestAt (exStore [] [exBalance]) 0 = none ∧
      (requestAt (runCalls (exStore [] [exBalance]) exRun) 0).map (fun w => w.status) =
        some .processed) ∧
    (requestAt (exStore [] [exBalance]) 0 = none →
      ∀ w, requestAt (runCalls (exStore [] [exBalance]) exRun) 0 = some w →
      w.status = .processed →
      ∃ n1 n2 w1 w2, n1 < n2 ∧ n2 < exRun.length ∧
        requestAt (runCalls (exStore [] [exBalance]) (exRun.take n1)) 0 = some w1 ∧
        w1.status = .pending ∧
        requestAt (runCalls (exStore [] [exBalance]) (exRun.take n2)) 0 = some w2 ∧
        w2.status = .approved) :=
  ⟨⟨by decide, by decide!, by decide, by decide!⟩,
    (withdrawal_state_machine (exStore [] [exBalance]) exRun 0 (by decide) (by decide!)).2⟩

/-! ## The moves of the ledger -/

theorem ReviewWithdrawalRequest_reject (s : Store) (requestID : String) (userID : UUID)
    (comment : String) (now : Time) (saved : Bool) (w : WithdrawalRequest)
    (hfind : first (fun w => w.id == requestID) s.withdrawals = some w)
    (hpending : w.status = .pending) :
    (ReviewWithdrawalRequest s requestID userID "reject" comment now saved).1 =
      { s with
        balances := writeBalance w.organizerID (fun b => released b w.amount) s.balances,
        withdrawals :=
          if saved = true then
            save WithdrawalRequest.id (reviewedAs w userID now comment .rejected) s.withdrawals
          else s.withdrawals } ∧
    (ReviewWithdrawalRequest s requestID userID "reject" comment now saved).2 =
      if saved = true then .ok (reviewedAs w userID now comment .rejected) else .saveFailed := by
  rw [ReviewWithdrawalRequest_pending s requestID userID "reject" comment now saved w hfind
    hpending (Or.inr rfl)]
  have hne : ¬ ("reject" = "approve") := by decide
  simp only [hne, if_false]
  exact ⟨rfl, rfl⟩

theorem mem_save_ne {α : Type} {key : α → UUID} {r x : α} {rows : List α}
    (h : x ∈ save key r rows) : x = r ∨ (x ∈ rows ∧ key x ≠ key r) := by
  unfold save at h
  rw [List.mem_map] at h
  obtain ⟨y, hy, rfl⟩ := h
  by_cases hk : key y = key r
  · left; simp [hk]
  · right; simp only [hk, if_false]; exact ⟨hy, hk⟩

theorem save_eq_self {α : Type} (key : α → UUID) (r : α) (rows : List α)
    (h : key r ∉ rows.map key) : save key r rows = rows := by
  unfold save
  conv_rhs => rw [← List.map_id rows]
  apply List.map_congr_left
  intro x hx
  have : key x ≠ key r := fun hk => h (hk ▸ List.mem_map_of_mem key hx)
  simp [this]

theorem map_save_of_eq {α β : Type} (key : α → UUID) (f : α → β) (r : α) (rows : List α)
    (h : ∀ x ∈ rows, key x = key r → f x = f r) :
    (save key r rows).map f = rows.map f := by
  unfold save
  rw [List.map_map]
  apply List.map_congr_left
  intro x hx
  by_cases hk : key x = key r
  · simp [Function.comp, hk, h x hx hk]
  · simp [Function.comp, hk]

/-- Under distinct keys, saving an updated copy of a stored row changes a sum
over the table by the difference of the two terms. -/
theorem sum_map_save {α : Type} (key : α → UUID) (g : α → ℚ) (rows : List α) (w w1 : α)
    (hnd : (rows.map key).Nodup) (hw : w ∈ rows) (hk : key w1 = key w) :
    ((save key w1 rows).map g).sum = (rows.map g).sum - g w + g w1 := by
  induction rows with
  | nil => cases hw
  | cons x xs ih =>
    rw [List.map_cons, List.nodup_cons] at hnd
    obtain ⟨hx, hxs⟩ := hnd
    rcases List.mem_cons.mp hw with rfl | hmem
    · have hrest : save key w1 xs = xs := by
        apply save_eq_self
        rw [hk]
        exact hx
      have : save key w1 (w :: xs) = w1 :: xs := by
        show (if key w = key w1 then w1 else w) :: save key w1 xs = w1 :: xs
        rw [hrest, if_pos hk.symm]
      rw [this]
      simp only [List.map_cons, List.sum_cons]
      ring
    · have hne : key x ≠ key w1 := by
        intro h
        apply hx
        rw [h, hk]
        exact List.mem_map_of_mem key hmem
      have : save key w1 (x :: xs) = x :: save key w1 xs := by
        show (if key x = key w1 then w1 else x) :: save key w1 xs = x :: save key w1 xs
        rw [if_neg hne]
      rw [this]
      simp only [List.map_cons, List.sum_cons]
      rw [ih hxs hmem]
      ring

theorem first_none_not_mem {organizerID : UUID} {balances : List OrganizerBalance}
    (h : first (fun b => b.organizerID == organizerID) balances = none) :
    organizerID ∉ balances.map OrganizerBalance.organizerID := by
  intro hmem
  rw [List.mem_map] at hmem
  obtain ⟨b, hb, rfl⟩ := hmem
  unfold first at h
  rw [List.find?_eq_none] at h
  have := h b hb
  simp at this

theorem first_organizer {organizerID : UUID} {balances : List OrganizerBalance}
    {b : OrganizerBalance}
    (h : first (fun b => b.organizerID == organizerID) balances = some b) :
    b.organizerID = organizerID := by
  have := first_holds h
  simpa using this

/-- The rows after a write on the balance of an organizer, under distinct
organizers: the written row of that organizer, and the rows of the others. -/
theorem mem_writeBalance {organizerID : UUID} {f : OrganizerBalance → OrganizerBalance}
    {balances : List OrganizerBalance} {x : OrganizerBalance}
    (hnd : (balances.map OrganizerBalance.organizerID).Nodup)
    (h : x ∈ writeBalance organizerID f balances)
    (hid : ∀ b, (f b).id = b.id) :
    (∃ b ∈ balances, b.organizerID = organizerID ∧ x = f b) ∨
    (x ∈ balances ∧ x.organizerID ≠ organizerID) := by
  unfold writeBalance at h
  cases hf : first (fun b => b.organizerID == organizerID) balances with
  | none =>
    rw [hf] at h
    right
    refine ⟨h, ?_⟩
    intro hx
    exact first_none_not_mem hf (hx ▸ List.mem_map_of_mem _ h)
  | some b =>
    rw [hf] at h
    rcases mem_save_ne h with rfl | ⟨hmem, hne⟩
    · left
      exact ⟨b, first_mem hf, first_organizer hf, rfl⟩
    · right
      refine ⟨hmem, ?_⟩
      intro hx
      apply hne
      rw [hid]
      have : x = b := eq_of_key_eq hnd hmem (first_mem hf) (hx.trans (first_organizer hf).symm)
      rw [this]

theorem map_id_writeBalance (organizerID : UUID) (f : OrganizerBalance → OrganizerBalance)
    (balances : List OrganizerBalance) :
    (writeBalance organizerID f balances).map OrganizerBalance.id =
      balances.map OrganizerBalance.id := by
  unfold writeBalance
  split
  · exact map_key_save _ _ _
  · rfl

theorem map_organizer_writeBalance (organizerID : UUID)
    (f : OrganizerBalance → OrganizerBalance) (balances : List OrganizerBalance)
    (hnd : (balances.map OrganizerBalance.id).Nodup)
    (hid : ∀ b, (f b).id = b.id) (horg : ∀ b, (f b).organizerID = b.organizerID) :
    (writeBalance organizerID f balances).map OrganizerBalance.organizerID =
      balances.map OrganizerBalance.organizerID := by
  unfold writeBalance
  cases hf : first (fun b => b.organizerID == organizerID) balances with
  | none => rfl
  | some b =>
    apply map_save_of_eq
    intro x hx hk
    rw [hid] at hk
    have : x = b := eq_of_key_eq hnd hx (first_mem hf) hk
    rw [this, horg]

theorem writeBalance_of_found {organizerID : UUID} {f : OrganizerBalance → OrganizerBalance}
    {balances : List OrganizerBalance} {b : OrganizerBalance}
    (h : first (fun b => b.organizerID == organizerID) balances = some b) :
    writeBalance organizerID f balances = save OrganizerBalance.id (f b) balances := by
  unfold writeBalance
  rw [h]

/-! ## The keys of the ledger tables along a run -/

theorem keyed_writeBalance {s s1 : Store} (hk : s.keyed) (organizerID : UUID)
    (f : OrganizerBalance → OrganizerBalance)
    (hid : ∀ b, (f b).id = b.id) (horg : ∀ b, (f b).organizerID = b.organizerID)
    (hb : s1.balances = writeBalance organizerID f s.balances)
    (hw : (s1.withdrawals.map WithdrawalRequest.id).Nodup)
    (hworg : ∀ w ∈ s1.withdrawals,
      w.organizerID ∈ s.balances.map OrganizerBalance.organizerID) : s1.keyed := by
  obtain ⟨h1, h2, -, -⟩ := hk
  refine ⟨?_, ?_, hw, ?_⟩
  · rw [hb, map_id_writeBalance]
    exact h1
  · rw [hb, map_organizer_writeBalance _ _ _ h1 hid horg]
    exact h2
  · rw [hb, map_organizer_writeBalance _ _ _ h1 hid horg]
    exact hworg

theorem organizer_of_saved {s : Store} (hk : s.keyed) (w w1 : WithdrawalRequest)
    (hmem : w ∈ s.withdrawals) (horg : w1.organizerID = w.organizerID) :
    ∀ x ∈ save WithdrawalRequest.id w1 s.withdrawals,
      x.organizerID ∈ s.balances.map OrganizerBalance.organizerID := by
  intro x hx
  rcases mem_save hx with rfl | h
  · rw [horg]
    exact hk.2.2.2 w hmem
  · exact hk.2.2.2 x h

theorem keyed_same {s s1 : Store} (hk : s.keyed) (hb : s1.balances = s.balances)
    (hw : s1.withdrawals = s.withdrawals) : s1.keyed := by
  unfold Store.keyed
  rw [hb, hw]
  exact hk

/-- Every ledger move keeps the keys of the two tables. -/
theorem LedgerMove.keyed {s s1 : Store} (hk : s.keyed) (m : LedgerMove s s1) : s1.keyed := by
  cases m with
  | same hb hw => exact keyed_same hk hb hw
  | credit organizerID t ht hb hw =>
    refine keyed_writeBalance hk organizerID (fun b => credited b t.netAmount) (fun _ => rfl)
      (fun _ => rfl) hb ?_ ?_
    · rw [hw]; exact hk.2.2.1
    · rw [hw]; exact hk.2.2.2
  | opened organizerID id hnone hid hb hw =>
    obtain ⟨h1, h2, h3, h4⟩ := hk
    refine ⟨?_, ?_, ?_, ?_⟩
    · rw [hb, List.map_append, List.nodup_append]
      refine ⟨h1, List.nodup_singleton _, ?_⟩
      intro x hx hx1
      simp only [List.map_cons, List.map_nil, List.mem_singleton] at hx1
      subst hx1
      exact hid hx
    · rw [hb, List.map_append, List.nodup_append]
      refine ⟨h2, List.nodup_singleton _, ?_⟩
      intro x hx hx1
      simp only [List.map_cons, List.map_nil, List.mem_singleton] at hx1
      subst hx1
      exact first_none_not_mem hnone hx
    · rw [hw]; exact h3
    · intro w hmem
      rw [hw] at hmem
      rw [hb, List.map_append]
      exact List.mem_append_left _ (h4 w hmem)
  | requested b w p hfind hid hp hstatus hpos hle hnet hb hw =>
    have hb1 : s1.balances =
        writeBalance w.organizerID (fun b => reserved b w.amount) s.balances := by
      rw [writeBalance_of_found hfind]
      exact hb
    refine keyed_writeBalance hk w.organizerID (fun b => reserved b w.amount) (fun _ => rfl)
      (fun _ => rfl) hb1 ?_ ?_
    · rw [hw, List.map_append, List.nodup_append]
      refine ⟨hk.2.2.1, List.nodup_singleton _, ?_⟩
      intro x hx hx1
      simp only [List.map_cons, List.map_nil, List.mem_singleton] at hx1
      subst hx1
      exact hid hx
    · intro x hx
      rw [hw] at hx
      rcases List.mem_append.mp hx with h | h
      · exact hk.2.2.2 x h
      · simp only [List.mem_singleton] at h
        subst h
        have := first_organizer hfind
        rw [← this]
        exact List.mem_map_of_mem _ (first_mem hfind)
  | approved w w1 hmem hstatus hstatus1 hid horg hamount hnet hb hw =>
    obtain ⟨h1, h2, h3, h4⟩ := hk
    refine ⟨by rw [hb]; exact h1, by rw [hb]; exact h2, ?_, ?_⟩
    · rw [hw, map_key_save]; exact h3
    · rw [hw, hb]
      exact organizer_of_saved ⟨h1, h2, h3, h4⟩ w w1 hmem horg
  | rejected w w1 hmem hstatus hstatus1 hid horg hamount hnet hb hw =>
    refine keyed_writeBalance hk w.organizerID (fun b => released b w.amount) (fun _ => rfl)
      (fun _ => rfl) hb ?_ ?_
    · rw [hw, map_key_save]; exact hk.2.2.1
    · rw [hw]
      exact organizer_of_saved hk w w1 hmem horg
  | processed w w1 hmem hstatus hstatus1 hid horg hamount hnet hb hw =>
    refine keyed_writeBalance hk w.organizerID (fun b => paidOut b w.amount w.netAmount)
      (fun _ => rfl) (fun _ => rfl) hb ?_ ?_
    · rw [hw, map_key_save]; exact hk.2.2.1
    · rw [hw]
      exact organizer_of_saved hk w w1 hmem horg

theorem sum_eq_zero_of_organizer {g : UUID → WithdrawalRequest → ℚ} {organizerID : UUID}
    {ws : List WithdrawalRequest}
    (hg : ∀ w, w.organizerID ≠ organizerID → g organizerID w = 0)
    (h : ∀ w ∈ ws, w.organizerID ≠ organizerID) : (ws.map (g organizerID)).sum = 0 := by
  induction ws with
  | nil => rfl
  | cons x xs ih =>
    rw [List.map_cons, List.sum_cons, hg x (h x (List.mem_cons_self _ _)),
      ih (fun w hw => h w (List.mem_cons_of_mem _ hw))]
    ring

theorem openTerm_other {organizerID : UUID} (w : WithdrawalRequest)
    (h : w.organizerID ≠ organizerID) : openTerm organizerID w = 0 := by
  simp [openTerm, h]

/-- An organizer without balance row has no request, under the keys of the tables. -/
theorem no_request_of_no_balance {s : Store} (hk : s.keyed) {organizerID : UUID}
    (h : organizerID ∉ s.balances.map OrganizerBalance.organizerID) :
    ∀ w ∈ s.withdrawals, w.organizerID ≠ organizerID := by
  intro w hw heq
  exact h (heq ▸ hk.2.2.2 w hw)

/-- Every ledger move keeps the pending balance of each row equal to the open
requests of its organizer. -/
theorem LedgerMove.reservedOpen {s s1 : Store} (hk : s.keyed) (hr : s.reservedOpen)
    (m : LedgerMove s s1) : s1.reservedOpen := by
  have h2 := hk.2.1
  have h3 := hk.2.2.1
  cases m with
  | same hb hw =>
    unfold Store.reservedOpen
    rw [hb, hw]
    exact hr
  | credit organizerID t ht hb hw =>
    intro x hx
    rw [hb] at hx
    rw [hw]
    rcases mem_writeBalance h2 hx (fun _ => rfl) with ⟨b, hb0, -, rfl⟩ | ⟨hmem, -⟩
    · exact hr b hb0
    · exact hr x hmem
  | opened organizerID id hnone hid hb hw =>
    intro x hx
    rw [hb] at hx
    rw [hw]
    rcases List.mem_append.mp hx with hmem | hnew
    · exact hr x hmem
    · simp only [List.mem_singleton] at hnew
      subst hnew
      have : openAmount organizerID s.withdrawals = 0 :=
        sum_eq_zero_of_organizer (g := openTerm) (fun w h => openTerm_other w h)
          (no_request_of_no_balance hk (first_none_not_mem hnone))
      simp only [this]
  | requested b w p hfind hid hp hstatus hpos hle hnet hb hw =>
    have hopen : ∀ o, openAmount o (s.withdrawals ++ [w]) =
        openAmount o s.withdrawals + if w.organizerID = o then w.amount else 0 := by
      intro o
      simp [openAmount, openTerm, hstatus]
    intro x hx
    rw [hb, ← writeBalance_of_found (f := fun b => reserved b w.amount) hfind] at hx
    rw [hw, hopen]
    rcases mem_writeBalance h2 hx (fun _ => rfl) with ⟨b0, hb0, horg0, rfl⟩ | ⟨hmem, hne⟩
    · have := hr b0 hb0
      rw [horg0] at this
      simp only [reserved, horg0, if_true]
      linarith
    · have := hr x hmem
      rw [if_neg (Ne.symm hne)]
      linarith
  | approved w w1 hmem hstatus hstatus1 hid horg hamount hnet hb hw =>
    have hopen : ∀ o, openAmount o (save WithdrawalRequest.id w1 s.withdrawals) =
        openAmount o s.withdrawals := by
      intro o
      unfold openAmount
      rw [sum_map_save WithdrawalRequest.id (openTerm o) s.withdrawals w w1 h3 hmem hid]
      simp [openTerm, hstatus, hstatus1, horg, hamount]
    intro x hx
    rw [hb] at hx
    rw [hw, hopen]
    exact hr x hx
  | rejected w w1 hmem hstatus hstatus1 hid horg hamount hnet hb hw =>
    have hopen : ∀ o, openAmount o (save WithdrawalRequest.id w1 s.withdrawals) =
        openAmount o s.withdrawals - if w.organizerID = o then w.amount else 0 := by
      intro o
      unfold openAmount
      rw [sum_map_save WithdrawalRequest.id (openTerm o) s.withdrawals w w1 h3 hmem hid]
      simp [openTerm, hstatus, hstatus1]
    intro x hx
    rw [hb] at hx
    rw [hw, hopen]
    rcases mem_writeBalance h2 hx (fun _ => rfl) with ⟨b0, hb0, horg0, rfl⟩ | ⟨hmem, hne⟩
    · have := hr b0 hb0
      rw [horg0] at this
      simp only [released, horg0, if_true]
      linarith
    · have := hr x hmem
      rw [if_neg (Ne.symm hne)]
      linarith
  | processed w w1 hmem hstatus hstatus1 hid horg hamount hnet hb hw =>
    have hopen : ∀ o, openAmount o (save WithdrawalRequest.id w1 s.withdrawals) =
        openAmount o s.withdrawals - if w.organizerID = o then w.amount else 0 := by
      intro o
      unfold openAmount
      rw [sum_map_save WithdrawalRequest.id (openTerm o) s.withdrawals w w1 h3 hmem hid]
      simp [openTerm, hstatus, hstatus1]
    intro x hx
    rw [hb] at hx
    rw [hw, hopen]
    rcases mem_writeBalance h2 hx (fun _ => rfl) with ⟨b0, hb0, horg0, rfl⟩ | ⟨hmem, hne⟩
    · have := hr b0 hb0
      rw [horg0] at this
      simp only [paidOut, horg0, if_true]
      linarith
    · have := hr x hmem
      rw [if_neg (Ne.symm hne)]
      linarith

theorem openAmount_nonneg (organizerID : UUID) (ws : List WithdrawalRequest)
    (h : ∀ w ∈ ws, 0 ≤ w.amount) : 0 ≤ openAmount organizerID ws := by
  unfold openAmount
  apply List.sum_nonneg
  intro x hx
  rw [List.mem_map] at hx
  obtain ⟨w, hw, rfl⟩ := hx
  unfold openTerm
  split
  · exact h w hw
  · exact le_refl 0

/-! ## Non-negative amounts -/

theorem nonneg_of_saved {s : Store} (hn : s.nonneg) (w w1 : WithdrawalRequest)
    (hmem : w ∈ s.withdrawals) (hamount : w1.amount = w.amount)
    (hnet : w1.netAmount = w.netAmount) :
    ∀ x ∈ save WithdrawalRequest.id w1 s.withdrawals, 0 ≤ x.amount ∧ 0 ≤ x.netAmount := by
  intro x hx
  rcases mem_save hx with rfl | h
  · rw [hamount, hnet]
    exact hn.2 w hmem
  · exact hn.2 x h

/-- The requests after a ledger move have non-negative amounts. -/
theorem LedgerMove.requests_nonneg {s s1 : Store} (hn : s.nonneg) (hp : s.priced)
    (m : LedgerMove s s1) : ∀ w ∈ s1.withdrawals, 0 ≤ w.amount ∧ 0 ≤ w.netAmount := by
  cases m with
  | same hb hw => rw [hw]; exact hn.2
  | credit organizerID t ht hb hw => rw [hw]; exact hn.2
  | opened organizerID id hnone hid hb hw => rw [hw]; exact hn.2
  | requested b w p hfind hid hp1 hstatus hpos hle hnet hb hw =>
    rw [hw]
    intro x hx
    rcases List.mem_append.mp hx with h | h
    · exact hn.2 x h
    · simp only [List.mem_singleton] at h
      subst h
      obtain ⟨-, -, h0, h100⟩ := hp.2.2 p hp1
      refine ⟨hpos.le, ?_⟩
      rw [hnet]
      have h1 : x.amount * (p.withdrawalFeePercentage / 100) ≤ x.amount * 1 := by
        apply mul_le_mul_of_nonneg_left _ hpos.le
        rw [div_le_one (by norm_num)]
        exact h100
      linarith
  | approved w w1 hmem hstatus hstatus1 hid horg hamount hnet hb hw =>
    rw [hw]; exact nonneg_of_saved hn w w1 hmem hamount hnet
  | rejected w w1 hmem hstatus hstatus1 hid horg hamount hnet hb hw =>
    rw [hw]; exact nonneg_of_saved hn w w1 hmem hamount hnet
  | processed w w1 hmem hstatus hstatus1 hid horg hamount hnet hb hw =>
    rw [hw]; exact nonneg_of_saved hn w w1 hmem hamount hnet

/-- The total earnings, the available balance and the withdrawn amount stay
non-negative along a ledger move. -/
theorem LedgerMove.balances_nonneg {s s1 : Store} (hk : s.keyed) (hn : s.nonneg)
    (hp : s.priced) (m : LedgerMove s s1) :
    ∀ b ∈ s1.balances, 0 ≤ b.totalEarnings ∧ 0 ≤ b.availableBalance ∧ 0 ≤ b.withdrawnAmount := by
  have h2 := hk.2.1
  have hold : ∀ b ∈ s.balances,
      0 ≤ b.totalEarnings ∧ 0 ≤ b.availableBalance ∧ 0 ≤ b.withdrawnAmount :=
    fun b hb => ⟨(hn.1 b hb).1, (hn.1 b hb).2.1, (hn.1 b hb).2.2.2⟩
  cases m with
  | same hb hw => rw [hb]; exact hold
  | credit organizerID t ht hb hw =>
    intro x hx
    rw [hb] at hx
    rcases mem_writeBalance h2 hx (fun _ => rfl) with ⟨b0, hb0, -, rfl⟩ | ⟨hmem, -⟩
    · obtain ⟨h1, h2, h3⟩ := hold b0 hb0
      have := hp.2.1 t ht
      exact ⟨add_nonneg h1 this, add_nonneg h2 this, h3⟩
    · exact hold x hmem
  | opened organizerID id hnone hid hb hw =>
    intro x hx
    rw [hb] at hx
    rcases List.mem_append.mp hx with hmem | hnew
    · exact hold x hmem
    · simp only [List.mem_singleton] at hnew
      subst hnew
      exact ⟨le_refl 0, le_refl 0, le_refl 0⟩
  | requested b w p hfind hid hp1 hstatus hpos hle hnet hb hw =>
    intro x hx
    rw [hb] at hx
    rcases mem_save hx with rfl | hmem
    · obtain ⟨h1, -, h3⟩ := hold b (first_mem hfind)
      exact ⟨h1, sub_nonneg.mpr hle, h3⟩
    · exact hold x hmem
  | approved w w1 hmem hstatus hstatus1 hid horg hamount hnet hb hw =>
    rw [hb]; exact hold
  | rejected w w1 hmem hstatus hstatus1 hid horg hamount hnet hb hw =>
    intro x hx
    rw [hb] at hx
    rcases mem_writeBalance h2 hx (fun _ => rfl) with ⟨b0, hb0, -, rfl⟩ | ⟨hmem1, -⟩
    · obtain ⟨h1, h2, h3⟩ := hold b0 hb0
      exact ⟨h1, add_nonneg h2 (hn.2 w hmem).1, h3⟩
    · exact hold x hmem1
  | processed w w1 hmem hstatus hstatus1 hid horg hamount hnet hb hw =>
    intro x hx
    rw [hb] at hx
    rcases mem_writeBalance h2 hx (fun _ => rfl) with ⟨b0, hb0, -, rfl⟩ | ⟨hmem1, -⟩
    · obtain ⟨h1, h2, h3⟩ := hold b0 hb0
      exact ⟨h1, h2, add_nonneg h3 (hn.2 w hmem).2⟩
    · exact hold x hmem1

/-- Every ledger move keeps the amounts of the ledger non-negative, the
pending balance being the sum of the open requests. -/
theorem LedgerMove.nonneg {s s1 : Store} (hk : s.keyed) (hn : s.nonneg) (hp : s.priced)
    (hr : s.reservedOpen) (m : LedgerMove s s1) : s1.nonneg := by
  have hw := m.requests_nonneg hn hp
  have hb := m.balances_nonneg hk hn hp
  have hr1 := m.reservedOpen hk hr
  refine ⟨?_, hw⟩
  intro b hmem
  obtain ⟨h1, h2, h3⟩ := hb b hmem
  refine ⟨h1, h2, ?_, h3⟩
  rw [hr1 b hmem]
  exact openAmount_nonneg _ _ (fun w hw1 => (hw w hw1).1)

/-! ## The amounts the ledger is fed with -/

/-- From zero balances, after an order is paid and 1000 is requested, a
rejecting review whose save of the request fails has already released the 1000
and leaves the request pending; the next rejecting review releases it again,
and the pending balance of the organizer is -1000. -/
theorem ledger_pending_negative :
    (exStore [] [exBalance]).fresh ∧
    validRun (exStore [] [exBalance]) exRunRejected = true ∧
    (runCalls (exStore [] [exBalance]) (exRunRejected.take 4)).withdrawals.map
        (fun w => w.status) = [.pending] ∧
    (runCalls (exStore [] [exBalance]) (exRunRejected.take 4)).balances.map
        (fun b => (b.availableBalance, b.pendingBalance)) = [(4750, 0)] ∧
    (runCalls (exStore [] [exBalance]) exRunRejected).balances.map
        (fun b => (b.totalEarnings, b.availableBalance, b.pendingBalance, b.withdrawnAmount)) =
      [(4750, 5750, -1000, 0)] := by
  refine ⟨⟨rfl, by decide!, by decide!⟩, by decide!, by decide!, by decide!, by decide!⟩

/-! ## The role hierarchy -/

/-- C23. Role hierarchy: for all roles u and r among attendee, organizer,
moderator and admin, a user of role u has the permission of r exactly when u
stands at or after r in the order attendee, organizer, moderator, admin. -/
theorem role_hierarchy (u r : Role)
    (hu : u ∈ [RoleAttendee, RoleOrganizer, RoleModerator, RoleAdmin])
    (hr : r ∈ [RoleAttendee, RoleOrganizer, RoleModerator, RoleAdmin]) :
    User.HasPermission { role := u } r = true ↔
      [RoleAttendee, RoleOrganizer, RoleModerator, RoleAdmin].indexOf r ≤
        [RoleAttendee, RoleOrganizer, RoleModerator, RoleAdmin].indexOf u := by
  simp only [List.mem_cons, List.mem_singleton, List.not_mem_nil, or_false] at hu hr
  rcases hu with rfl | rfl | rfl | rfl <;> rcases hr with rfl | rfl | rfl | rfl <;> decide

theorem role_hierarchy_witness :
    (User.HasPermission { role := RoleModerator } RoleOrganizer = true ↔
      [RoleAttendee, RoleOrganizer, RoleModerator, RoleAdmin].indexOf RoleOrganizer ≤
        [RoleAttendee, RoleOrganizer, RoleModerator, RoleAdmin].indexOf RoleModerator) ∧
    User.HasPermission { role := RoleModerator } RoleOrganizer = true ∧
    User.HasPermission { role := RoleModerator } RoleAdmin = false :=
  ⟨role_hierarchy RoleModerator RoleOrganizer (by decide) (by decide), by decide, by decide⟩

/-! ## The remaining tickets of a ticket type -/

/-- C24. `RemainingTickets` returns quantity less sold (the difference being
within the range of `int`): 0 when the type is sold out, a negative number,
not 0, when sold is above quantity, and -5 for quantity 100 and sold 105. -/
theorem remaining_tickets (t : TicketType) (hrange : isInt (t.quantity - t.sold)) :
    t.RemainingTickets = t.quantity - t.sold ∧
    (t.sold = t.quantity → t.RemainingTickets = 0) ∧
    (t.sold > t.quantity → t.RemainingTickets < 0) ∧
    (t.quantity = 100 → t.sold = 105 → t.RemainingTickets = -5) := by
  have h : t.RemainingTickets = t.quantity - t.sold := wrapInt_of_isInt hrange
  refine ⟨h, ?_, ?_, ?_⟩
  · intro he
    rw [h, he]
    omega
  · intro hgt
    rw [h]
    omega
  · intro hq hs
    rw [h, hq, hs]
    rfl

theorem remaining_tickets_witness :
    isInt ({ exTicketType with quantity := 100, sold := 105 }.quantity -
      { exTicketType with quantity := 100, sold := 105 }.sold) ∧
    TicketType.RemainingTickets { exTicketType with quantity := 100, sold := 105 } = -5 :=
  ⟨by decide,
    (remaining_tickets { exTicketType with quantity := 100, sold := 105 } (by decide)).2.2.2
      rfl rfl⟩

/-! ## The decoding of the quantity of a line item -/

theorem digitChar_digit (k : Nat) (h : k < 10) :
    (Nat.digitChar k).isDigit = true ∧ (Nat.digitChar k).toNat - 48 = k ∧
    Nat.digitChar k ≠ '-' ∧ Nat.digitChar k ≠ '+' := by
  interval_cases k <;> decide

theorem toDigitsCore_append (fuel n : Nat) (ds : List Char) :
    Nat.toDigitsCore 10 fuel n ds = Nat.toDigitsCore 10 fuel n [] ++ ds := by
  induction fuel generalizing n ds with
  | zero => simp [Nat.toDigitsCore]
  | succ fuel ih =>
    simp only [Nat.toDigitsCore]
    split
    · simp
    · rw [ih, ih (n / 10) [Nat.digitChar (n % 10)]]
      simp

theorem toDigitsCore_value (fuel n : Nat) (h : n < fuel) :
    digitsValue (Nat.toDigitsCore 10 fuel n []) = n ∧
    (Nat.toDigitsCore 10 fuel n []).all Char.isDigit = true ∧
    Nat.toDigitsCore 10 fuel n [] ≠ [] := by
  induction fuel generalizing n with
  | zero => omega
  | succ fuel ih =>
    obtain ⟨h1, h2, -, -⟩ := digitChar_digit (n % 10) (Nat.mod_lt _ (by norm_num))
    simp only [Nat.toDigitsCore]
    split
    · rename_i h0
      refine ⟨?_, by simp [h1], by simp⟩
      simp only [digitsValue, List.foldl_cons, List.foldl_nil, h2]
      omega
    · rename_i h0
      have hlt : n / 10 < fuel := by omega
      obtain ⟨i1, i2, i3⟩ := ih (n / 10) hlt
      rw [toDigitsCore_append]
      refine ⟨?_, ?_, by simp [i3]⟩
      · unfold digitsValue at i1 ⊢
        rw [List.foldl_append, i1]
        simp only [List.foldl_cons, List.foldl_nil, h2]
        omega
      · rw [List.all_append, i2]
        simp [h1]


theorem Atoi_unsigned (s : String) (cs : List Char) (h : s.toList = cs) (hne : cs ≠ [])
    (hall : cs.all Char.isDigit = true) (hrange : (digitsValue cs : Int) ≤ maxInt) :
    Atoi s = some (digitsValue cs : Int) := by
  obtain ⟨c, rest, rfl⟩ := List.exists_cons_of_ne_nil hne
  have hc : c.isDigit = true := by
    simp only [List.all_cons, Bool.and_eq_true] at hall
    exact hall.1
  have h1 : c ≠ '-' := by
    rintro rfl
    revert hc
    decide
  have h2 : c ≠ '+' := by
    rintro rfl
    revert hc
    decide
  unfold Atoi
  rw [h]
  split
  · rename_i heq
    simp only [List.cons.injEq] at heq
    exact absurd heq.1 h1
  · rename_i heq
    simp only [List.cons.injEq] at heq
    exact absurd heq.1 h2
  · simp only [List.isEmpty_cons, hall, Bool.not_true, Bool.or_self, Bool.false_eq_true,
      if_false]
    have hlo : minInt ≤ (digitsValue (c :: rest) : Int) := by
      unfold minInt
      omega
    unfold digitsValue at hrange hlo ⊢
    simp only [Int.ofNat_eq_coe, Bool.false_eq_true, if_false]
    rw [if_pos ⟨hlo, hrange⟩]

theorem Atoi_negative (s : String) (cs : List Char) (h : s.toList = '-' :: cs) (hne : cs ≠ [])
    (hall : cs.all Char.isDigit = true) (hrange : minInt ≤ -(digitsValue cs : Int)) :
    Atoi s = some (-(digitsValue cs : Int)) := by
  unfold Atoi
  rw [h]
  have hemp : cs.isEmpty = false := by
    cases cs with
    | nil => exact absurd rfl hne
    | cons c r => rfl
  simp only [hemp, hall, Bool.not_true, Bool.or_self, Bool.false_eq_true, if_false]
  have hhi : -(digitsValue cs : Int) ≤ maxInt := by
    unfold maxInt
    omega
  unfold digitsValue at hrange hhi ⊢
  simp only [Int.ofNat_eq_coe, if_true]
  rw [if_pos ⟨hrange, hhi⟩]

theorem toList_repr (n : Nat) : (toString n).toList = Nat.toDigits 10 n := rfl

theorem Atoi_toString_nat (m : Nat) (h : (m : Int) ≤ maxInt) : Atoi (toString m) = some (m : Int) := by
  obtain ⟨h1, h2, h3⟩ := toDigitsCore_value (m + 1) m (Nat.lt_succ_self m)
  have := Atoi_unsigned (toString m) (Nat.toDigits 10 m) rfl h3 h2 (by
    show (digitsValue (Nat.toDigitsCore 10 (m + 1) m []) : Int) ≤ maxInt
    rw [h1]; exact h)
  rw [this]
  show some (digitsValue (Nat.toDigitsCore 10 (m + 1) m []) : Int) = _
  rw [h1]

theorem Atoi_toString (n : Int) (h : isInt n) : Atoi (toString n) = some n := by
  cases n with
  | ofNat m => exact Atoi_toString_nat m h.2
  | negSucc m =>
    obtain ⟨h1, h2, h3⟩ := toDigitsCore_value (m + 1 + 1) (m + 1) (Nat.lt_succ_self _)
    have hl : (toString (Int.negSucc m)).toList = '-' :: Nat.toDigits 10 (m + 1) := rfl
    have := Atoi_negative (toString (Int.negSucc m)) (Nat.toDigits 10 (m + 1)) hl h3 h2 (by
      show minInt ≤ -(digitsValue (Nat.toDigitsCore 10 (m + 1 + 1) (m + 1) []) : Int)
      rw [h1]
      have := h.1
      rw [Int.negSucc_eq] at this
      push_cast
      exact this)
    rw [this]
    show some (-(digitsValue (Nat.toDigitsCore 10 (m + 1 + 1) (m + 1) []) : Int)) = _
    rw [h1, Int.negSucc_eq]
    push_cast
    rfl

theorem Atoi_non_numeric (s : String)
    (h : unsigned s.toList = [] ∨ ∃ c ∈ unsigned s.toList, c.isDigit = false) :
    Atoi s = none := by
  have key : ∀ r : List Char, (r = [] ∨ ∃ c ∈ r, c.isDigit = false) →
      (r.isEmpty || !r.all Char.isDigit) = true := by
    intro r hr
    rcases hr with rfl | ⟨c, hc, hd⟩
    · rfl
    · have : r.all Char.isDigit = false := by
        rw [List.all_eq_false]
        exact ⟨c, hc, by simp [hd]⟩
      simp [this]
  unfold Atoi
  unfold unsigned at h
  split at h
  · simp only [key _ h, if_true]
  · simp only [key _ h, if_true]
  · simp only [key _ h, if_true]

theorem decodeQuantity_default (q : Option JSONValue) (h : noQuantity q = true) :
    decodeQuantity q = 1 := by
  unfold noQuantity at h
  unfold decodeQuantity
  split at h
  · cases h
  · rename_i s
    cases ha : Atoi s with
    | none => simp
    | some n => rw [ha] at h; cases h
  · rfl

theorem truncToInt_floor (v : ℚ) :
    (0 ≤ v → truncToInt v = ⌊v⌋) ∧ (v < 0 → truncToInt v = ⌈v⌉) := by
  constructor
  · intro h
    unfold truncToInt
    rw [Rat.floor_def, Int.tdiv_eq_ediv (Rat.num_nonneg.mpr h) (by positivity)]
  · intro h
    unfold truncToInt
    have hn : 0 ≤ (-v).num := Rat.num_nonneg.mpr (by linarith)
    have : ⌈v⌉ = -⌊-v⌋ := by rw [Int.floor_neg, neg_neg]
    rw [this, Rat.floor_def, Rat.neg_den, ← Int.tdiv_eq_ediv hn (by positivity), Rat.neg_num,
      Int.neg_tdiv, neg_neg]
theorem issueItem_single (env : SettleEnv) (event : Event) (tx : Transaction) (item : JSONMap)
    (st : Issue) (tt : TicketType) (id : UUID) (number : String)
    (hq : decodeQuantity (item.get "quantity") = 1)
    (hfind : first (fun t => t.id == assertString (item.get "ticket_type_id"))
      st.store.ticketTypes = some tt)
    (hcreate : env.createTicket st.attempts = some (id, number)) :
    (issueItem env event tx item st).tickets =
      st.tickets ++ [newTicket env event tx tt st.attempts id number] ∧
    (issueItem env event tx item st).store.tickets =
      st.store.tickets ++ [newTicket env event tx tt st.attempts id number] ∧
    first (fun t => t.id == assertString (item.get "ticket_type_id"))
      (issueItem env event tx item st).store.ticketTypes =
        some { tt with sold := wrapInt (tt.sold + 1) } := by
  have hone : (1 : Int).toNat = 1 := rfl
  have hunit : issueUnits env event tx tt 1 st =
      { store := { st.store with
          tickets := st.store.tickets ++ [newTicket env event tx tt st.attempts id number] },
        tickets := st.tickets ++ [newTicket env event tx tt st.attempts id number],
        attempts := st.attempts + 1 } := by
    simp only [issueUnits, issueUnit, hcreate]
  simp only [issueItem, hq, hfind, Option.getD_some, hone, hunit]
  refine ⟨trivial, trivial, ?_⟩
  have hP := first_holds hfind
  exact first_save_of TicketType.id
    (fun t => t.id == assertString (item.get "ticket_type_id"))
    { tt with sold := wrapInt (tt.sold + 1) } tt st.store.ticketTypes hfind rfl hP

/-- C29. The quantity `VerifyPayment` reads from a line item of the metadata: a
JSON number (within the range of `int`) gives its truncation toward zero, the
floor of a non-negative value and the ceiling of a negative one; a string that
is the decimal numeral of an `int` gives that integer; a string whose
characters after an optional sign are none or not all digits, an absent
quantity, null, a boolean, an array and an object give 1. A line item whose
quantity is of the kinds that give 1, for a stored ticket type and a
successful insert, creates exactly one ticket and adds 1 to sold. -/
theorem quantity_decoding (env : SettleEnv) (event : Event) (tx : Transaction) (item : JSONMap)
    (st : Issue) (tt : TicketType) (id : UUID) (number : String)
    (hq : noQuantity (item.get "quantity") = true)
    (hfind : first (fun t => t.id == assertString (item.get "ticket_type_id"))
      st.store.ticketTypes = some tt)
    (hcreate : env.createTicket st.attempts = some (id, number)) :
    (∀ v : ℚ, (minInt : ℚ) ≤ v → v ≤ (maxInt : ℚ) →
      (0 ≤ v → decodeQuantity (some (.number v)) = ⌊v⌋) ∧
      (v < 0 → decodeQuantity (some (.number v)) = ⌈v⌉)) ∧
    (∀ n : Int, isInt n → decodeQuantity (some (.string (toString n))) = n) ∧
    (∀ s : String, (unsigned s.toList = [] ∨ ∃ c ∈ unsigned s.toList, c.isDigit = false) →
      decodeQuantity (some (.string s)) = 1) ∧
    decodeQuantity none = 1 ∧ decodeQuantity (some .null) = 1 ∧
    (∀ b, decodeQuantity (some (.bool b)) = 1) ∧
    (∀ xs, decodeQuantity (some (.array xs)) = 1) ∧
    (∀ m, decodeQuantity (some (.object m)) = 1) ∧
    decodeQuantity (item.get "quantity") = 1 ∧
    (issueItem env event tx item st).tickets =
      st.tickets ++ [newTicket env event tx tt st.attempts id number] ∧
    (issueItem env event tx item st).store.tickets =
      st.store.tickets ++ [newTicket env event tx tt st.attempts id number] ∧
    first (fun t => t.id == assertString (item.get "ticket_type_id"))
      (issueItem env event tx item st).store.ticketTypes =
        some { tt with sold := wrapInt (tt.sold + 1) } := by
  have hone := decodeQuantity_default _ hq
  obtain ⟨h1, h2, h3⟩ := issueItem_single env event tx item st tt id number hone hfind hcreate
  refine ⟨?_, ?_, ?_, rfl, rfl, fun _ => rfl, fun _ => rfl, fun _ => rfl, hone, h1, h2, h3⟩
  · intro v _ _
    exact truncToInt_floor v
  · intro n hn
    simp only [decodeQuantity, Atoi_toString n hn]
  · intro s hs
    simp only [decodeQuantity, Atoi_non_numeric s hs]

theorem quantity_decoding_witness :
    (noQuantity (exItemNoQuantity.get "quantity") = true ∧
      first (fun t => t.id == assertString (exItemNoQuantity.get "ticket_type_id"))
        exIssueStart.store.ticketTypes = some exTicketType ∧
      exPaidA.createTicket exIssueStart.attempts =
        some ("a1b2c3d4-0000-4000-8000-000000000a09", "TKT-a1b2c3d4")) ∧
    (issueItem exPaidA exEvent (exOrderA .pending) exItemNoQuantity exIssueStart).tickets.length
      = 1 ∧
    first (fun t => t.id == assertString (exItemNoQuantity.get "ticket_type_id"))
      (issueItem exPaidA exEvent (exOrderA .pending) exItemNoQuantity
        exIssueStart).store.ticketTypes = some { exTicketType with sold := 1 } :=
  ⟨⟨by decide, by decide!, by decide⟩, by decide,
    (quantity_decoding exPaidA exEvent (exOrderA .pending) exItemNoQuantity exIssueStart
      exTicketType "a1b2c3d4-0000-4000-8000-000000000a09" "TKT-a1b2c3d4" (by decide)
      (by decide!) (by decide)).2.2.2.2.2.2.2.2.2.2.2⟩

/-! ## The price and the status of the tickets a settlement creates -/

theorem issueUnits_new (env : SettleEnv) (event : Event) (tx : Transaction) (tt : TicketType)
    (n : Nat) (st : Issue) :
    ∃ new : List Ticket, (issueUnits env event tx tt n st).tickets = st.tickets ++ new ∧
      ∀ t ∈ new, t.status = .confirmed ∧ t.ticketTypeID = tt.id ∧ t.price = tt.price := by
  induction n generalizing st with
  | zero => exact ⟨[], by simp [issueUnits], by simp⟩
  | succ n ih =>
    obtain ⟨new, h1, h2⟩ := ih (issueUnit env event tx tt st)
    cases hc : env.createTicket st.attempts with
    | none =>
      refine ⟨new, ?_, h2⟩
      show (issueUnits env event tx tt n (issueUnit env event tx tt st)).tickets = _
      rw [h1]
      simp only [issueUnit, hc]
    | some p =>
      obtain ⟨id, number⟩ := p
      refine ⟨newTicket env event tx tt st.attempts id number :: new, ?_, ?_⟩
      · show (issueUnits env event tx tt n (issueUnit env event tx tt st)).tickets = _
        rw [h1]
        simp only [issueUnit, hc, List.append_assoc, List.singleton_append]
      · intro t ht
        rcases List.mem_cons.mp ht with rfl | h
        · exact ⟨rfl, rfl, rfl⟩
        · exact h2 t h

theorem issueItem_pricedBy (env : SettleEnv) (event : Event) (tx : Transaction) (item : JSONMap)
    (types : List TicketType) (st : Issue)
    (htypes : ∀ x ∈ st.store.ticketTypes,
      (∃ y ∈ types, y.id = x.id ∧ y.price = x.price) ∨ (x.id = uuidNil ∧ x.price = 0))
    (htickets : ∀ t ∈ st.tickets, pricedBy types t) :
    (∀ x ∈ (issueItem env event tx item st).store.ticketTypes,
      (∃ y ∈ types, y.id = x.id ∧ y.price = x.price) ∨ (x.id = uuidNil ∧ x.price = 0)) ∧
    (∀ t ∈ (issueItem env event tx item st).tickets, pricedBy types t) := by
  have hfound : ∀ tt : TicketType,
      tt = (first (fun t => t.id == assertString (JSONMap.get item "ticket_type_id"))
        st.store.ticketTypes).getD TicketType.zero →
      (∃ y ∈ types, y.id = tt.id ∧ y.price = tt.price) ∨ (tt.id = uuidNil ∧ tt.price = 0) := by
    intro tt htt
    cases hf : first (fun t => t.id == assertString (JSONMap.get item "ticket_type_id"))
        st.store.ticketTypes with
    | none =>
      rw [hf] at htt
      subst htt
      exact Or.inr ⟨rfl, rfl⟩
    | some found =>
      rw [hf] at htt
      subst htt
      exact htypes _ (first_mem hf)
  constructor
  · intro x hx
    simp only [issueItem, issueUnits_ticketTypes] at hx
    rcases mem_save hx with rfl | hmem
    · exact hfound
        ((first (fun t => t.id == assertString (JSONMap.get item "ticket_type_id"))
          st.store.ticketTypes).getD TicketType.zero) rfl
    · exact htypes x hmem
  · intro t ht
    simp only [issueItem] at ht
    obtain ⟨new, h1, h2⟩ := issueUnits_new env event tx
      ((first (fun t => t.id == assertString (JSONMap.get item "ticket_type_id"))
        st.store.ticketTypes).getD TicketType.zero)
      (decodeQuantity (JSONMap.get item "quantity")).toNat st
    rw [h1] at ht
    rcases List.mem_append.mp ht with h | h
    · exact htickets t h
    · obtain ⟨hs, hid, hprice⟩ := h2 t h
      refine ⟨hs, ?_⟩
      rcases hfound _ rfl with ⟨y, hy, e1, e2⟩ | ⟨e1, e2⟩
      · exact Or.inl ⟨y, hy, e1.trans hid.symm, e2.trans hprice.symm⟩
      · exact Or.inr ⟨hid.trans e1, hprice.trans e2⟩

theorem issueItems_pricedBy (env : SettleEnv) (event : Event) (tx : Transaction)
    (items : List JSONMap) (types : List TicketType) (st : Issue)
    (htypes : ∀ x ∈ st.store.ticketTypes,
      (∃ y ∈ types, y.id = x.id ∧ y.price = x.price) ∨ (x.id = uuidNil ∧ x.price = 0))
    (htickets : ∀ t ∈ st.tickets, pricedBy types t) :
    ∀ t ∈ (issueItems env event tx items st).tickets, pricedBy types t := by
  induction items generalizing st with
  | nil => exact htickets
  | cons item rest ih =>
    obtain ⟨h1, h2⟩ := issueItem_pricedBy env event tx item types st htypes htickets
    exact ih _ h1 h2

theorem VerifyPayment_verified (s : Store) (env : SettleEnv) (reference : String)
    (ts : List Ticket) (h : (VerifyPayment s env reference).2 = .verified ts) :
    ∃ tx v, reference ≠ "" ∧
      first (fun t => t.paymentReference == reference) s.transactions = some tx ∧
      tx.status ≠ .completed ∧ VerifyTransaction env.exchange = .ok v ∧
      IsTransactionSuccessful v = true ∧
      VerifyPayment s env reference = settleVerified s env tx v := by
  by_cases href : reference = ""
  · unfold VerifyPayment at h
    rw [if_pos href] at h
    cases h
  · cases hfind : first (fun t => t.paymentReference == reference) s.transactions with
    | none =>
      unfold VerifyPayment at h
      rw [if_neg href, hfind] at h
      cases h
    | some tx =>
      by_cases hdone : tx.status = .completed
      · rw [VerifyPayment_found s env reference tx href hfind, if_pos hdone] at h
        cases h
      · cases hx : VerifyTransaction env.exchange with
        | error err =>
          rw [VerifyPayment_error s env reference tx err href hfind hdone hx] at h
          cases h
        | ok v =>
          cases hs : IsTransactionSuccessful v with
          | false =>
            rw [VerifyPayment_unsuccessful s env reference tx v href hfind hdone hx hs] at h
            cases h
          | true =>
            exact ⟨tx, v, href, rfl, hdone, rfl, hs,
              VerifyPayment_success s env reference tx v href hfind hdone hx hs⟩

/-- C25 (amended). Every ticket a settlement creates has status confirmed and
carries the price its ticket type has in the database when the settlement runs
(the price 0 and the zero ticket type id when the line item names no stored
ticket type), whatever unit price the line item records. -/
theorem ticket_price_current (s : Store) (env : SettleEnv) (reference : String)
    (ts : List Ticket) (h : (VerifyPayment s env reference).2 = .verified ts) :
    ∀ t ∈ ts, t.status = .confirmed ∧
      ((∃ y ∈ s.ticketTypes, y.id = t.ticketTypeID ∧ y.price = t.price) ∨
        (t.ticketTypeID = uuidNil ∧ t.price = 0)) := by
  obtain ⟨tx, v, -, -, -, -, -, heq⟩ := VerifyPayment_verified s env reference ts h
  rw [heq] at h
  simp only [settleVerified, SettleResponse.verified.injEq] at h
  subst h
  exact issueItems_pricedBy env _ tx (cartItems v.metadata) s.ticketTypes
    { store := s, tickets := [], attempts := 0 }
    (fun x hx => Or.inl ⟨x, hx, rfl, rfl⟩) (fun t ht => by cases ht)

theorem ticket_price_current_witness :
    (VerifyPayment exRepriced exPaidEcho "TXN-c1a2b3c4-1730000000").2 =
      .verified [newTicket exPaidEcho exEvent (exOrderA .pending)
        { exTicketType with price := 6000 } 0 "a1b2c3d4-0000-4000-8000-000000000a09"
        "TKT-a1b2c3d4"] ∧
    ∀ t ∈ [newTicket exPaidEcho exEvent (exOrderA .pending)
        { exTicketType with price := 6000 } 0 "a1b2c3d4-0000-4000-8000-000000000a09"
        "TKT-a1b2c3d4"], t.status = .confirmed ∧
      ((∃ y ∈ exRepriced.ticketTypes, y.id = t.ticketTypeID ∧ y.price = t.price) ∨
        (t.ticketTypeID = uuidNil ∧ t.price = 0)) :=
  ⟨rfl, ticket_price_current exRepriced exPaidEcho "TXN-c1a2b3c4-1730000000" _ rfl⟩

/-- C25. The first order is placed at a unit price of 5000, which the metadata
records on the line item; the ticket type is then repriced to 6000, and the
settlement, on the echoed metadata, creates a ticket with price 6000. -/
theorem ticket_price_not_recorded :
    (InitiateTicketPurchase (exStore [] [exBalance]) exCheckoutA exAttendee exCart).sent =
      some exPaymentInit ∧
    (cartItems exPaymentInit.metadata).map (fun m => m.get "price") =
      [some (.number 5000)] ∧
    (VerifyPayment exRepriced exPaidEcho "TXN-c1a2b3c4-1730000000").2.tickets.map
      (fun t => (t.price, t.status)) = [(6000, .confirmed)] := by
  refine ⟨rfl, rfl, by decide!⟩

/-! ## The sold counter and the tickets a settlement creates -/

theorem first_of_mem_key {rows : List TicketType} {id : UUID}
    (h : id ∈ rows.map TicketType.id) :
    ∃ tt, first (fun t => t.id == id) rows = some tt ∧ tt ∈ rows ∧ tt.id = id := by
  rw [List.mem_map] at h
  obtain ⟨x, hx, hid⟩ := h
  cases hf : first (fun t => t.id == id) rows with
  | none =>
    unfold first at hf
    have := (List.find?_eq_none.mp hf) x hx
    simp [hid] at this
  | some tt =>
    have := first_holds hf
    exact ⟨tt, rfl, first_mem hf, by simpa using this⟩

theorem cartQuantity_nonneg (items : List JSONMap)
    (h : ∀ item ∈ items, 0 ≤ decodeQuantity (item.get "quantity")) : 0 ≤ cartQuantity items := by
  unfold cartQuantity
  apply List.sum_nonneg
  intro x hx
  rw [List.mem_map] at hx
  obtain ⟨item, hi, rfl⟩ := hx
  exact h item hi

theorem issueItem_counts (env : SettleEnv) (event : Event) (tx : Transaction) (item : JSONMap)
    (st : Issue) (tt : TicketType)
    (hfound : first (fun t => t.id == assertString (item.get "ticket_type_id"))
      st.store.ticketTypes = some tt)
    (hq : 0 ≤ decodeQuantity (item.get "quantity"))
    (hrange : isInt (tt.sold + decodeQuantity (item.get "quantity")))
    (hins : ∀ k, (env.createTicket k).isSome = true) :
    (issueItem env event tx item st).store.ticketTypes =
      save TicketType.id { tt with sold := tt.sold + decodeQuantity (item.get "quantity") }
        st.store.ticketTypes ∧
    ∃ new : List Ticket, (issueItem env event tx item st).tickets = st.tickets ++ new ∧
      (new.length : Int) = decodeQuantity (item.get "quantity") ∧
      ∀ t ∈ new, t.ticketTypeID = tt.id := by
  obtain ⟨new, hl, -, hlen, hall⟩ :=
    issueUnits_all env event tx tt (decodeQuantity (item.get "quantity")).toNat st
      (fun k _ _ => hins k)
  refine ⟨?_, new, ?_, ?_, fun t ht => (hall t ht).1⟩
  · simp only [issueItem, hfound, Option.getD_some, issueUnits_ticketTypes,
      wrapInt_of_isInt hrange]
  · simp only [issueItem, hfound, Option.getD_some]
    exact hl
  · rw [hlen]
    exact Int.toNat_of_nonneg hq

theorem issueItems_counts (env : SettleEnv) (event : Event) (tx : Transaction)
    (hins : ∀ k, (env.createTicket k).isSome = true) (items : List JSONMap) (st : Issue)
    (hnd : (st.store.ticketTypes.map TicketType.id).Nodup)
    (hitems : ∀ item ∈ items, 0 ≤ decodeQuantity (item.get "quantity") ∧
      assertString (item.get "ticket_type_id") ∈ st.store.ticketTypes.map TicketType.id)
    (hrange : ∀ tt ∈ st.store.ticketTypes,
      minInt ≤ tt.sold ∧ tt.sold + cartQuantity items ≤ maxInt) :
    (issueItems env event tx items st).store.ticketTypes.map TicketType.id =
      st.store.ticketTypes.map TicketType.id ∧
    ∃ new : List Ticket, (issueItems env event tx items st).tickets = st.tickets ++ new ∧
      ∀ tt ∈ st.store.ticketTypes,
        ∃ tt1 ∈ (issueItems env event tx items st).store.ticketTypes,
          tt1.id = tt.id ∧ tt1.sold = tt.sold + (issuedOf tt.id new : Int) := by
  induction items generalizing st with
  | nil =>
    refine ⟨rfl, [], by simp [issueItems], ?_⟩
    intro tt htt
    exact ⟨tt, htt, rfl, by simp [issuedOf]⟩
  | cons item rest ih =>
    obtain ⟨hq, hid⟩ := hitems item (List.mem_cons_self _ _)
    obtain ⟨tt, hfound, hmem, hkey⟩ := first_of_mem_key hid
    have hrest : 0 ≤ cartQuantity rest :=
      cartQuantity_nonneg rest (fun i hi => (hitems i (List.mem_cons_of_mem _ hi)).1)
    have hsum : cartQuantity (item :: rest) =
        decodeQuantity (item.get "quantity") + cartQuantity rest := by
      simp [cartQuantity]
    have hr := hrange tt hmem
    rw [hsum] at hr
    have hin : isInt (tt.sold + decodeQuantity (item.get "quantity")) := by
      unfold isInt
      constructor <;> omega
    obtain ⟨htypes, new1, hl1, hlen1, hall1⟩ :=
      issueItem_counts env event tx item st tt hfound hq hin hins
    have hmap : (issueItem env event tx item st).store.ticketTypes.map TicketType.id =
        st.store.ticketTypes.map TicketType.id := by
      rw [htypes, map_key_save]
    obtain ⟨hmap2, new2, hl2, hcount2⟩ := ih (issueItem env event tx item st)
      (by rw [hmap]; exact hnd)
      (fun i hi => by
        rw [hmap]
        exact hitems i (List.mem_cons_of_mem _ hi))
      (by
        intro x hx
        rw [htypes] at hx
        rcases mem_save hx with rfl | hxm
        · simp only
          constructor <;> omega
        · have := hrange x hxm
          rw [hsum] at this
          constructor <;> omega)
    refine ⟨hmap2.trans hmap, new1 ++ new2, ?_, ?_⟩
    · show (issueItems env event tx rest (issueItem env event tx item st)).tickets = _
      rw [hl2, hl1, List.append_assoc]
    · intro y hy
      have hx : (if y.id = tt.id then
            { tt with sold := tt.sold + decodeQuantity (item.get "quantity") } else y) ∈
          (issueItem env event tx item st).store.ticketTypes := by
        rw [htypes]
        unfold save
        exact List.mem_map_of_mem _ hy
      obtain ⟨x1, hx1, hid1, hsold1⟩ := hcount2 _ hx
      refine ⟨x1, hx1, ?_, ?_⟩
      · rw [hid1]
        by_cases hk : y.id = tt.id
        · simp [hk]
        · simp [hk]
      · rw [hsold1]
        unfold issuedOf
        rw [List.countP_append]
        by_cases hk : y.id = tt.id
        · have hyt : y = tt := eq_of_key_eq hnd hy hmem hk
          subst hyt
          have hc : List.countP (fun t => t.ticketTypeID == y.id) new1 = new1.length := by
            rw [List.countP_eq_length]
            intro t ht
            simp [hall1 t ht]
          simp only [if_true, hc]
          push_cast
          rw [hlen1]
          ring
        · have hc : List.countP (fun t => t.ticketTypeID == y.id) new1 = 0 := by
            rw [List.countP_eq_zero]
            intro t ht
            simp only [beq_iff_eq, hall1 t ht]
            exact fun h => hk h.symm
          simp only [hk, if_false, hc]
          push_cast
          ring
/-- C26 (amended). A settlement in which every ticket insert succeeds, whose
line items carry non-negative quantities of stored ticket types (the ticket
types having distinct ids and sold counters that stay within the range of
`int`): for every ticket type, the increase of its sold counter equals the
number of tickets of that type the call created. -/
theorem sold_matches_issued (s : Store) (env : SettleEnv) (reference : String)
    (ts : List Ticket) (v : PaystackVerifyResponse)
    (h : (VerifyPayment s env reference).2 = .verified ts)
    (hx : VerifyTransaction env.exchange = .ok v)
    (hnd : (s.ticketTypes.map TicketType.id).Nodup)
    (hins : ∀ k, (env.createTicket k).isSome = true)
    (hitems : ∀ item ∈ cartItems v.metadata, 0 ≤ decodeQuantity (item.get "quantity") ∧
      assertString (item.get "ticket_type_id") ∈ s.ticketTypes.map TicketType.id)
    (hrange : ∀ tt ∈ s.ticketTypes,
      minInt ≤ tt.sold ∧ tt.sold + cartQuantity (cartItems v.metadata) ≤ maxInt) :
    ∀ tt ∈ s.ticketTypes, ∃ tt1 ∈ (VerifyPayment s env reference).1.ticketTypes,
      tt1.id = tt.id ∧ tt1.sold - tt.sold = (issuedOf tt.id ts : Int) := by
  obtain ⟨tx, v1, -, -, -, hx1, -, heq⟩ := VerifyPayment_verified s env reference ts h
  rw [hx] at hx1
  cases hx1
  rw [heq] at h ⊢
  simp only [settleVerified, SettleResponse.verified.injEq] at h
  obtain ⟨-, new, hl, hcount⟩ := issueItems_counts env
    ((first (fun e => e.id == assertString (v.metadata.get "event_id")) s.events).getD Event.zero)
    tx hins (cartItems v.metadata) { store := s, tickets := [], attempts := 0 } hnd hitems hrange
  rw [hl, List.nil_append] at h
  subst h
  intro tt htt
  obtain ⟨tt1, hmem, hid, hsold⟩ := hcount tt htt
  exact ⟨tt1, hmem, hid, by rw [hsold]; ring⟩

theorem sold_matches_issued_witness :
    ((VerifyPayment (exStore [exOrderA .pending] [exBalance]) exPaidA
        "TXN-c1a2b3c4-1730000000").2 =
      .verified [newTicket exPaidA exEvent (exOrderA .pending) exTicketType 0
        "a1b2c3d4-0000-4000-8000-000000000a09" "TKT-a1b2c3d4"] ∧
      VerifyTransaction exPaidA.exchange = .ok (exConfirmation (exOrderA .pending).id 1) ∧
      ((exStore [exOrderA .pending] [exBalance]).ticketTypes.map TicketType.id).Nodup ∧
      (∀ k, (exPaidA.createTicket k).isSome = true) ∧
      (∀ item ∈ cartItems (exConfirmation (exOrderA .pending).id 1).metadata,
        0 ≤ decodeQuantity (item.get "quantity") ∧
        assertString (item.get "ticket_type_id") ∈
          (exStore [exOrderA .pending] [exBalance]).ticketTypes.map TicketType.id) ∧
      (∀ tt ∈ (exStore [exOrderA .pending] [exBalance]).ticketTypes,
        minInt ≤ tt.sold ∧
        tt.sold + cartQuantity (cartItems (exConfirmation (exOrderA .pending).id 1).metadata)
          ≤ maxInt)) ∧
    ∀ tt ∈ (exStore [exOrderA .pending] [exBalance]).ticketTypes,
      ∃ tt1 ∈ (VerifyPayment (exStore [exOrderA .pending] [exBalance]) exPaidA
          "TXN-c1a2b3c4-1730000000").1.ticketTypes,
        tt1.id = tt.id ∧ tt1.sold - tt.sold =
          (issuedOf tt.id [newTicket exPaidA exEvent (exOrderA .pending) exTicketType 0
            "a1b2c3d4-0000-4000-8000-000000000a09" "TKT-a1b2c3d4"] : Int) :=
  ⟨⟨rfl, rfl, by decide, fun _ => rfl, by decide!, by decide!⟩,
    sold_matches_issued (exStore [exOrderA .pending] [exBalance]) exPaidA
      "TXN-c1a2b3c4-1730000000" _ (exConfirmation (exOrderA .pending).id 1) rfl rfl (by decide)
      (fun _ => rfl) (by decide!) (by decide!)⟩

/-- C26. A settlement of one unit in which the ticket insert fails: no ticket is
created, and the sold counter of the ticket type still goes from 0 to 1. -/
theorem sold_counts_failed_inserts :
    (exStore [exOrderA .pending] [exBalance]).ticketTypes.map (fun t => t.sold) = [0] ∧
    (VerifyPayment (exStore [exOrderA .pending] [exBalance]) exPaidNoInsert
      "TXN-c1a2b3c4-1730000000").2.tickets = [] ∧
    (VerifyPayment (exStore [exOrderA .pending] [exBalance]) exPaidNoInsert
      "TXN-c1a2b3c4-1730000000").1.tickets = [] ∧
    (VerifyPayment (exStore [exOrderA .pending] [exBalance]) exPaidNoInsert
      "TXN-c1a2b3c4-1730000000").1.ticketTypes.map (fun t => t.sold) = [1] := by
  refine ⟨by decide, by decide!, by decide!, by decide!⟩

/-! ## Settlement when a ticket insert fails -/

/-- C27 (amended). A settlement of a transaction that is not completed, whose
gateway verification succeeds: whatever the ticket inserts answer (also when
they fail), the handler answers 200, the transaction is stored as completed,
and a later call for the reference answers with the stored tickets and writes
nothing, so it does not create the missing tickets. -/
theorem settle_completes_despite_failures (s : Store) (env : SettleEnv) (reference : String)
    (tx : Transaction) (v : PaystackVerifyResponse) (href : reference ≠ "")
    (hfind : first (fun t => t.paymentReference == reference) s.transactions = some tx)
    (hopen : tx.status ≠ .completed) (hx : VerifyTransaction env.exchange = .ok v)
    (hs : IsTransactionSuccessful v = true) :
    (VerifyPayment s env reference).2.code = 200 ∧
    first (fun t => t.paymentReference == reference)
        (VerifyPayment s env reference).1.transactions =
      some { tx with status := .completed } ∧
    ∀ env2 : SettleEnv,
      VerifyPayment (VerifyPayment s env reference).1 env2 reference =
        ((VerifyPayment s env reference).1,
          .alreadyVerified ((VerifyPayment s env reference).1.tickets.filter
            fun t => t.transactionID == tx.id)) := by
  rw [VerifyPayment_success s env reference tx v href hfind hopen hx hs]
  obtain ⟨st, -, hresp, -, htx⟩ := settleVerified_response s env tx v
  have hP := first_holds hfind
  have hfirst : first (fun t => t.paymentReference == reference)
      (settleVerified s env tx v).1.transactions = some { tx with status := .completed } := by
    rw [htx]
    exact first_save_of Transaction.id (fun t => t.paymentReference == reference)
      { tx with status := .completed } tx s.transactions hfind rfl hP
  refine ⟨by rw [hresp]; rfl, hfirst, ?_⟩
  intro env2
  rw [VerifyPayment_found _ env2 reference _ href hfirst, if_pos rfl]

theorem settle_completes_despite_failures_witness :
    ("TXN-c1a2b3c4-1730000000" ≠ "" ∧
      first (fun t => t.paymentReference == "TXN-c1a2b3c4-1730000000")
        (exStore [exOrderA .pending] [exBalance]).transactions = some (exOrderA .pending) ∧
      (exOrderA .pending).status ≠ .completed ∧
      VerifyTransaction exPaidNoInsert.exchange = .ok (exConfirmation (exOrderA .pending).id 1) ∧
      IsTransactionSuccessful (exConfirmation (exOrderA .pending).id 1) = true) ∧
    first (fun t => t.paymentReference == "TXN-c1a2b3c4-1730000000")
        (VerifyPayment (exStore [exOrderA .pending] [exBalance]) exPaidNoInsert
          "TXN-c1a2b3c4-1730000000").1.transactions =
      some { exOrderA .pending with status := .completed } :=
  ⟨⟨by decide, by decide!, by decide, rfl, by decide⟩,
    (settle_completes_despite_failures (exStore [exOrderA .pending] [exBalance]) exPaidNoInsert
      "TXN-c1a2b3c4-1730000000" (exOrderA .pending) (exConfirmation (exOrderA .pending).id 1)
      (by decide) (by decide!) (by decide) rfl (by decide)).2.1⟩

/-- C27. A settlement of a pending transaction whose gateway verification
succeeds and whose ticket insert fails: the handler answers 200 with no ticket,
the transaction is completed and the organizer is credited; a retry in which
the insert would succeed answers that the payment is already verified and
creates no ticket. -/
theorem settle_failure_not_pending :
    (exStore [exOrderA .pending] [exBalance]).transactions.map (fun t => t.status) =
      [.pending] ∧
    (VerifyPayment (exStore [exOrderA .pending] [exBalance]) exPaidNoInsert
      "TXN-c1a2b3c4-1730000000").2.code = 200 ∧
    (VerifyPayment (exStore [exOrderA .pending] [exBalance]) exPaidNoInsert
      "TXN-c1a2b3c4-1730000000").1.transactions.map (fun t => t.status) = [.completed] ∧
    (VerifyPayment (exStore [exOrderA .pending] [exBalance]) exPaidNoInsert
      "TXN-c1a2b3c4-1730000000").1.balances.map (fun b => b.availableBalance) = [4750] ∧
    (VerifyPayment
      (VerifyPayment (exStore [exOrderA .pending] [exBalance]) exPaidNoInsert
        "TXN-c1a2b3c4-1730000000").1 exPaidA "TXN-c1a2b3c4-1730000000").2.tickets = [] ∧
    (VerifyPayment
      (VerifyPayment (exStore [exOrderA .pending] [exBalance]) exPaidNoInsert
        "TXN-c1a2b3c4-1730000000").1 exPaidA "TXN-c1a2b3c4-1730000000").1.tickets = [] := by
  refine ⟨by decide, by decide!, by decide!, by decide!, by decide!, by decide!⟩

/-! ## The pending balance and the open requests -/

/-- From zero balances, after an order is paid and 1000 is requested, a
rejecting review whose save of the request fails leaves the request pending
with its amount of 1000 while the pending balance of the organizer is back at
0. -/
theorem pending_below_open_requests :
    (exStore [] [exBalance]).fresh ∧
    validRun (exStore [] [exBalance]) (exRunRejected.take 4) = true ∧
    (runCalls (exStore [] [exBalance]) (exRunRejected.take 4)).withdrawals.map
        (fun w => (w.organizerID, w.status, w.amount)) = [(exOrganizer, .pending, 1000)] ∧
    (runCalls (exStore [] [exBalance]) (exRunRejected.take 4)).balances.map
        (fun b => (b.organizerID, b.pendingBalance,
          openAmount b.organizerID
            (runCalls (exStore [] [exBalance]) (exRunRejected.take 4)).withdrawals)) =
      [(exOrganizer, 0, 1000)] := by
  refine ⟨⟨rfl, by decide!, by decide!⟩, by decide!, by decide!, by decide!⟩

/-! ## The amounts and bank details of a withdrawal request -/

theorem map_frozenPart_save (ws : List WithdrawalRequest) (w w1 : WithdrawalRequest)
    (hnd : (ws.map WithdrawalRequest.id).Nodup) (hmem : w ∈ ws) (hid : w1.id = w.id)
    (hfrozen : frozenPart w1 = frozenPart w) :
    (save WithdrawalRequest.id w1 ws).map frozenPart = ws.map frozenPart := by
  apply map_save_of_eq
  intro x hx hk
  have : x = w := eq_of_key_eq hnd hx hmem (hk.trans hid)
  rw [this, hfrozen]

/-- One handler call leaves the amounts and bank details of every stored
withdrawal request as they are; it may append a new request. -/
theorem Call.run_frozen (s : Store) (c : Call)
    (hnd : (s.withdrawals.map WithdrawalRequest.id).Nodup) :
    ∃ rest, (c.run s).withdrawals.map frozenPart = s.withdrawals.map frozenPart ++ rest := by
  cases c with
  | purchase env attendeeID req =>
    have h := (InitiateTicketPurchase_tables s env attendeeID req).2.1
    exact ⟨[], by simp only [Call.run]; rw [h, List.append_nil]⟩
  | settle env reference =>
    have h := (VerifyPayment_tables s env reference).1
    exact ⟨[], by simp only [Call.run]; rw [h, List.append_nil]⟩
  | openBalance organizerID newID =>
    have h := (GetOrganizerBalance_tables s organizerID newID).1
    exact ⟨[], by simp only [Call.run]; rw [h, List.append_nil]⟩
  | updateSettings userID req saved =>
    have h := (UpdatePlatformSettings_tables s userID req saved).1
    exact ⟨[], by simp only [Call.run]; rw [h, List.append_nil]⟩
  | requestWithdrawal organizerID req newID =>
    simp only [Call.run]
    rcases RequestWithdrawal_cases s organizerID req newID with
      ⟨h, -, -⟩ | ⟨settings, balance, id, -, -, -, -, -, -, heq⟩
    · rw [h]
      exact ⟨[], by rw [List.append_nil]⟩
    · rw [heq]
      exact ⟨[frozenPart (requestedWithdrawal organizerID req settings id)], by
        simp only [List.map_append, List.map_cons, List.map_nil]⟩
  | review requestID userID action comment now saved =>
    simp only [Call.run]
    rcases ReviewWithdrawalRequest_cases s requestID userID action comment now saved with
      h | ⟨w, hfind, hpending, haction⟩
    · rw [h]
      exact ⟨[], by rw [List.append_nil]⟩
    · rw [ReviewWithdrawalRequest_pending s requestID userID action comment now saved w hfind
        hpending haction]
      refine ⟨[], ?_⟩
      rw [List.append_nil]
      cases saved with
      | false => rfl
      | true =>
        simp only [if_true]
        exact map_frozenPart_save s.withdrawals w _ hnd (first_mem hfind) rfl rfl
  | process requestID transactionRef now saved =>
    simp only [Call.run]
    rcases ProcessWithdrawal_cases s requestID transactionRef now saved with
      h | ⟨w, hfind, happroved, href, rfl⟩
    · rw [h]
      exact ⟨[], by rw [List.append_nil]⟩
    · rw [ProcessWithdrawal_approved s requestID transactionRef now w hfind happroved href]
      refine ⟨[], ?_⟩
      rw [List.append_nil]
      exact map_frozenPart_save s.withdrawals w _ hnd (first_mem hfind) rfl rfl

theorem runCalls_frozen (s : Store) (calls : List Call)
    (hnd : (s.withdrawals.map WithdrawalRequest.id).Nodup) (hvalid : validRun s calls = true) :
    ∃ rest, (runCalls s calls).withdrawals.map frozenPart =
      s.withdrawals.map frozenPart ++ rest := by
  induction calls generalizing s with
  | nil => exact ⟨[], by simp [runCalls]⟩
  | cons c cs ih =>
    simp only [validRun, Bool.and_eq_true] at hvalid
    obtain ⟨r1, h1⟩ := Call.run_frozen s c hnd
    obtain ⟨r2, h2⟩ := ih (c.run s) (Call.run_rowMoves s c hnd hvalid.1).1 hvalid.2
    exact ⟨r1 ++ r2, by
      show (runCalls (c.run s) cs).withdrawals.map frozenPart = _
      rw [h2, h1, List.append_assoc]⟩

theorem reject_releases_stored (t : Store) (requestID : String) (w : WithdrawalRequest)
    (hfind : first (fun w => w.id == requestID) t.withdrawals = some w)
    (hpending : w.status = .pending) (settings : List PlatformSettings) (userID : UUID)
    (comment : String) (now : Time) (saved : Bool) :
    (ReviewWithdrawalRequest { t with settings := settings } requestID userID "reject" comment
      now saved).1.balances =
      writeBalance w.organizerID (fun b => released b w.amount) t.balances := by
  rw [(ReviewWithdrawalRequest_reject { t with settings := settings } requestID userID comment
    now saved w hfind hpending).1]

theorem process_pays_stored (t : Store) (requestID : String) (w : WithdrawalRequest)
    (hfind : first (fun w => w.id == requestID) t.withdrawals = some w)
    (happroved : w.status = .approved) (settings : List PlatformSettings)
    (transactionRef : String) (now : Time) (href : transactionRef ≠ "") :
    (ProcessWithdrawal { t with settings := settings } requestID transactionRef now
      true).1.balances =
      writeBalance w.organizerID (fun b => paidOut b w.amount w.netAmount) t.balances := by
  rw [ProcessWithdrawal_approved { t with settings := settings } requestID transactionRef now w
    hfind happroved href]
  rfl

/-- C21. Frozen withdrawal amounts: along every sequence of handler calls (with
distinct request ids, as the primary key gives them) every stored withdrawal
request keeps its id, organizer, amount, fee, net amount and bank details, the
table only growing by new requests; and in the state reached, whatever the
platform settings are by then, a rejecting review of a pending request returns
the amount stored on the request to the available balance, and the processing
of an approved request takes the stored amount out of the pending balance and
adds the stored net amount to the withdrawn amount. -/
theorem frozen_amounts (s : Store) (calls : List Call)
    (hnd : (s.withdrawals.map WithdrawalRequest.id).Nodup) (hvalid : validRun s calls = true) :
    (∃ rest, (runCalls s calls).withdrawals.map frozenPart =
      s.withdrawals.map frozenPart ++ rest) ∧
    ∀ (requestID : String) (w : WithdrawalRequest) (settings : List PlatformSettings),
      first (fun w => w.id == requestID) (runCalls s calls).withdrawals = some w →
      (w.status = .pending → ∀ (userID : UUID) (comment : String) (now : Time) (saved : Bool),
        (ReviewWithdrawalRequest { runCalls s calls with settings := settings } requestID userID
          "reject" comment now saved).1.balances =
          writeBalance w.organizerID (fun b => released b w.amount)
            (runCalls s calls).balances) ∧
      (w.status = .approved → ∀ (transactionRef : String) (now : Time), transactionRef ≠ "" →
        (ProcessWithdrawal { runCalls s calls with settings := settings } requestID
          transactionRef now true).1.balances =
          writeBalance w.organizerID (fun b => paidOut b w.amount w.netAmount)
            (runCalls s calls).balances) := by
  refine ⟨runCalls_frozen s calls hnd hvalid, ?_⟩
  intro requestID w settings hfind
  exact ⟨fun hp userID comment now saved =>
      reject_releases_stored _ requestID w hfind hp settings userID comment now saved,
    fun ha transactionRef now href =>
      process_pays_stored _ requestID w hfind ha settings transactionRef now href⟩
theorem frozen_amounts_witness :
    (((exLedger exSettings [reserved exBalanceThousand 1000]
        [exRequest .pending]).withdrawals.map WithdrawalRequest.id).Nodup ∧
      validRun (exLedger exSettings [reserved exBalanceThousand 1000] [exRequest .pending])
        exRunRepriced = true) ∧
    (∃ rest,
      (runCalls (exLedger exSettings [reserved exBalanceThousand 1000] [exRequest .pending])
        exRunRepriced).withdrawals.map frozenPart =
      (exLedger exSettings [reserved exBalanceThousand 1000]
        [exRequest .pending]).withdrawals.map frozenPart ++ rest) ∧
    (runCalls (exLedger exSettings [reserved exBalanceThousand 1000] [exRequest .pending])
      exRunRepriced).settings.map (fun p => p.withdrawalFeePercentage) = [50] ∧
    (runCalls (exLedger exSettings [reserved exBalanceThousand 1000] [exRequest .pending])
      exRunRepriced).withdrawals.map (fun w => (w.status, w.amount, w.withdrawalFee, w.netAmount))
        = [(.processed, 1000, 25, 975)] ∧
    (runCalls (exLedger exSettings [reserved exBalanceThousand 1000] [exRequest .pending])
      exRunRepriced).balances.map (fun b => (b.pendingBalance, b.withdrawnAmount)) =
        [(0, 975)] :=
  ⟨⟨by decide, by decide!⟩,
    (frozen_amounts (exLedger exSettings [reserved exBalanceThousand 1000] [exRequest .pending])
      exRunRepriced (by decide) (by decide!)).1,
    by decide!, by decide!, by decide!⟩

/-! ## The two schedules of two settlement calls -/

/-- `VerifyPayment` is the read of the transaction followed by the rest of the
handler on the same database. -/
theorem VerifyPayment_read (s : Store) (env : SettleEnv) (reference : String) :
    VerifyPayment s env reference =
      match readTransaction s reference with
      | .error response => (s, response)
      | .ok transaction => settleRead s env transaction := by
  unfold VerifyPayment readTransaction settleRead
  by_cases href : reference = ""
  · simp only [href, if_true]
  · simp only [href, if_false]
    cases first (fun t => t.paymentReference == reference) s.transactions with
    | none => rfl
    | some tx => rfl

theorem settleVerified_again (s : Store) (env env2 : SettleEnv) (reference : String)
    (tx : Transaction) (v : PaystackVerifyResponse) (href : reference ≠ "")
    (hfind : first (fun t => t.paymentReference == reference) s.transactions = some tx) :
    VerifyPayment (settleVerified s env tx v).1 env2 reference =
      ((settleVerified s env tx v).1,
        .alreadyVerified ((settleVerified s env tx v).1.tickets.filter
          fun t => t.transactionID == tx.id)) := by
  obtain ⟨st, -, -, -, htx⟩ := settleVerified_response s env tx v
  have hP := first_holds hfind
  have hfirst : first (fun t => t.paymentReference == reference)
      (settleVerified s env tx v).1.transactions = some { tx with status := .completed } := by
    rw [htx]
    exact first_save_of Transaction.id (fun t => t.paymentReference == reference)
      { tx with status := .completed } tx s.transactions hfind rfl hP
  rw [VerifyPayment_found _ env2 reference _ href hfirst, if_pos rfl]

/-- C22 (amended). Two settlement calls for one reference of which the second
starts after the first has returned, the first being the one that issues
tickets: the second answers that the payment is already verified, with the
tickets stored for the transaction, and writes nothing, so the database after
both is the one after the first, with one batch of tickets and the organizer
balance credited once with the net amount. -/
theorem settle_once_in_turn (s : Store) (env1 env2 : SettleEnv) (reference : String)
    (ts : List Ticket) (h : (settleInTurn s env1 env2 reference).2.1 = .verified ts) :
    ∃ tx organizerID,
      first (fun t => t.paymentReference == reference) s.transactions = some tx ∧
      (settleInTurn s env1 env2 reference).2.2 =
        .alreadyVerified ((VerifyPayment s env1 reference).1.tickets.filter
          fun t => t.transactionID == tx.id) ∧
      (settleInTurn s env1 env2 reference).1 = (VerifyPayment s env1 reference).1 ∧
      (settleInTurn s env1 env2 reference).1.tickets = s.tickets ++ ts ∧
      (settleInTurn s env1 env2 reference).1.balances =
        creditOrganizer organizerID tx.netAmount s.balances := by
  have h1 : (VerifyPayment s env1 reference).2 = .verified ts := h
  obtain ⟨tx, v, href, hfind, -, -, -, heq⟩ := VerifyPayment_verified s env1 reference ts h1
  have hagain := settleVerified_again s env1 env2 reference tx v href hfind
  refine ⟨tx,
    ((first (fun e => e.id == assertString (v.metadata.get "event_id")) s.events).getD
      Event.zero).organizerID, hfind, ?_, ?_, ?_, ?_⟩
  · show (VerifyPayment (VerifyPayment s env1 reference).1 env2 reference).2 = _
    rw [heq, hagain]
  · show (VerifyPayment (VerifyPayment s env1 reference).1 env2 reference).1 = _
    rw [heq, hagain]
  · obtain ⟨st, hgrow, hresp, htickets, -⟩ := settleVerified_response s env1 tx v
    obtain ⟨-, -, -, -, -, new, hnew, hl, -⟩ := hgrow
    rw [heq, hresp] at h1
    simp only [SettleResponse.verified.injEq] at h1
    rw [hl, List.nil_append] at h1
    subst h1
    show (VerifyPayment (VerifyPayment s env1 reference).1 env2 reference).1.tickets = _
    rw [heq, hagain, htickets, hnew]
  · show (VerifyPayment (VerifyPayment s env1 reference).1 env2 reference).1.balances = _
    rw [heq, hagain]
    exact settleVerified_balances s env1 tx v

theorem settle_once_in_turn_witness :
    (settleInTurn (exStore [exOrderA .pending] [exBalance]) exPaidA exPaidAgain
        "TXN-c1a2b3c4-1730000000").2.1 =
      .verified [newTicket exPaidA exEvent (exOrderA .pending) exTicketType 0
        "a1b2c3d4-0000-4000-8000-000000000a09" "TKT-a1b2c3d4"] ∧
    (∃ tx organizerID,
      first (fun t => t.paymentReference == "TXN-c1a2b3c4-1730000000")
        (exStore [exOrderA .pending] [exBalance]).transactions = some tx ∧
      (settleInTurn (exStore [exOrderA .pending] [exBalance]) exPaidA exPaidAgain
          "TXN-c1a2b3c4-1730000000").2.2 =
        .alreadyVerified ((VerifyPayment (exStore [exOrderA .pending] [exBalance]) exPaidA
          "TXN-c1a2b3c4-1730000000").1.tickets.filter fun t => t.transactionID == tx.id) ∧
      (settleInTurn (exStore [exOrderA .pending] [exBalance]) exPaidA exPaidAgain
          "TXN-c1a2b3c4-1730000000").1 =
        (VerifyPayment (exStore [exOrderA .pending] [exBalance]) exPaidA
          "TXN-c1a2b3c4-1730000000").1 ∧
      (settleInTurn (exStore [exOrderA .pending] [exBalance]) exPaidA exPaidAgain
          "TXN-c1a2b3c4-1730000000").1.tickets =
        (exStore [exOrderA .pending] [exBalance]).tickets ++
          [newTicket exPaidA exEvent (exOrderA .pending) exTicketType 0
            "a1b2c3d4-0000-4000-8000-000000000a09" "TKT-a1b2c3d4"] ∧
      (settleInTurn (exStore [exOrderA .pending] [exBalance]) exPaidA exPaidAgain
          "TXN-c1a2b3c4-1730000000").1.balances =
        creditOrganizer organizerID tx.netAmount
          (exStore [exOrderA .pending] [exBalance]).balances) ∧
    (settleInTurn (exStore [exOrderA .pending] [exBalance]) exPaidA exPaidAgain
      "TXN-c1a2b3c4-1730000000").1.balances.map (fun b => b.totalEarnings) = [4750] :=
  ⟨rfl,
    settle_once_in_turn (exStore [exOrderA .pending] [exBalance]) exPaidA exPaidAgain
      "TXN-c1a2b3c4-1730000000" _ rfl,
    by decide!⟩

/-- C22. Two settlement calls for the reference of a pending order both read
the transaction before either writes: both find it pending, both answer 200
with a ticket of their own, the table holds two tickets for the one unit
bought, the sold counter is 2 and the organizer is credited twice, 9500 for a
net amount of 4750. -/
theorem settle_twice_when_overlapped :
    (settleOverlapped (exStore [exOrderA .pending] [exBalance]) exPaidA exPaidAgain
      "TXN-c1a2b3c4-1730000000").2.1.tickets.map (fun t => t.id) =
        ["a1b2c3d4-0000-4000-8000-000000000a09"] ∧
    (settleOverlapped (exStore [exOrderA .pending] [exBalance]) exPaidA exPaidAgain
      "TXN-c1a2b3c4-1730000000").2.2.tickets.map (fun t => t.id) =
        ["b2c3d4e5-0000-4000-8000-000000000b0a"] ∧
    (settleOverlapped (exStore [exOrderA .pending] [exBalance]) exPaidA exPaidAgain
      "TXN-c1a2b3c4-1730000000").2.1.code = 200 ∧
    (settleOverlapped (exStore [exOrderA .pending] [exBalance]) exPaidA exPaidAgain
      "TXN-c1a2b3c4-1730000000").2.2.code = 200 ∧
    (settleOverlapped (exStore [exOrderA .pending] [exBalance]) exPaidA exPaidAgain
      "TXN-c1a2b3c4-1730000000").1.tickets.length = 2 ∧
    (settleOverlapped (exStore [exOrderA .pending] [exBalance]) exPaidA exPaidAgain
      "TXN-c1a2b3c4-1730000000").1.ticketTypes.map (fun t => t.sold) = [2] ∧
    (settleOverlapped (exStore [exOrderA .pending] [exBalance]) exPaidA exPaidAgain
      "TXN-c1a2b3c4-1730000000").1.balances.map
        (fun b => (b.totalEarnings, b.availableBalance)) = [(9500, 9500)] ∧
    (exOrderA .pending).netAmount = 4750 := by
  refine ⟨by decide!, by decide!, by decide!, by decide!, by decide!, by decide!, by decide!,
    by decide!⟩

/-! ## The statuses of an event -/

theorem saved_event_status {s : Store} {event1 : Event}
    (h : ∀ e ∈ s.events, e.status ≠ .approved) (h1 : event1.status ≠ .approved) :
    ∀ e ∈ save Event.id event1 s.events, e.status ≠ .approved := by
  intro e he
  rcases mem_save he with rfl | hmem
  · exact h1
  · exact h e hmem

theorem CreateEvent_no_approved (s : Store) (organizerID : UUID) (req : EventForm)
    (newID : Option UUID) (h : ∀ e ∈ s.events, e.status ≠ .approved) :
    ∀ e ∈ (CreateEvent s organizerID req newID).1.events, e.status ≠ .approved := by
  unfold CreateEvent
  split
  · exact h
  · split
    · exact h
    · cases newID with
      | none => exact h
      | some id =>
        intro e he
        rcases List.mem_append.mp he with hm | hm
        · exact h e hm
        · simp only [List.mem_singleton] at hm
          subst hm
          simp

theorem UpdateEvent_no_approved (s : Store) (eventID : String) (organizerID : UUID)
    (req : EventForm) (saved : Bool) (h : ∀ e ∈ s.events, e.status ≠ .approved) :
    ∀ e ∈ (UpdateEvent s eventID organizerID req saved).1.events, e.status ≠ .approved := by
  unfold UpdateEvent
  cases hf : first (fun e => e.id == eventID && e.organizerID == organizerID) s.events with
  | none => exact h
  | some event =>
    simp only []
    split
    · exact h
    · split
      · exact h
      · cases saved with
        | false => exact h
        | true => exact saved_event_status h (h event (first_mem hf))

theorem SubmitEventForReview_no_approved (s : Store) (eventID : String) (organizerID : UUID)
    (saved : Bool) (h : ∀ e ∈ s.events, e.status ≠ .approved) :
    ∀ e ∈ (SubmitEventForReview s eventID organizerID saved).1.events,
      e.status ≠ .approved := by
  unfold SubmitEventForReview
  cases hf : first (fun e => e.id == eventID && e.organizerID == organizerID) s.events with
  | none => exact h
  | some event =>
    simp only []
    split
    · exact h
    · split
      · exact h
      · cases saved with
        | false => exact h
        | true => exact saved_event_status h (by simp)

theorem ReviewEvent_no_approved (s : Store) (eventID : String) (action : String)
    (saved : Bool) (h : ∀ e ∈ s.events, e.status ≠ .approved) :
    ∀ e ∈ (ReviewEvent s eventID action saved).1.events, e.status ≠ .approved := by
  unfold ReviewEvent
  split
  · exact h
  · cases hf : first (fun e => e.id == eventID) s.events with
    | none => exact h
    | some event =>
      simp only []
      split
      · exact h
      · split
        · cases saved with
          | false => exact h
          | true => exact saved_event_status h (by simp)
        · split
          · cases saved with
            | false => exact h
            | true => exact saved_event_status h (by simp)
          · exact h

/-- With no approved event in the table, `PublishEvent` writes nothing and
answers 404 when the event is not one of the caller and 400 otherwise. -/
theorem PublishEvent_refused (s : Store) (eventID : String) (organizerID : UUID) (saved : Bool)
    (h : ∀ e ∈ s.events, e.status ≠ .approved) :
    (PublishEvent s eventID organizerID saved).1 = s ∧
    (PublishEvent s eventID organizerID saved).2 =
      if (first (fun e => e.id == eventID && e.organizerID == organizerID) s.events).isSome
      then .failed 400 "Only approved events can be published"
      else .failed 404 "Event not found" := by
  unfold PublishEvent
  cases hf : first (fun e => e.id == eventID && e.organizerID == organizerID) s.events with
  | none => exact ⟨rfl, rfl⟩
  | some event =>
    have hne := h event (first_mem hf)
    simp only [hne, ne_eq, not_false_eq_true, if_true, Option.isSome_some]
    exact ⟨trivial, trivial⟩

theorem EventCall.run_no_approved (s : Store) (c : EventCall)
    (h : ∀ e ∈ s.events, e.status ≠ .approved) :
    ∀ e ∈ (c.run s).events, e.status ≠ .approved := by
  cases c with
  | create organizerID req newID => exact CreateEvent_no_approved s organizerID req newID h
  | update eventID organizerID req saved =>
    exact UpdateEvent_no_approved s eventID organizerID req saved h
  | submit eventID organizerID saved =>
    exact SubmitEventForReview_no_approved s eventID organizerID saved h
  | review eventID action saved => exact ReviewEvent_no_approved s eventID action saved h
  | publish eventID organizerID saved =>
    simp only [EventCall.run]
    rw [(PublishEvent_refused s eventID organizerID saved h).1]
    exact h

theorem runEventCalls_no_approved (s : Store) (calls : List EventCall)
    (h : ∀ e ∈ s.events, e.status ≠ .approved) :
    ∀ e ∈ (runEventCalls s calls).events, e.status ≠ .approved := by
  induction calls generalizing s with
  | nil => exact h
  | cons c cs ih => exact ih (c.run s) (EventCall.run_no_approved s c h)

theorem CreateEvent_pending (s : Store) (organizerID : UUID) (req : EventForm)
    (newID : Option UUID) (e : Event) (h : (CreateEvent s organizerID req newID).2 = .created e) :
    e.status = .pending := by
  unfold CreateEvent at h
  split at h
  · cases h
  · split at h
    · cases h
    · cases newID with
      | none => cases h
      | some id =>
        simp only [EventResponse.created.injEq] at h
        subst h
        rfl

theorem ReviewEvent_approve (s : Store) (eventID : String) (saved : Bool) (e : Event)
    (h : (ReviewEvent s eventID "approve" saved).2 = .ok e) : e.status = .published := by
  unfold ReviewEvent at h
  split at h
  · cases h
  · cases hf : first (fun e => e.id == eventID) s.events with
    | none => rw [hf] at h; cases h
    | some event =>
      rw [hf] at h
      simp only [] at h
      split at h
      · cases h
      · simp only [if_true] at h
        cases saved with
        | false => cases h
        | true =>
          simp only [Bool.not_true, Bool.false_eq_true, if_false,
            EventResponse.ok.injEq] at h
          subst h
          rfl

/-- C30 (amended). From a table without an approved event, no sequence of
`CreateEvent`, `UpdateEvent`, `SubmitEventForReview`, `ReviewEvent` and
`PublishEvent` calls stores an event with status approved: `CreateEvent`
creates events as pending and an approving review stores published. Hence
every `PublishEvent` call writes nothing and fails: with 400 and the text
that only approved events can be published when the event is one of the
caller, and with 404, event not found, otherwise. -/
theorem approved_unreachable (s : Store) (calls : List EventCall)
    (h0 : ∀ e ∈ s.events, e.status ≠ .approved) :
    (∀ e ∈ (runEventCalls s calls).events, e.status ≠ .approved) ∧
    (∀ organizerID req newID e,
      (CreateEvent (runEventCalls s calls) organizerID req newID).2 = .created e →
      e.status = .pending) ∧
    (∀ eventID saved e,
      (ReviewEvent (runEventCalls s calls) eventID "approve" saved).2 = .ok e →
      e.status = .published) ∧
    ∀ eventID organizerID saved,
      (PublishEvent (runEventCalls s calls) eventID organizerID saved).1 =
        runEventCalls s calls ∧
      (PublishEvent (runEventCalls s calls) eventID organizerID saved).2 =
        if (first (fun e => e.id == eventID && e.organizerID == organizerID)
          (runEventCalls s calls).events).isSome
        then .failed 400 "Only approved events can be published"
        else .failed 404 "Event not found" := by
  have h := runEventCalls_no_approved s calls h0
  exact ⟨h, fun organizerID req newID e he => CreateEvent_pending _ organizerID req newID e he,
    fun eventID saved e he => ReviewEvent_approve _ eventID saved e he,
    fun eventID organizerID saved => PublishEvent_refused _ eventID organizerID saved h⟩

theorem approved_unreachable_witness :
    (∀ e ∈ (exStore [] []).events, e.status ≠ .approved) ∧
    (∀ e ∈ (runEventCalls (exStore [] []) exEventRun).events, e.status ≠ .approved) ∧
    (runEventCalls (exStore [] []) exEventRun).events.map (fun e => (e.id, e.status)) =
      [(exEvent.id, .published), (exNewEventID, .published)] ∧
    (PublishEvent (runEventCalls (exStore [] []) (exEventRun.take 2)) exNewEventID exOrganizer
      true).2 = .failed 400 "Only approved events can be published" :=
  ⟨by decide, (approved_unreachable (exStore [] []) exEventRun (by decide)).1, by decide,
    by decide⟩

/-- C30. A `PublishEvent` call for an id that no event carries, and one by a
user who is not the organizer of the event, fail with 404 and the text that the
event is not found, not with the text that only approved events can be
published. -/
theorem publish_not_found :
    (PublishEvent (runEventCalls (exStore [] []) exEventRun)
      "00000000-0000-4000-8000-00000000ffff" exOrganizer true).2 =
        .failed 404 "Event not found" ∧
    (PublishEvent (runEventCalls (exStore [] []) exEventRun) exNewEventID exAttendee true).2 =
        .failed 404 "Event not found" ∧
    (PublishEvent (runEventCalls (exStore [] []) exEventRun) exNewEventID exOrganizer true).2 =
        .failed 400 "Only approved events can be published" := by
  decide

/-! ## The handlers on rounded amounts, when the arithmetic is exact -/

theorem VerifyPaymentOn_exact (s : Store) (env : SettleEnv) (reference : String) :
    VerifyPaymentOn Arith.exact true s env reference = VerifyPayment s env reference := rfl

theorem RequestWithdrawalOn_exact (s : Store) (organizerID : UUID) (req : WithdrawalForm)
    (newID : Option UUID) :
    RequestWithdrawalOn Arith.exact true s organizerID req newID =
      RequestWithdrawal s organizerID req newID := rfl

theorem ReviewWithdrawalRequestOn_exact (s : Store) (requestID : String) (userID : UUID)
    (action comment : String) (now : Time) (saved : Bool) :
    ReviewWithdrawalRequestOn Arith.exact true s requestID userID action comment now saved =
      ReviewWithdrawalRequest s requestID userID action comment now saved := rfl

theorem ProcessWithdrawalOn_exact (s : Store) (requestID : String) (transactionRef : String)
    (now : Time) (saved : Bool) :
    ProcessWithdrawalOn Arith.exact true s requestID transactionRef now saved =
      ProcessWithdrawal s requestID transactionRef now saved := rfl

/-- C14 (amended). Request and reject round trip: when the subtraction of the
amount from the available balance and its addition to the pending balance are
exact (as they always are over exact arithmetic, and in `float64` for 1000
against available 1000 and pending 0), the stored amounts being values of the
arithmetic and both balance saves succeeding, an accepted `RequestWithdrawal`
(whose request gets an id no stored request carries) followed by a rejecting
review of the created request leaves the balance row of the organizer as it
was before the request, in all four amounts, whether or not the reviewed
request is saved. With available 1000 and pending 0 the row goes to 0 and 1000
and back to 1000 and 0. -/
theorem request_reject_round_trip (a : Arith) (s : Store) (organizerID : UUID)
    (req : WithdrawalForm) (id : UUID) (b : OrganizerBalance) (userID : UUID)
    (comment : String) (now : Time) (saved : Bool)
    (hbal : first (fun b => b.organizerID == organizerID) s.balances = some b)
    (hfresh : first (fun w => w.id == id) s.withdrawals = none)
    (haccepted : (RequestWithdrawalOn a true s organizerID req (some id)).2.code = 201)
    (hstored : a.round b.availableBalance = b.availableBalance ∧
      a.round b.pendingBalance = b.pendingBalance)
    (hsub : a.round (b.availableBalance - req.amount) = b.availableBalance - req.amount)
    (hadd : a.round (b.pendingBalance + req.amount) = b.pendingBalance + req.amount) :
    first (fun b => b.organizerID == organizerID)
        (RequestWithdrawalOn a true s organizerID req (some id)).1.balances =
      some { b with
        availableBalance := b.availableBalance - req.amount,
        pendingBalance := b.pendingBalance + req.amount } ∧
    first (fun b => b.organizerID == organizerID)
        (ReviewWithdrawalRequestOn a true
          (RequestWithdrawalOn a true s organizerID req (some id)).1 id userID
          "reject" comment now saved).1.balances = some b := by
  have hp := first_holds hbal
  cases hset : first (fun _ => true) s.settings with
  | none =>
    unfold RequestWithdrawalOn at haccepted
    rw [hset] at haccepted
    split at haccepted <;> simp [WithdrawalResponse.code] at haccepted
  | some settings =>
    by_cases hb : (!bindWithdrawal req) = true
    · unfold RequestWithdrawalOn at haccepted
      rw [if_pos hb] at haccepted
      simp [WithdrawalResponse.code] at haccepted
    by_cases hmin : req.amount < settings.minWithdrawalAmount
    · unfold RequestWithdrawalOn at haccepted
      rw [if_neg hb, hset] at haccepted
      simp only [] at haccepted
      rw [if_pos hmin] at haccepted
      simp [WithdrawalResponse.code] at haccepted
    by_cases hav : b.availableBalance < req.amount
    · unfold RequestWithdrawalOn at haccepted
      rw [if_neg hb, hset] at haccepted
      simp only [] at haccepted
      rw [if_neg hmin, hbal] at haccepted
      simp only [] at haccepted
      rw [if_pos hav] at haccepted
      simp [WithdrawalResponse.code] at haccepted
    have hreq : RequestWithdrawalOn a true s organizerID req (some id) =
        ({ s with
            withdrawals := s.withdrawals ++
              [{ id := id, organizerID := organizerID, amount := req.amount,
                 withdrawalFee :=
                   a.round (req.amount * a.round (settings.withdrawalFeePercentage / 100)),
                 netAmount := a.round (req.amount -
                   a.round (req.amount * a.round (settings.withdrawalFeePercentage / 100))),
                 status := .pending, bankName := req.bankName,
                 accountNumber := req.accountNumber, accountName := req.accountName,
                 reviewedBy := none, reviewedAt := none, reviewComment := "",
                 processedAt := none, transactionRef := "" }],
            balances := save OrganizerBalance.id
              { b with
                availableBalance := b.availableBalance - req.amount,
                pendingBalance := b.pendingBalance + req.amount } s.balances },
          .created
            { id := id, organizerID := organizerID, amount := req.amount,
              withdrawalFee :=
                a.round (req.amount * a.round (settings.withdrawalFeePercentage / 100)),
              netAmount := a.round (req.amount -
                a.round (req.amount * a.round (settings.withdrawalFeePercentage / 100))),
              status := .pending, bankName := req.bankName,
              accountNumber := req.accountNumber, accountName := req.accountName,
              reviewedBy := none, reviewedAt := none, reviewComment := "",
              processedAt := none, transactionRef := "" }) := by
      unfold RequestWithdrawalOn
      rw [if_neg hb, hset]
      simp only []
      rw [if_neg hmin, hbal]
      simp only []
      rw [if_neg hav]
      simp only [if_true, hsub, hadd]
    rw [hreq]
    have h1 : first (fun b => b.organizerID == organizerID)
        (save OrganizerBalance.id
          { b with
            availableBalance := b.availableBalance - req.amount,
            pendingBalance := b.pendingBalance + req.amount } s.balances) =
          some { b with
            availableBalance := b.availableBalance - req.amount,
            pendingBalance := b.pendingBalance + req.amount } :=
      first_save_of OrganizerBalance.id (fun b => b.organizerID == organizerID)
        { b with
          availableBalance := b.availableBalance - req.amount,
          pendingBalance := b.pendingBalance + req.amount } b _ hbal rfl hp
    refine ⟨h1, ?_⟩
    have hfind : first (fun w => w.id == id)
        (s.withdrawals ++
          [({ id := id, organizerID := organizerID, amount := req.amount,
              withdrawalFee :=
                a.round (req.amount * a.round (settings.withdrawalFeePercentage / 100)),
              netAmount := a.round (req.amount -
                a.round (req.amount * a.round (settings.withdrawalFeePercentage / 100))),
              status := .pending, bankName := req.bankName,
              accountNumber := req.accountNumber, accountName := req.accountName,
              reviewedBy := none, reviewedAt := none, reviewComment := "",
              processedAt := none, transactionRef := "" } : WithdrawalRequest)]) =
        some { id := id, organizerID := organizerID, amount := req.amount,
               withdrawalFee :=
                 a.round (req.amount * a.round (settings.withdrawalFeePercentage / 100)),
               netAmount := a.round (req.amount -
                 a.round (req.amount * a.round (settings.withdrawalFeePercentage / 100))),
               status := .pending, bankName := req.bankName,
               accountNumber := req.accountNumber, accountName := req.accountName,
               reviewedBy := none, reviewedAt := none, reviewComment := "",
               processedAt := none, transactionRef := "" } := by
      unfold first at hfresh ⊢
      rw [List.find?_append, hfresh]
      simp
    have hact : ¬ (!("reject" == "approve" || "reject" == "reject")) = true := by decide
    have hne : ¬ (("reject" : String) == "approve") = true := by decide
    have hback1 : b.availableBalance - req.amount + req.amount = b.availableBalance := by ring
    have hback2 : b.pendingBalance + req.amount - req.amount = b.pendingBalance := by ring
    unfold ReviewWithdrawalRequestOn
    rw [if_neg hact]
    simp only [hfind, ne_eq, not_true_eq_false, if_false, hne, h1, Bool.not_true,
      Bool.false_eq_true, hback1, hback2, hstored.1, hstored.2]
    have h3 := first_save_of OrganizerBalance.id (fun b => b.organizerID == organizerID) b
      { b with
        availableBalance := b.availableBalance - req.amount,
        pendingBalance := b.pendingBalance + req.amount }
      (save OrganizerBalance.id
        { b with
          availableBalance := b.availableBalance - req.amount,
          pendingBalance := b.pendingBalance + req.amount } s.balances) h1 rfl hp
    cases saved with
    | false => simpa using h3
    | true => simpa using h3
theorem request_reject_round_trip_witness :
    (first (fun b => b.organizerID == exOrganizer)
        (exLedger exSettings [exBalanceThousand] []).balances = some exBalanceThousand ∧
      first (fun w => w.id == exRequestID)
        (exLedger exSettings [exBalanceThousand] []).withdrawals = none ∧
      (RequestWithdrawalOn Arith.float64 true (exLedger exSettings [exBalanceThousand] [])
        exOrganizer exWithdrawal (some exRequestID)).2.code = 201 ∧
      (Arith.float64.round exBalanceThousand.availableBalance =
          exBalanceThousand.availableBalance ∧
        Arith.float64.round exBalanceThousand.pendingBalance =
          exBalanceThousand.pendingBalance) ∧
      Arith.float64.round (exBalanceThousand.availableBalance - exWithdrawal.amount) =
        exBalanceThousand.availableBalance - exWithdrawal.amount ∧
      Arith.float64.round (exBalanceThousand.pendingBalance + exWithdrawal.amount) =
        exBalanceThousand.pendingBalance + exWithdrawal.amount) ∧
    first (fun b => b.organizerID == exOrganizer)
        (RequestWithdrawalOn Arith.float64 true (exLedger exSettings [exBalanceThousand] [])
          exOrganizer exWithdrawal (some exRequestID)).1.balances =
      some { exBalanceThousand with
        availableBalance := exBalanceThousand.availableBalance - exWithdrawal.amount,
        pendingBalance := exBalanceThousand.pendingBalance + exWithdrawal.amount } ∧
    first (fun b => b.organizerID == exOrganizer)
        (ReviewWithdrawalRequestOn Arith.float64 true
          (RequestWithdrawalOn Arith.float64 true (exLedger exSettings [exBalanceThousand] [])
            exOrganizer exWithdrawal (some exRequestID)).1 exRequestID exAdmin "reject" "no" 300
          true).1.balances = some exBalanceThousand :=
  ⟨⟨by decide!, by decide, by decide!, by decide!, by decide!, by decide!⟩,
    request_reject_round_trip Arith.float64 (exLedger exSettings [exBalanceThousand] [])
      exOrganizer exWithdrawal exRequestID exBalanceThousand exAdmin "no" 300 true (by decide!)
      (by decide) (by decide!) (by decide!) (by decide!) (by decide!)⟩

/-- C14. In `float64`, with an available balance of 9500.047499999999 (the
`float64` 5222706345337159 / 549755813888) and a pending balance of 0, a
request of 1000.04 is accepted, both balance saves succeed and the rejection
is stored; after the rejecting review of the created request the available
balance is 9500.0475 (the `float64` 652838293167145 / 68719476736), which is
2 ^ -39 more than before the request. -/
theorem round_trip_rounds :
    (exLedger exSettings [exBalanceOdd] []).balances.map
        (fun b => (b.totalEarnings, b.availableBalance, b.pendingBalance, b.withdrawnAmount)) =
      [(5222706345337159 / 549755813888, 5222706345337159 / 549755813888, 0, 0)] ∧
    (RequestWithdrawalOn Arith.float64 true (exLedger exSettings [exBalanceOdd] []) exOrganizer
        (exWithdrawalOf 100004) (some exRequestID)).2.code = 201 ∧
    (ReviewWithdrawalRequestOn Arith.float64 true
        (RequestWithdrawalOn Arith.float64 true (exLedger exSettings [exBalanceOdd] [])
          exOrganizer (exWithdrawalOf 100004) (some exRequestID)).1 exRequestID exAdmin "reject"
        "bank details" 300 true).2.code = 200 ∧
    (ReviewWithdrawalRequestOn Arith.float64 true
        (RequestWithdrawalOn Arith.float64 true (exLedger exSettings [exBalanceOdd] [])
          exOrganizer (exWithdrawalOf 100004) (some exRequestID)).1 exRequestID exAdmin "reject"
        "bank details" 300 true).1.balances.map
        (fun b => (b.totalEarnings, b.availableBalance, b.pendingBalance, b.withdrawnAmount)) =
      [(5222706345337159 / 549755813888, 652838293167145 / 68719476736, 0, 0)] := by
  refine ⟨by decide!, by decide!, by decide!, by decide!⟩

/-! ## The ledger on rounded amounts -/

/-- When the save of the balance row fails in `RequestWithdrawal`, whose result
the handler does not read, the request of 1000 is stored as pending and
answered with 201 while the balance row keeps available 1000 and pending 0. -/
theorem request_stored_balance_unsaved :
    (RequestWithdrawalOn Arith.exact false (exLedger exSettings [exBalanceThousand] [])
        exOrganizer exWithdrawal (some exRequestID)).2.code = 201 ∧
    (RequestWithdrawalOn Arith.exact false (exLedger exSettings [exBalanceThousand] [])
        exOrganizer exWithdrawal (some exRequestID)).1.withdrawals.map
        (fun w => (w.amount, w.status)) = [(1000, .pending)] ∧
    (RequestWithdrawalOn Arith.exact false (exLedger exSettings [exBalanceThousand] [])
        exOrganizer exWithdrawal (some exRequestID)).1.balances.map
        (fun b => (b.availableBalance, b.pendingBalance)) = [(1000, 0)] := by
  refine ⟨by decide!, by decide!, by decide!⟩

/-! ## The metadata of an order, from the checkout to the settlement -/

end RunApi
